import Mathlib

/-!
Shallow embedding of the term-based coordinator-election and full-state
replication core of `src/server.js` (the `Mogodb_replica` repository).

The registry is the literal two-node `databases` array of `server.js`
(lines 39-42): node id 2 first, node id 1 second.  Each MongoDB store is
modelled as a `Store`: the `Metadata` term document (absent or a number),
the `Test` collection as a list of records, and a counter `nextId` that
models MongoDB ObjectId generation for inserts that do not supply an
explicit `_id` (such inserts get fresh, previously unused identities).

Storage failures are modelled by explicit oracle parameters (`SyncFate`,
`ConnEnv`, `ElectEnv`, `WriteEnv`): each oracle says whether a given
storage call succeeds, mirroring the `try`/`catch` structure of the
source.  An uncaught storage error (there is no `try`/`catch` inside
`electCoordinator` / `canBecomeMaster`) is modelled by returning the
partially mutated state together with a `threw` flag.
-/

namespace MongoReplica

/-! ### Definitions -/

/-- Role of a node descriptor: `role` field of a `databases` entry. -/
inductive Role
  | unknown
  | master
  | slave
deriving DecidableEq, Repr

/-- An application record (`Test` document): Mongo identity `rid` (`_id`),
payload `data`, and creation timestamp `createdAt`. -/
structure Rec where
  rid : Nat
  data : String
  createdAt : Nat
deriving DecidableEq, Repr

/-- Per-node durable storage: the `Metadata` document keyed `"term"`
(`none` when the document is absent), the `Test` collection in natural
(insertion) order, and the fresh-identity counter modelling ObjectId
generation for inserts without an explicit `_id`. -/
structure Store where
  term : Option Nat
  recs : List Rec
  nextId : Nat
deriving DecidableEq, Repr

/-- One entry of the `databases` array of `server.js`: id, liveness flag,
role, in-memory term, whether `models[db.id]` has been populated, and the
node's durable store.  The `uri`/`connection` fields carry no algorithmic
state beyond liveness and are not modelled. -/
structure Node where
  id : Nat
  alive : Bool
  role : Role
  term : Nat
  hasModels : Bool
  store : Store
deriving DecidableEq, Repr

/-- The process-wide mutable state of `server.js`: the `databases` array,
the `coordinator` reference (modelled by the id of the referenced node;
ids are stable, so id lookup is equivalent to the JS object alias), and
`globalTerm`. -/
structure ClusterState where
  dbs : List Node
  coordinator : Option Nat
  globalTerm : Nat
deriving DecidableEq, Repr

/-- Lookup of a node by id (`databases.find(d => d.id === i)`). -/
def getNode? (s : ClusterState) (i : Nat) : Option Node :=
  s.dbs.find? (fun n => n.id == i)

/-- In-place mutation of the node with id `i` (JS mutates the array
element through an alias; ids are unique in the program). -/
def setNode (s : ClusterState) (i : Nat) (f : Node → Node) : ClusterState :=
  { s with dbs := s.dbs.map (fun n => if n.id == i then f n else n) }

/-- `getHighestTerm` (server.js lines 154-157): maximum in-memory term
over alive nodes, `0` when no node is alive.  Over naturals the guarded
`Math.max` equals a fold with neutral element `0`. -/
def getHighestTerm (s : ClusterState) : Nat :=
  ((s.dbs.filter (fun n => n.alive)).map (fun n => n.term)).foldr Nat.max 0

/-- Outcome oracle for one `syncDataFromMaster` call: success, or a
storage error at the read (`Test.find`), delete (`Test.deleteMany`),
bulk insert (`Test.insertMany`) or term persist (`Metadata.updateOne`)
step. -/
inductive SyncFate
  | ok
  | failRead
  | failDelete
  | failInsert
  | failPersist
deriving DecidableEq, Repr

/-- Bulk insert of `insertMany(masterData.map(d => ({data: d.data,
createdAt: d.createdAt})))` (server.js line 174): only payload and
timestamp are copied, so MongoDB assigns fresh identities; modelled by
consecutive values of the target's `nextId` counter. -/
def freshRecs : List Rec → Nat → List Rec
  | [], _ => []
  | r :: rs, n => { rid := n, data := r.data, createdAt := r.createdAt } :: freshRecs rs (n + 1)

/-- `syncDataFromMaster(db, master)` (server.js lines 159-182).  Returns
the mutated state and a flag saying whether a storage error was thrown.
Steps in source order: skip if target is the master (line 162); silent
no-op if either node's models are missing (line 167); read the master's
entire record set; delete the target's record set; bulk-insert the
projected records with fresh identities; set the target's in-memory term
to the master's in-memory term (line 178); finally persist the term with
`Metadata.updateOne({key:"term"},{term})`, which has no `upsert` and so
only updates an existing term document (line 180).  Delete/insert
failures are modelled atomically; nothing below depends on partially
applied deletes. -/
def syncDataFromMaster (s : ClusterState) (dbId masterId : Nat) (fate : SyncFate) :
    ClusterState × Bool :=
  if dbId == masterId then (s, false)
  else
    match getNode? s dbId, getNode? s masterId with
    | some db, some master =>
      if db.hasModels && master.hasModels then
        match fate with
        | SyncFate.failRead => (s, true)
        | SyncFate.failDelete => (s, true)
        | SyncFate.failInsert =>
          (setNode s dbId (fun n => { n with store := { n.store with recs := [] } }), true)
        | SyncFate.failPersist =>
          (setNode s dbId (fun n =>
            { n with
              term := master.term,
              store := { n.store with
                recs := freshRecs master.store.recs n.store.nextId,
                nextId := n.store.nextId + master.store.recs.length } }), true)
        | SyncFate.ok =>
          (setNode s dbId (fun n =>
            { n with
              term := master.term,
              store := { n.store with
                recs := freshRecs master.store.recs n.store.nextId,
                nextId := n.store.nextId + master.store.recs.length,
                term := n.store.term.map (fun _ => master.term) } }), false)
      else (s, false)
    | _, _ => (s, false)

/-- `canBecomeMaster(db)` (server.js lines 184-195).  Returns the state,
the eligibility result, and whether an uncaught storage error was thrown
by the triggered sync.  A candidate whose in-memory term is below the
highest alive term is rejected; if a coordinator is tracked
(`databases.find(d => d.id === coordinator?.id)`), the candidate is first
synchronized from it. -/
def canBecomeMaster (s : ClusterState) (i : Nat) (fate : SyncFate) :
    ClusterState × Bool × Bool :=
  match getNode? s i with
  | none => (s, true, false)
  | some db =>
    if db.term < getHighestTerm s then
      match s.coordinator with
      | none => (s, false, false)
      | some c =>
        match getNode? s c with
        | none => (s, false, false)
        | some _ =>
          match syncDataFromMaster s i c fate with
          | (s1, threw) => (s1, false, threw)
    else (s, true, false)

/-- Storage oracle for one `electCoordinator` run: whether the
`Metadata.updateOne(..., {upsert:true})` persist for a given node id
succeeds, and the fate of the sync targeting a given node id. -/
structure ElectEnv where
  persistOk : Nat → Bool
  syncFate : Nat → SyncFate

/-- Demotion loop of `electCoordinator` (server.js lines 211-219): every
entry of the alive-at-start list other than the winner is set to
role=slave and term=globalTerm, its term is persisted with `upsert:true`,
and it is fully resynchronized from the winner.  A storage failure
(persist or sync) is uncaught and aborts the loop. -/
def demoteOthers (env : ElectEnv) (winnerId gt : Nat) :
    ClusterState → List Nat → ClusterState × Bool
  | s, [] => (s, false)
  | s, i :: rest =>
    if i == winnerId then demoteOthers env winnerId gt s rest
    else
      let s1 := setNode s i (fun n => { n with role := Role.slave, term := gt })
      if env.persistOk i = false then (s1, true)
      else
        let s2 := setNode s1 i (fun n => { n with store := { n.store with term := some gt } })
        match syncDataFromMaster s2 i winnerId (env.syncFate i) with
        | (s3, threw) => if threw then (s3, true) else demoteOthers env winnerId gt s3 rest

/-- Candidate scan of `electCoordinator` (server.js lines 201-224):
candidates are tried in order; the first eligible one becomes
coordinator (`coordinator = db; coordinator.role = "master";
coordinator.term = globalTerm;` then the upserted persist), after which
the demotion loop runs over the full alive-at-start list `allIds`.  If no
candidate is eligible the coordinator is cleared (line 226). -/
def electScan (env : ElectEnv) (gt : Nat) (allIds : List Nat) :
    ClusterState → List Nat → ClusterState × Bool
  | s, [] => ({ s with coordinator := none }, false)
  | s, i :: rest =>
    match canBecomeMaster s i (env.syncFate i) with
    | (s1, elig, threw) =>
      if threw then (s1, true)
      else if elig then
        let s2 := { setNode s1 i (fun n => { n with role := Role.master, term := gt }) with
                    coordinator := some i }
        if env.persistOk i = false then (s2, true)
        else
          let s3 := setNode s2 i (fun n => { n with store := { n.store with term := some gt } })
          demoteOthers env i gt s3 allIds
      else electScan env gt allIds s1 rest

/-- Insertion step for the descending-id sort used by the election
(`.sort((a, b) => b.id - a.id)`). -/
def insertDesc (x : Node) : List Node → List Node
  | [] => [x]
  | y :: ys => if y.id ≤ x.id then x :: y :: ys else y :: insertDesc x ys

/-- Descending-id insertion sort (order semantics of the JS sort; ids are
unique so stability is irrelevant). -/
def sortDesc : List Node → List Node
  | [] => []
  | x :: xs => insertDesc x (sortDesc xs)

/-- `databases.filter(db => db.alive).sort((a, b) => b.id - a.id)`
projected to ids (server.js line 201). -/
def candidateIds (s : ClusterState) : List Nat :=
  (sortDesc (s.dbs.filter (fun n => n.alive))).map (fun n => n.id)

/-- `electCoordinator()` (server.js lines 197-227): increment
`globalTerm`, compute the alive candidates in descending id order, and
run the scan.  Returns the (possibly partially mutated) state and
whether an uncaught storage error aborted the run. -/
def electCoordinator (s : ClusterState) (env : ElectEnv) : ClusterState × Bool :=
  let s0 : ClusterState := { s with globalTerm := s.globalTerm + 1 }
  electScan env s0.globalTerm (candidateIds s0) s0 (candidateIds s0)

/-- Storage oracle for one `connectDBs` pass: whether establishing and
probing the connection of a given node succeeds, and the fate of the
rejoin sync targeting a given node id. -/
structure ConnEnv where
  connOk : Nat → Bool
  syncFate : Nat → SyncFate

/-- Per-node body of the `connectDBs` branch taken when a master exists
(server.js lines 79-115).  A dead node is reconnected, its models are
created, it is marked alive and then synced from the master found at
entry; any error in that block is caught and marks it dead again (role
and models are left as they were).  An already-alive node is only
reconnected; on failure it is marked dead with role reset to unknown. -/
def reconnectWithMaster (env : ConnEnv) (masterId : Nat) (s : ClusterState) (i : Nat) :
    ClusterState :=
  match getNode? s i with
  | none => s
  | some db =>
    if db.alive = false then
      if env.connOk i then
        let s1 := setNode s i (fun n => { n with hasModels := true, alive := true })
        match syncDataFromMaster s1 i masterId (env.syncFate i) with
        | (s2, threw) =>
          if threw then setNode s2 i (fun n => { n with alive := false }) else s2
      else s
    else
      if env.connOk i then s
      else setNode s i (fun n => { n with alive := false, role := Role.unknown })

/-- Per-node body of the `connectDBs` branch taken when no master exists
(server.js lines 121-148): connect, create models, probe, mark alive,
read the persisted term creating it at `0` if absent, and refresh the
in-memory term from it.  On failure: dead, role unknown. -/
def connectFresh (env : ConnEnv) (s : ClusterState) (i : Nat) : ClusterState :=
  if env.connOk i then
    setNode s i (fun n =>
      { n with
        hasModels := true,
        alive := true,
        term := n.store.term.getD 0,
        store := { n.store with term := some (n.store.term.getD 0) } })
  else
    setNode s i (fun n => { n with alive := false, role := Role.unknown })

/-- `connectDBs()` (server.js lines 76-149): the branch is chosen by
`databases.find(db => db.role === "master")` computed at entry, and the
loop runs over the `databases` array in order. -/
def connectDBs (s : ClusterState) (env : ConnEnv) : ClusterState :=
  match s.dbs.find? (fun n => n.role == Role.master) with
  | some m => (s.dbs.map (fun n => n.id)).foldl (reconnectWithMaster env m.id) s
  | none => (s.dbs.map (fun n => n.id)).foldl (connectFresh env) s

/-- Storage oracle for one write/update request: whether the
coordinator-local commit succeeds and whether the propagation to a given
replica id succeeds. -/
structure WriteEnv where
  masterOk : Bool
  slaveOk : Nat → Bool

/-- Result of `POST /api/write` as seen by the request layer. -/
inductive WriteResult
  | badRequest
  | noCoordinator
  | storageError
  | created
deriving DecidableEq, Repr

/-- Propagation loop of `POST /api/write` (server.js lines 258-270): for
each slave in the list computed up front, if its models exist the saved
document (including its `_id`, via `savedDoc.toObject()`) is saved to it;
a failure marks that slave not alive and the loop continues. -/
def propagateWrite (env : WriteEnv) (doc : Rec) :
    ClusterState → List Nat → ClusterState
  | s, [] => s
  | s, i :: rest =>
    match getNode? s i with
    | none => propagateWrite env doc s rest
    | some n =>
      if n.hasModels then
        if env.slaveOk i then
          propagateWrite env doc
            (setNode s i (fun m =>
              { m with store := { m.store with recs := m.store.recs ++ [doc] } })) rest
        else propagateWrite env doc (setNode s i (fun m => { m with alive := false })) rest
      else propagateWrite env doc s rest

/-- `POST /api/write` (server.js lines 247-276).  Empty data is the
falsy-`data` 400; a missing or dead coordinator is the 500
"No coordinator available"; a missing master model or failing save is a
caught 500; otherwise the document (with a fresh identity from the
coordinator's store) is committed on the coordinator and then propagated
to every alive non-coordinator node, and 201 is returned regardless of
propagation failures. -/
def apiWrite (s : ClusterState) (data : String) (now : Nat) (env : WriteEnv) :
    ClusterState × WriteResult :=
  if data = "" then (s, WriteResult.badRequest)
  else
    match s.coordinator with
    | none => (s, WriteResult.noCoordinator)
    | some c =>
      match getNode? s c with
      | none => (s, WriteResult.noCoordinator)
      | some cn =>
        if cn.alive = false then (s, WriteResult.noCoordinator)
        else if cn.hasModels = false then (s, WriteResult.storageError)
        else if env.masterOk = false then (s, WriteResult.storageError)
        else
          let doc : Rec := { rid := cn.store.nextId, data := data, createdAt := now }
          let s1 := setNode s c (fun n =>
            { n with store := { n.store with
                recs := n.store.recs ++ [doc],
                nextId := n.store.nextId + 1 } })
          let slaveIds := (s1.dbs.filter (fun n => n.alive && n.id != c)).map (fun n => n.id)
          (propagateWrite env doc s1 slaveIds, WriteResult.created)

/-- Result of `PUT /api/update/:id` as seen by the request layer. -/
inductive UpdateResult
  | badRequest
  | noCoordinator
  | storageError
  | notFound
  | updated
deriving DecidableEq, Repr

/-- `findByIdAndUpdate(id, { data })` on a record list: updates the
payload of the record with the given identity, if present. -/
def updateRecs (l : List Rec) (rid : Nat) (d : String) : List Rec :=
  l.map (fun r => if r.rid == rid then { r with data := d } else r)

/-- Propagation loop of `PUT /api/update/:id` (server.js lines 314-326):
each slave with models gets the same `findByIdAndUpdate`; a missing
document on the slave is a silent null result, a storage failure marks
the slave not alive and the loop continues. -/
def propagateUpdate (env : WriteEnv) (rid : Nat) (d : String) :
    ClusterState → List Nat → ClusterState
  | s, [] => s
  | s, i :: rest =>
    match getNode? s i with
    | none => propagateUpdate env rid d s rest
    | some n =>
      if n.hasModels then
        if env.slaveOk i then
          propagateUpdate env rid d
            (setNode s i (fun m =>
              { m with store := { m.store with recs := updateRecs m.store.recs rid d } })) rest
        else propagateUpdate env rid d (setNode s i (fun m => { m with alive := false })) rest
      else propagateUpdate env rid d s rest

/-- `PUT /api/update/:id` (server.js lines 298-332). -/
def apiUpdate (s : ClusterState) (rid : Nat) (data : String) (env : WriteEnv) :
    ClusterState × UpdateResult :=
  if data = "" then (s, UpdateResult.badRequest)
  else
    match s.coordinator with
    | none => (s, UpdateResult.noCoordinator)
    | some c =>
      match getNode? s c with
      | none => (s, UpdateResult.noCoordinator)
      | some cn =>
        if cn.alive = false then (s, UpdateResult.noCoordinator)
        else if cn.hasModels = false then (s, UpdateResult.storageError)
        else if env.masterOk = false then (s, UpdateResult.storageError)
        else if (cn.store.recs.any (fun r => r.rid == rid)) = false then
          (s, UpdateResult.notFound)
        else
          let s1 := setNode s c (fun n =>
            { n with store := { n.store with recs := updateRecs n.store.recs rid data } })
          let slaveIds := (s1.dbs.filter (fun n => n.alive && n.id != c)).map (fun n => n.id)
          (propagateUpdate env rid data s1 slaveIds, UpdateResult.updated)

/-- Successful response of `GET /api/read/:dbId` (server.js lines
278-296): role, term, and the first ten records projected to payload and
creation timestamp. -/
structure ReadResp where
  role : Role
  term : Nat
  data : List (String × Nat)
deriving DecidableEq, Repr

/-- `GET /api/read/:dbId`: 404 (modelled as `none`) for a missing or dead
node, otherwise `Model.find({}).limit(10)` projected to
`{data, createdAt}`. -/
def apiRead (s : ClusterState) (i : Nat) : Option ReadResp :=
  match getNode? s i with
  | none => none
  | some n =>
    if n.alive then
      some { role := n.role, term := n.term,
             data := (n.store.recs.take 10).map (fun r => (r.data, r.createdAt)) }
    else none

/-- A freshly started process's descriptor for node `i` over durable
store `st` (server.js lines 39-42): dead, role unknown, in-memory term
0, no models. -/
def initNode (i : Nat) (st : Store) : Node :=
  { id := i, alive := false, role := Role.unknown, term := 0, hasModels := false, store := st }

/-- Process start state: the literal two-entry `databases` array (id 2
then id 1), `coordinator = null`, `globalTerm = 0`; the durable stores
carry whatever the two MongoDB deployments already hold. -/
def startState (st2 st1 : Store) : ClusterState :=
  { dbs := [initNode 2 st2, initNode 1 st1], coordinator := none, globalTerm := 0 }

/-- Start states over arbitrary pre-existing storage contents. -/
def InitAny (s : ClusterState) : Prop :=
  ∃ st2 st1, s = startState st2 st1

/-- A store that holds no election history: the term document is absent
or zero. -/
def zeroStore (st : Store) : Prop :=
  st.term = none ∨ st.term = some 0

/-- Start states over fresh storage (no pre-existing nonzero terms). -/
def InitZero (s : ClusterState) : Prop :=
  ∃ st2 st1, s = startState st2 st1 ∧ zeroStore st2 ∧ zeroStore st1

/-- The condition under which `monitor()` (server.js lines 230-243) calls
`electCoordinator`: `!coordinator || !coordinator.alive` (the startup
call also satisfies it, since `coordinator` starts null). -/
def electTriggerB (s : ClusterState) : Bool :=
  match s.coordinator with
  | none => true
  | some c =>
    match getNode? s c with
    | none => true
    | some n => !n.alive

/-- One observable transition of the process, as driven by `monitor()`
and the request layer: a completed `connectDBs` pass, an
`electCoordinator` run (completed or aborted by an uncaught storage
error; only ever invoked under the monitor's trigger condition), or a
write/update request.  `GET /api/read` and `/api/status` do not mutate
state. -/
inductive Step : ClusterState → ClusterState → Prop
  | health (s : ClusterState) (env : ConnEnv) : Step s (connectDBs s env)
  | elect (s : ClusterState) (env : ElectEnv) (h : electTriggerB s = true) :
      Step s (electCoordinator s env).1
  | write (s : ClusterState) (d : String) (now : Nat) (env : WriteEnv) :
      Step s (apiWrite s d now env).1
  | update (s : ClusterState) (rid : Nat) (d : String) (env : WriteEnv) :
      Step s (apiUpdate s rid d env).1

/-- States reachable from a class of start states.  A process restart
against the surviving stores is itself an `InitAny` start state, so
`ReachFrom InitAny` also covers crash/restart traces. -/
inductive ReachFrom (init : ClusterState → Prop) : ClusterState → Prop
  | base (s : ClusterState) (h : init s) : ReachFrom init s
  | step (s t : ClusterState) (hs : ReachFrom init s) (st : Step s t) : ReachFrom init t

/-- Projection of a record list to payload and timestamp (what the sync
path actually copies). -/
def projRecs (l : List Rec) : List (String × Nat) :=
  l.map (fun r => (r.data, r.createdAt))

/-- Claim C1's safety property: among alive nodes, at most one has
role=master (stated as: any two alive masters are the same descriptor). -/
def AtMostOneAliveMaster (s : ClusterState) : Prop :=
  ∀ n m, n ∈ s.dbs → m ∈ s.dbs → n.alive = true → n.role = Role.master →
    m.alive = true → m.role = Role.master → n.id = m.id

/-- The persisted term of node `i` (its store's `Metadata` document). -/
def persistedTerm (s : ClusterState) (i : Nat) : Option Nat :=
  match getNode? s i with
  | some n => n.store.term
  | none => none

/-- Ordering on persisted terms under which creation (`none` to
`some 0`) and upserts count as non-decreasing: an absent document is
below everything, and present documents compare by value. -/
def optTermLe : Option Nat → Option Nat → Prop
  | none, _ => True
  | some a, some b => a ≤ b
  | some _, none => False

/-- Inductive registry invariant: the node ids are the literal `[2, 1]`
of `server.js`, and every master-role node is alive and is the node the
`coordinator` reference points to.  (Uniqueness of the master follows:
two masters would both equal the coordinator id.) -/
def Inv (s : ClusterState) : Prop :=
  s.dbs.map (fun n => n.id) = [2, 1] ∧
  (∀ n, n ∈ s.dbs → n.role = Role.master → n.alive = true ∧ s.coordinator = some n.id)

/-- Strengthened invariant for runs started on fresh storage: `Inv`,
every in-memory and persisted term is bounded by `globalTerm`, and a
master's in-memory term equals `globalTerm`. -/
def InvZ (s : ClusterState) : Prop :=
  Inv s ∧
  (∀ n, n ∈ s.dbs → n.term ≤ s.globalTerm ∧ ∀ t, n.store.term = some t → t ≤ s.globalTerm) ∧
  (∀ n, n ∈ s.dbs → n.role = Role.master → n.term = s.globalTerm)

/-- Rejection closure of the candidate scan: `ScanReach env s t` holds
when `t` arises from `s` by zero or more completed (non-throwing)
rejections of candidates, i.e. the states at which later candidates are
checked during one election pass. -/
inductive ScanReach (env : ElectEnv) : ClusterState → ClusterState → Prop
  | refl (s : ClusterState) : ScanReach env s s
  | rej (s s1 t : ClusterState) (i : Nat)
      (h : canBecomeMaster s i (env.syncFate i) = (s1, false, false))
      (hrest : ScanReach env s1 t) : ScanReach env s t

/-- The fields of a node that synchronization never touches. -/
def nodeKey (n : Node) : Nat × Bool × Role × Bool :=
  (n.id, n.alive, n.role, n.hasModels)

/-- The part of the state that synchronization never touches: per-node
keys, the coordinator reference, and the global term. -/
def skeleton (s : ClusterState) : List (Nat × Bool × Role × Bool) × Option Nat × Nat :=
  (s.dbs.map nodeKey, s.coordinator, s.globalTerm)

/-- No node currently holds role=master. -/
def NoMaster (s : ClusterState) : Prop :=
  ∀ n, n ∈ s.dbs → n.role ≠ Role.master

/-- The per-node data untouched by role/term bookkeeping: id and liveness. -/
def liveMap (s : ClusterState) : List (Nat × Bool) :=
  s.dbs.map (fun n => (n.id, n.alive))

/-- All in-memory terms and all persisted terms are bounded by `g`. -/
def TermsLeG (s : ClusterState) (g : Nat) : Prop :=
  ∀ n, n ∈ s.dbs → n.term ≤ g ∧ ∀ v, n.store.term = some v → v ≤ g

/-- Every master-role node's in-memory term equals `g`. -/
def MasterTermG (s : ClusterState) (g : Nat) : Prop :=
  ∀ n, n ∈ s.dbs → n.role = Role.master → n.term = g

/-- The per-node data untouched by the write and update request
handlers: id, role, in-memory term and persisted term. -/
def persKey (n : Node) : Nat × Role × Nat × Option Nat :=
  (n.id, n.role, n.term, n.store.term)

/-- The projection of the state that write and update preserve. -/
def persMap (s : ClusterState) : List (Nat × Role × Nat × Option Nat) :=
  s.dbs.map persKey

def c10store : Store :=
  { term := some 1,
    recs := (List.range 12).map (fun k => { rid := k, data := "d", createdAt := k }),
    nextId := 12 }

def c10node : Node :=
  { id := 2, alive := true, role := Role.master, term := 1, hasModels := true,
    store := c10store }

def c10state : ClusterState := { dbs := [c10node], coordinator := some 2, globalTerm := 1 }

def c5srcStore : Store := { term := some 3, recs := [{ rid := 5, data := "a", createdAt := 1 }], nextId := 6 }

def c5tgtStore : Store := { term := some 2, recs := [{ rid := 9, data := "old", createdAt := 0 }], nextId := 100 }

def c5state : ClusterState :=
  { dbs := [{ id := 2, alive := true, role := Role.master, term := 3, hasModels := true, store := c5srcStore },
            { id := 1, alive := true, role := Role.slave, term := 3, hasModels := true, store := c5tgtStore }],
    coordinator := some 2, globalTerm := 3 }

def c9srcStore : Store := { term := some 4, recs := [{ rid := 7, data := "x", createdAt := 2 }], nextId := 8 }

def c9tgtStore : Store := { term := some 4, recs := [], nextId := 50 }

def c9state : ClusterState :=
  { dbs := [{ id := 2, alive := true, role := Role.master, term := 4, hasModels := true, store := c9srcStore },
            { id := 1, alive := true, role := Role.slave, term := 4, hasModels := true, store := c9tgtStore }],
    coordinator := some 2, globalTerm := 4 }

def c8deadMaster : Node :=
  { id := 2, alive := false, role := Role.unknown, term := 5, hasModels := true,
    store := { term := some 5, recs := [], nextId := 0 } }

def c8slave : Node :=
  { id := 1, alive := false, role := Role.unknown, term := 5, hasModels := true,
    store := { term := some 5, recs := [], nextId := 0 } }

def c8state : ClusterState := { dbs := [c8deadMaster, c8slave], coordinator := some 2, globalTerm := 5 }

def c8wenv : WriteEnv := { masterOk := true, slaveOk := fun _ => true }

def c7master : Node :=
  { id := 2, alive := true, role := Role.master, term := 1, hasModels := true,
    store := { term := some 1, recs := [], nextId := 0 } }

def c7slave : Node :=
  { id := 1, alive := true, role := Role.slave, term := 1, hasModels := true,
    store := { term := some 1, recs := [], nextId := 0 } }

def c7state : ClusterState := { dbs := [c7master, c7slave], coordinator := some 2, globalTerm := 1 }

def c7env : WriteEnv := { masterOk := true, slaveOk := fun _ => false }

def c6node2 : Node :=
  { id := 2, alive := true, role := Role.unknown, term := 0, hasModels := true,
    store := { term := some 0, recs := [], nextId := 0 } }

def c6node1 : Node :=
  { id := 1, alive := true, role := Role.unknown, term := 0, hasModels := true,
    store := { term := some 0, recs := [], nextId := 0 } }

def c6state : ClusterState := { dbs := [c6node2, c6node1], coordinator := none, globalTerm := 0 }

def c6env : ElectEnv :=
  { persistOk := fun _ => true,
    syncFate := fun i => if i == 1 then SyncFate.failRead else SyncFate.ok }

def c6rejoinDead : Node :=
  { id := 1, alive := false, role := Role.slave, term := 2, hasModels := true,
    store := { term := some 2, recs := [], nextId := 0 } }

def c6rejoinMaster : Node :=
  { id := 2, alive := true, role := Role.master, term := 3, hasModels := true,
    store := { term := some 3, recs := [{ rid := 0, data := "z", createdAt := 1 }], nextId := 1 } }

def c6rejoinState : ClusterState :=
  { dbs := [c6rejoinMaster, c6rejoinDead], coordinator := some 2, globalTerm := 3 }

def c6rejoinEnv : ConnEnv := { connOk := fun _ => true, syncFate := fun _ => SyncFate.failInsert }

def c2low : Node :=
  { id := 2, alive := true, role := Role.unknown, term := 1, hasModels := true,
    store := { term := some 1, recs := [], nextId := 0 } }

def c2high : Node :=
  { id := 1, alive := true, role := Role.unknown, term := 5, hasModels := true,
    store := { term := some 5, recs := [], nextId := 0 } }

def c2state : ClusterState := { dbs := [c2low, c2high], coordinator := none, globalTerm := 0 }

def c4store2 : Store :=
  { term := some 0, recs := [{ rid := 1, data := "a", createdAt := 3 }], nextId := 2 }

def c4store1 : Store := { term := some 0, recs := [], nextId := 0 }

def c4node2 : Node :=
  { id := 2, alive := true, role := Role.unknown, term := 0, hasModels := true, store := c4store2 }

def c4node1 : Node :=
  { id := 1, alive := true, role := Role.unknown, term := 0, hasModels := true, store := c4store1 }

def c4state : ClusterState := { dbs := [c4node2, c4node1], coordinator := none, globalTerm := 0 }

def c4env : ElectEnv := { persistOk := fun _ => true, syncFate := fun _ => SyncFate.ok }

def c4post : ClusterState := (electCoordinator c4state c4env).1

def c3store2 : Store := { term := some 5, recs := [], nextId := 0 }

def c3store1 : Store := { term := some 7, recs := [], nextId := 0 }

def c3connEnv : ConnEnv := { connOk := fun _ => true, syncFate := fun _ => SyncFate.ok }

def c3mid : ClusterState := connectDBs (startState c3store2 c3store1) c3connEnv

def c3env : ElectEnv := { persistOk := fun _ => true, syncFate := fun _ => SyncFate.ok }

def c3post : ClusterState := (electCoordinator c3mid c3env).1

def c3zStore2 : Store := { term := none, recs := [], nextId := 0 }

def c3zStore1 : Store := { term := some 0, recs := [], nextId := 0 }

def c3zState : ClusterState := startState c3zStore2 c3zStore1

/-! ### Theorems -/

theorem setNode_coordinator (s : ClusterState) (i : Nat) (f : Node → Node) :
    (setNode s i f).coordinator = s.coordinator := rfl

theorem setNode_globalTerm (s : ClusterState) (i : Nat) (f : Node → Node) :
    (setNode s i f).globalTerm = s.globalTerm := rfl

theorem setNode_skeleton (s : ClusterState) (i : Nat) (f : Node → Node)
    (hf : ∀ n, nodeKey (f n) = nodeKey n) :
    skeleton (setNode s i f) = skeleton s := by
  unfold skeleton setNode
  simp only [List.map_map]
  refine congrArg (fun l => (l, s.coordinator, s.globalTerm)) ?_
  apply List.map_congr_left
  intro n _
  by_cases h : n.id = i <;> simp [h, hf]

theorem skeleton_dbs_map {s s' : ClusterState} (h : skeleton s' = skeleton s) :
    s'.dbs.map nodeKey = s.dbs.map nodeKey := congrArg Prod.fst h

theorem skeleton_coordinator {s s' : ClusterState} (h : skeleton s' = skeleton s) :
    s'.coordinator = s.coordinator := congrArg (fun p => p.2.1) h

theorem skeleton_globalTerm {s s' : ClusterState} (h : skeleton s' = skeleton s) :
    s'.globalTerm = s.globalTerm := congrArg (fun p => p.2.2) h

theorem skeleton_ids {s s' : ClusterState} (h : skeleton s' = skeleton s) :
    s'.dbs.map (fun n => n.id) = s.dbs.map (fun n => n.id) := by
  have h1 := skeleton_dbs_map h
  have h2 : ∀ t : ClusterState, t.dbs.map (fun n => n.id) = (t.dbs.map nodeKey).map Prod.fst := by
    intro t
    simp [List.map_map, nodeKey]
  rw [h2, h2, h1]

theorem mem_of_skeleton_eq {s s' : ClusterState} (h : skeleton s' = skeleton s)
    {n' : Node} (hn : n' ∈ s'.dbs) :
    ∃ n, n ∈ s.dbs ∧ n.id = n'.id ∧ n.alive = n'.alive ∧ n.role = n'.role ∧
      n.hasModels = n'.hasModels := by
  have h1 : nodeKey n' ∈ s.dbs.map nodeKey := by
    rw [← skeleton_dbs_map h]
    exact List.mem_map_of_mem nodeKey hn
  rcases List.mem_map.mp h1 with ⟨n, hmem, hkey⟩
  have hkey' : n.id = n'.id ∧ n.alive = n'.alive ∧ n.role = n'.role ∧
      n.hasModels = n'.hasModels := by
    simpa [nodeKey, Prod.ext_iff] using hkey
  exact ⟨n, hmem, hkey'⟩

theorem inv_of_skeleton_eq {s s' : ClusterState} (h : skeleton s' = skeleton s)
    (hi : Inv s) : Inv s' := by
  obtain ⟨hids, hmaster⟩ := hi
  constructor
  · rw [skeleton_ids h, hids]
  · intro n' hn' hrole
    rcases mem_of_skeleton_eq h hn' with ⟨n, hmem, hid, halive, hrmap, _⟩
    have := hmaster n hmem (by rw [hrmap, hrole])
    rw [skeleton_coordinator h, ← hid, halive] at *
    exact ⟨this.1, by rw [← hid]; exact this.2⟩

theorem noMaster_of_skeleton_eq {s s' : ClusterState} (h : skeleton s' = skeleton s)
    (hnm : NoMaster s) : NoMaster s' := by
  intro n' hn' hrole
  rcases mem_of_skeleton_eq h hn' with ⟨n, hmem, _, _, hrmap, _⟩
  exact hnm n hmem (by rw [hrmap, hrole])

theorem find?_map_pres (l : List Node) (i j : Nat) (f : Node → Node)
    (hf : ∀ n, (f n).id = n.id) :
    (l.map (fun n => if n.id == i then f n else n)).find? (fun n => n.id == j) =
      (l.find? (fun n => n.id == j)).map (fun n => if n.id == i then f n else n) := by
  induction l with
  | nil => rfl
  | cons a l ih =>
    have hid : (if a.id == i then f a else a).id = a.id := by
      by_cases hai : a.id = i <;> simp [hai, hf]
    by_cases hj : a.id = j
    · rw [List.map_cons,
        List.find?_cons_of_pos _ (by simp only [hid]; simp [hj]),
        List.find?_cons_of_pos _ (by simp [hj])]
      rfl
    · rw [List.map_cons,
        List.find?_cons_of_neg _ (by simp only [hid]; simp [hj]),
        List.find?_cons_of_neg _ (by simp [hj]), ih]

theorem getNode?_setNode (s : ClusterState) (i j : Nat) (f : Node → Node)
    (hf : ∀ n, (f n).id = n.id) :
    getNode? (setNode s i f) j =
      (getNode? s j).map (fun n => if n.id == i then f n else n) := by
  unfold getNode? setNode
  exact find?_map_pres s.dbs i j f hf

theorem getNode?_id {s : ClusterState} {j : Nat} {n : Node}
    (h : getNode? s j = some n) : n.id = j ∧ n ∈ s.dbs := by
  unfold getNode? at h
  have h1 := List.find?_some h
  have h2 := List.mem_of_find?_eq_some h
  exact ⟨by simpa using h1, h2⟩

theorem getNode?_setNode_ne (s : ClusterState) (i j : Nat) (f : Node → Node)
    (hf : ∀ n, (f n).id = n.id) (hij : j ≠ i) :
    getNode? (setNode s i f) j = getNode? s j := by
  rw [getNode?_setNode s i j f hf]
  cases h : getNode? s j with
  | none => rfl
  | some n =>
    have := (getNode?_id h).1
    simp [Option.map, this, hij]

theorem getNode?_setNode_self (s : ClusterState) (i : Nat) (f : Node → Node)
    (hf : ∀ n, (f n).id = n.id) :
    getNode? (setNode s i f) i = (getNode? s i).map f := by
  rw [getNode?_setNode s i i f hf]
  cases h : getNode? s i with
  | none => rfl
  | some n =>
    have := (getNode?_id h).1
    simp [Option.map, this]

theorem dbs_shape {s : ClusterState} (h : s.dbs.map (fun n => n.id) = [2, 1]) :
    ∃ a b, s.dbs = [a, b] ∧ a.id = 2 ∧ b.id = 1 := by
  cases hd : s.dbs with
  | nil => rw [hd] at h; simp at h
  | cons a t =>
    cases ht : t with
    | nil => rw [hd, ht] at h; simp at h
    | cons b u =>
      cases hu : u with
      | nil =>
        rw [hd, ht, hu] at h
        simp at h
        exact ⟨a, b, rfl, h.1, h.2⟩
      | cons c v => rw [hd, ht, hu] at h; simp at h

theorem getNode?_self {s : ClusterState} (h : s.dbs.map (fun n => n.id) = [2, 1])
    {n : Node} (hn : n ∈ s.dbs) : getNode? s n.id = some n := by
  rcases dbs_shape h with ⟨a, b, hdbs, ha, hb⟩
  rw [hdbs] at hn
  unfold getNode?
  rw [hdbs]
  rcases List.mem_pair.mp hn with rfl | rfl
  · exact List.find?_cons_of_pos _ (by simp)
  · rw [List.find?_cons_of_neg _ (by simp [ha, hb])]
    exact List.find?_cons_of_pos _ (by simp)

theorem sync_skeleton (s : ClusterState) (i m : Nat) (fate : SyncFate) :
    skeleton (syncDataFromMaster s i m fate).1 = skeleton s := by
  unfold syncDataFromMaster
  repeat' split
  all_goals first
    | rfl
    | (apply setNode_skeleton; intro n; rfl)

theorem sync_getNode?_ne (s : ClusterState) (i m : Nat) (fate : SyncFate) (j : Nat)
    (hj : j ≠ i) :
    getNode? (syncDataFromMaster s i m fate).1 j = getNode? s j := by
  unfold syncDataFromMaster
  repeat' split
  all_goals first
    | rfl
    | (exact getNode?_setNode_ne s i j _ (fun n => rfl) hj)

theorem getNode?_key_setNode (s : ClusterState) (i : Nat) (f : Node → Node)
    (hf : ∀ n, nodeKey (f n) = nodeKey n) (j : Nat) :
    (getNode? (setNode s i f) j).map nodeKey = (getNode? s j).map nodeKey := by
  have hfid : ∀ n, (f n).id = n.id := fun n => congrArg (fun k => k.1) (hf n)
  rw [getNode?_setNode s i j f hfid]
  cases getNode? s j with
  | none => rfl
  | some n => by_cases h : n.id = i <;> simp [h, hf]

theorem sync_key (s : ClusterState) (i m : Nat) (fate : SyncFate) (j : Nat) :
    (getNode? (syncDataFromMaster s i m fate).1 j).map nodeKey =
      (getNode? s j).map nodeKey := by
  unfold syncDataFromMaster
  repeat' split
  all_goals first
    | rfl
    | (apply getNode?_key_setNode s i _ _ j; intro n; rfl)

theorem inv_setNode (s : ClusterState) (i : Nat) (f : Node → Node)
    (hfid : ∀ n, (f n).id = n.id)
    (h : ∀ n, n ∈ s.dbs → n.id = i → (f n).role = Role.master →
      (f n).alive = true ∧ s.coordinator = some n.id)
    (hi : Inv s) : Inv (setNode s i f) := by
  obtain ⟨hids, hm⟩ := hi
  constructor
  · show (s.dbs.map fun n => if n.id == i then f n else n).map (fun n => n.id) = [2, 1]
    rw [List.map_map, ← hids]
    apply List.map_congr_left
    intro n _
    by_cases hni : n.id = i <;> simp [hni, hfid]
  · intro n' hn' hrole
    rcases List.mem_map.mp hn' with ⟨n, hn, hite⟩
    by_cases hni : n.id = i
    · rw [if_pos (by simp [hni])] at hite
      subst hite
      have := h n hn hni hrole
      exact ⟨this.1, by rw [hfid]; exact this.2⟩
    · rw [if_neg (by simp [hni])] at hite
      subst hite
      exact hm n hn hrole

theorem mem_id_unique {s : ClusterState} (h : s.dbs.map (fun n => n.id) = [2, 1])
    {n m : Node} (hn : n ∈ s.dbs) (hm : m ∈ s.dbs) (hid : n.id = m.id) : n = m := by
  rcases dbs_shape h with ⟨a, b, hdbs, ha, hb⟩
  rw [hdbs] at hn hm
  rcases List.mem_pair.mp hn with rfl | rfl <;>
    rcases List.mem_pair.mp hm with rfl | rfl <;>
      first | rfl | (exfalso; rw [ha, hb] at hid; omega)

theorem mem_insertDesc (x y : Node) (l : List Node) :
    y ∈ insertDesc x l ↔ y = x ∨ y ∈ l := by
  induction l with
  | nil => simp [insertDesc]
  | cons a l ih =>
    unfold insertDesc
    by_cases h : a.id ≤ x.id
    · simp [h]
    · simp only [if_neg h, List.mem_cons, ih]
      tauto

theorem mem_sortDesc (y : Node) (l : List Node) : y ∈ sortDesc l ↔ y ∈ l := by
  induction l with
  | nil => simp [sortDesc]
  | cons a l ih =>
    unfold sortDesc
    rw [mem_insertDesc, ih, List.mem_cons]

theorem mem_candidateIds {s : ClusterState} {i : Nat} (h : i ∈ candidateIds s) :
    ∃ x, x ∈ s.dbs ∧ x.alive = true ∧ x.id = i := by
  unfold candidateIds at h
  rcases List.mem_map.mp h with ⟨x, hx, hid⟩
  rw [mem_sortDesc] at hx
  have := List.mem_filter.mp hx
  exact ⟨x, this.1, by simpa using this.2, hid⟩

theorem foldl_pres {P : ClusterState → Prop} (g : ClusterState → Nat → ClusterState)
    (h : ∀ s i, P s → P (g s i)) :
    ∀ (l : List Nat) (s : ClusterState), P s → P (l.foldl g s) := by
  intro l
  induction l with
  | nil => intro s hs; exact hs
  | cons i rest ih => intro s hs; exact ih _ (h s i hs)

theorem canBecomeMaster_skeleton (s : ClusterState) (i : Nat) (fate : SyncFate) :
    skeleton (canBecomeMaster s i fate).1 = skeleton s := by
  unfold canBecomeMaster
  repeat' split
  all_goals try rfl
  all_goals
    rename_i s1 threw heq
    have h := congrArg (fun p : ClusterState × Bool => skeleton p.1) heq
    dsimp only at h
    rw [sync_skeleton] at h
    exact h.symm

theorem inv_sync (s : ClusterState) (i m : Nat) (fate : SyncFate) (hi : Inv s) :
    Inv (syncDataFromMaster s i m fate).1 :=
  inv_of_skeleton_eq (sync_skeleton s i m fate) hi

theorem noMaster_setNode (s : ClusterState) (i : Nat) (f : Node → Node)
    (hf : ∀ n, (f n).role = Role.master → n.role = Role.master)
    (h : NoMaster s) : NoMaster (setNode s i f) := by
  intro n' hn' hr
  rcases List.mem_map.mp hn' with ⟨n, hn, hite⟩
  by_cases hni : n.id = i
  · rw [if_pos (by simp [hni])] at hite
    subst hite
    exact h n hn (hf n hr)
  · rw [if_neg (by simp [hni])] at hite
    subst hite
    exact h n hn hr

theorem inv_demote (env : ElectEnv) (w gt : Nat) :
    ∀ (l : List Nat) (s : ClusterState), Inv s → Inv (demoteOthers env w gt s l).1 := by
  intro l
  induction l with
  | nil => intro s hi; exact hi
  | cons i rest ih =>
    intro s hi
    simp only [demoteOthers]
    by_cases hw : (i == w) = true
    · rw [if_pos hw]
      exact ih s hi
    · rw [if_neg hw]
      have hi1 : Inv (setNode s i (fun n => { n with role := Role.slave, term := gt })) :=
        inv_setNode s i _ (fun n => rfl) (fun n _ _ hr => by simp at hr) hi
      by_cases hp : env.persistOk i = false
      · rw [if_pos hp]
        exact hi1
      · rw [if_neg hp]
        have hi2 : Inv (setNode
            (setNode s i (fun n => { n with role := Role.slave, term := gt })) i
            (fun n => { n with store := { n.store with term := some gt } })) :=
          inv_of_skeleton_eq (setNode_skeleton _ i _ (fun n => rfl)) hi1
        cases hsync : syncDataFromMaster
            (setNode (setNode s i (fun n => { n with role := Role.slave, term := gt })) i
              (fun n => { n with store := { n.store with term := some gt } }))
            i w (env.syncFate i) with
        | mk s3 threw =>
          have hi3 : Inv s3 := by
            have := inv_sync _ i w (env.syncFate i) hi2
            rw [hsync] at this
            exact this
          cases threw with
          | true => exact hi3
          | false => exact ih s3 hi3

theorem inv_electScan (env : ElectEnv) (gt : Nat) (allIds : List Nat) :
    ∀ (cands : List Nat) (s : ClusterState), Inv s → NoMaster s →
      (∀ q, q ∈ cands → ∀ n, n ∈ s.dbs → n.id = q → n.alive = true) →
      Inv (electScan env gt allIds s cands).1 := by
  intro cands
  induction cands with
  | nil =>
    intro s hi hnm _
    exact ⟨hi.1, fun n hn hr => absurd hr (hnm n hn)⟩
  | cons i rest ih =>
    intro s hi hnm hca
    simp only [electScan]
    cases hc : canBecomeMaster s i (env.syncFate i) with
    | mk s1 p =>
      cases p with
      | mk elig threw =>
        have hskel : skeleton s1 = skeleton s := by
          have := canBecomeMaster_skeleton s i (env.syncFate i)
          rw [hc] at this
          exact this
        have hi1 : Inv s1 := inv_of_skeleton_eq hskel hi
        have hnm1 : NoMaster s1 := noMaster_of_skeleton_eq hskel hnm
        have hca1 : ∀ q, q ∈ i :: rest → ∀ n, n ∈ s1.dbs → n.id = q → n.alive = true := by
          intro q hq n hn hid
          rcases mem_of_skeleton_eq hskel hn with ⟨n0, hmem0, hid0, hal0, _, _⟩
          rw [← hal0]
          exact hca q hq n0 hmem0 (by rw [hid0, hid])
        cases threw with
        | true => exact hi1
        | false =>
          cases elig with
          | false =>
            exact ih s1 hi1 hnm1 (fun q hq => hca1 q (List.mem_cons_of_mem _ hq))
          | true =>
            have hi2 : Inv { setNode s1 i (fun n => { n with role := Role.master, term := gt }) with
                coordinator := some i } := by
              constructor
              · show (s1.dbs.map fun n =>
                    if n.id == i then { n with role := Role.master, term := gt } else n).map
                      (fun n => n.id) = [2, 1]
                rw [List.map_map, ← hi1.1]
                apply List.map_congr_left
                intro n _
                by_cases hni : n.id = i <;> simp [hni]
              · intro n' hn' hr
                rcases List.mem_map.mp hn' with ⟨n, hn, hite⟩
                by_cases hni : n.id = i
                · rw [if_pos (by simp [hni])] at hite
                  subst hite
                  exact ⟨hca1 i (List.mem_cons_self i rest) n hn hni, by simp [hni]⟩
                · rw [if_neg (by simp [hni])] at hite
                  subst hite
                  exact absurd hr (hnm1 n hn)
            by_cases hp : env.persistOk i = false
            · rw [if_pos hp]
              exact hi2
            · rw [if_neg hp]
              apply inv_demote
              exact inv_of_skeleton_eq (setNode_skeleton _ i _ (fun n => rfl)) hi2

theorem noMaster_of_trigger {s : ClusterState} (hi : Inv s) (ht : electTriggerB s = true) :
    NoMaster s := by
  intro n hn hr
  obtain ⟨hal, hco⟩ := hi.2 n hn hr
  unfold electTriggerB at ht
  rw [hco] at ht
  dsimp only at ht
  rw [getNode?_self hi.1 hn] at ht
  simp [hal] at ht

theorem inv_elect (s : ClusterState) (env : ElectEnv) (hi : Inv s)
    (ht : electTriggerB s = true) : Inv (electCoordinator s env).1 := by
  have hnm : NoMaster s := noMaster_of_trigger hi ht
  unfold electCoordinator
  apply inv_electScan
  · exact ⟨hi.1, hi.2⟩
  · exact hnm
  · intro q hq n hn hid
    rcases mem_candidateIds hq with ⟨x, hx, hxal, hxid⟩
    have hnx : n = x := mem_id_unique hi.1 hn hx (by rw [hid, hxid])
    rw [hnx]
    exact hxal

theorem noMaster_of_find?_none {s : ClusterState}
    (h : s.dbs.find? (fun n => n.role == Role.master) = none) : NoMaster s := by
  intro n hn hr
  have := List.find?_eq_none.mp h n hn
  simp [hr] at this

theorem inv_connectFresh_step (env : ConnEnv) :
    ∀ (s : ClusterState) (i : Nat), Inv s ∧ NoMaster s →
      Inv (connectFresh env s i) ∧ NoMaster (connectFresh env s i) := by
  rintro s i ⟨hi, hnm⟩
  unfold connectFresh
  by_cases hc : env.connOk i
  · rw [if_pos hc]
    refine ⟨inv_setNode s i _ (fun n => rfl) (fun n hn _ hr => absurd hr (hnm n hn)) hi, ?_⟩
    exact noMaster_setNode s i _ (fun n hr => hr) hnm
  · rw [if_neg hc]
    refine ⟨inv_setNode s i _ (fun n => rfl) (fun n _ _ hr => by simp at hr) hi, ?_⟩
    exact noMaster_setNode s i _ (fun n hr => by simp at hr) hnm

theorem inv_reconnect_step (env : ConnEnv) (mId : Nat) :
    ∀ (s : ClusterState) (i : Nat), Inv s → Inv (reconnectWithMaster env mId s i) := by
  intro s i hi
  unfold reconnectWithMaster
  cases hdb : getNode? s i with
  | none => exact hi
  | some db =>
    dsimp only
    by_cases hal : db.alive = false
    · rw [if_pos hal]
      by_cases hc : env.connOk i
      · rw [if_pos hc]
        have hi1 : Inv (setNode s i (fun n => { n with hasModels := true, alive := true })) :=
          inv_setNode s i _ (fun n => rfl) (fun n hn _ hr => ⟨rfl, (hi.2 n hn hr).2⟩) hi
        cases hsync : syncDataFromMaster
            (setNode s i (fun n => { n with hasModels := true, alive := true }))
            i mId (env.syncFate i) with
        | mk s2 threw =>
          have hi2 : Inv s2 := by
            have := inv_sync _ i mId (env.syncFate i) hi1
            rw [hsync] at this
            exact this
          cases threw with
          | false => exact hi2
          | true =>
            dsimp only
            apply inv_setNode s2 i _ ?_ ?_ hi2
            · intro n
              rfl
            intro n hn hnid hr
            exfalso
            have hget2 : getNode? s2 i = some n := by
              have := getNode?_self hi2.1 hn
              rw [hnid] at this
              exact this
            have hkey := sync_key (setNode s i (fun n => { n with hasModels := true, alive := true }))
              i mId (env.syncFate i) i
            rw [hsync] at hkey
            dsimp only at hkey
            rw [getNode?_setNode_self s i
              (fun n => { n with hasModels := true, alive := true }) (fun n => rfl), hdb,
              hget2] at hkey
            have hrole : n.role = db.role := by
              have h1 := congrArg (fun o => o.map (fun k : Nat × Bool × Role × Bool => k.2.2.1)) hkey
              simpa [nodeKey] using h1
            have hdbmem := (getNode?_id hdb).2
            have := (hi.2 db hdbmem (by rw [← hrole]; exact hr)).1
            rw [this] at hal
            exact absurd hal (by simp)
      · rw [if_neg hc]
        exact hi
    · rw [if_neg hal]
      by_cases hc : env.connOk i
      · rw [if_pos hc]
        exact hi
      · rw [if_neg hc]
        exact inv_setNode s i _ (fun n => rfl) (fun n _ _ hr => by simp at hr) hi

theorem inv_connectDBs (s : ClusterState) (env : ConnEnv) (hi : Inv s) :
    Inv (connectDBs s env) := by
  unfold connectDBs
  cases hf : s.dbs.find? (fun n => n.role == Role.master) with
  | some m =>
    exact foldl_pres _ (fun t j ht => inv_reconnect_step env m.id t j ht) _ s hi
  | none =>
    have hnm : NoMaster s := noMaster_of_find?_none hf
    exact (foldl_pres _ (inv_connectFresh_step env) _ s ⟨hi, hnm⟩).1

theorem inv_propagateWrite (env : WriteEnv) (doc : Rec) (c : Nat) :
    ∀ (l : List Nat) (s : ClusterState), Inv s → s.coordinator = some c →
      (∀ j, j ∈ l → j ≠ c) → Inv (propagateWrite env doc s l) := by
  intro l
  induction l with
  | nil =>
    intro s hi _ _
    exact hi
  | cons i rest ih =>
    intro s hi hco hne
    have hne' : ∀ j, j ∈ rest → j ≠ c := fun j hj => hne j (List.mem_cons_of_mem _ hj)
    simp only [propagateWrite]
    cases hdb : getNode? s i with
    | none => exact ih s hi hco hne'
    | some n =>
      dsimp only
      by_cases hm : n.hasModels = true
      · rw [if_pos hm]
        by_cases hok : env.slaveOk i
        · rw [if_pos hok]
          apply ih
          · exact inv_of_skeleton_eq (setNode_skeleton s i _ (fun n => rfl)) hi
          · exact hco
          · exact hne'
        · rw [if_neg hok]
          apply ih
          · apply inv_setNode s i _ ?_ ?_ hi
            · intro n
              rfl
            intro x hx hxid hr
            exfalso
            have hxco := (hi.2 x hx hr).2
            rw [hco] at hxco
            have : c = x.id := by
              injection hxco
            exact hne i (List.mem_cons_self i rest) (by rw [← hxid, ← this])
          · exact hco
          · exact hne'
      · rw [if_neg hm]
        exact ih s hi hco hne'

theorem inv_propagateUpdate (env : WriteEnv) (rid : Nat) (d : String) (c : Nat) :
    ∀ (l : List Nat) (s : ClusterState), Inv s → s.coordinator = some c →
      (∀ j, j ∈ l → j ≠ c) → Inv (propagateUpdate env rid d s l) := by
  intro l
  induction l with
  | nil =>
    intro s hi _ _
    exact hi
  | cons i rest ih =>
    intro s hi hco hne
    have hne' : ∀ j, j ∈ rest → j ≠ c := fun j hj => hne j (List.mem_cons_of_mem _ hj)
    simp only [propagateUpdate]
    cases hdb : getNode? s i with
    | none => exact ih s hi hco hne'
    | some n =>
      dsimp only
      by_cases hm : n.hasModels = true
      · rw [if_pos hm]
        by_cases hok : env.slaveOk i
        · rw [if_pos hok]
          apply ih
          · exact inv_of_skeleton_eq (setNode_skeleton s i _ (fun n => rfl)) hi
          · exact hco
          · exact hne'
        · rw [if_neg hok]
          apply ih
          · apply inv_setNode s i _ ?_ ?_ hi
            · intro n
              rfl
            intro x hx hxid hr
            exfalso
            have hxco := (hi.2 x hx hr).2
            rw [hco] at hxco
            have : c = x.id := by
              injection hxco
            exact hne i (List.mem_cons_self i rest) (by rw [← hxid, ← this])
          · exact hco
          · exact hne'
      · rw [if_neg hm]
        exact ih s hi hco hne'

theorem slaveIds_ne {s : ClusterState} {c j : Nat}
    (hj : j ∈ (s.dbs.filter (fun n => n.alive && n.id != c)).map (fun n => n.id)) :
    j ≠ c := by
  rcases List.mem_map.mp hj with ⟨x, hx, hid⟩
  have := (List.mem_filter.mp hx).2
  simp only [Bool.and_eq_true, bne_iff_ne, ne_eq] at this
  rw [← hid]
  exact this.2

theorem inv_apiWrite (s : ClusterState) (data : String) (now : Nat) (env : WriteEnv)
    (hi : Inv s) : Inv (apiWrite s data now env).1 := by
  unfold apiWrite
  by_cases hd : data = ""
  · rw [if_pos hd]
    exact hi
  · rw [if_neg hd]
    cases hc : s.coordinator with
    | none => exact hi
    | some c =>
      dsimp only
      cases hcn : getNode? s c with
      | none => exact hi
      | some cn =>
        dsimp only
        by_cases hal : cn.alive = false
        · rw [if_pos hal]
          exact hi
        · rw [if_neg hal]
          by_cases hmM : cn.hasModels = false
          · rw [if_pos hmM]
            exact hi
          · rw [if_neg hmM]
            by_cases hok : env.masterOk = false
            · rw [if_pos hok]
              exact hi
            · rw [if_neg hok]
              apply inv_propagateWrite env _ c _ _ ?_ ?_ ?_
              · exact inv_of_skeleton_eq (setNode_skeleton s c _ (fun n => rfl)) hi
              · exact hc
              · intro j hj
                exact slaveIds_ne hj

theorem inv_apiUpdate (s : ClusterState) (rid : Nat) (data : String) (env : WriteEnv)
    (hi : Inv s) : Inv (apiUpdate s rid data env).1 := by
  unfold apiUpdate
  by_cases hd : data = ""
  · rw [if_pos hd]
    exact hi
  · rw [if_neg hd]
    cases hc : s.coordinator with
    | none => exact hi
    | some c =>
      dsimp only
      cases hcn : getNode? s c with
      | none => exact hi
      | some cn =>
        dsimp only
        by_cases hal : cn.alive = false
        · rw [if_pos hal]
          exact hi
        · rw [if_neg hal]
          by_cases hmM : cn.hasModels = false
          · rw [if_pos hmM]
            exact hi
          · rw [if_neg hmM]
            by_cases hok : env.masterOk = false
            · rw [if_pos hok]
              exact hi
            · rw [if_neg hok]
              by_cases hfound : (cn.store.recs.any (fun r => r.rid == rid)) = false
              · rw [if_pos hfound]
                exact hi
              · rw [if_neg hfound]
                apply inv_propagateUpdate env rid data c _ _ ?_ ?_ ?_
                · exact inv_of_skeleton_eq (setNode_skeleton s c _ (fun n => rfl)) hi
                · exact hc
                · intro j hj
                  exact slaveIds_ne hj

theorem inv_step {s t : ClusterState} (hi : Inv s) (st : Step s t) : Inv t := by
  cases st with
  | health env => exact inv_connectDBs s env hi
  | elect env h => exact inv_elect s env hi h
  | write d now env => exact inv_apiWrite s d now env hi
  | update rid d env => exact inv_apiUpdate s rid d env hi

theorem inv_init {s : ClusterState} (h : InitAny s) : Inv s := by
  rcases h with ⟨st2, st1, rfl⟩
  constructor
  · rfl
  · intro n hn hr
    rcases List.mem_pair.mp hn with rfl | rfl <;> simp [initNode] at hr

theorem inv_reach {s : ClusterState} (h : ReachFrom InitAny s) : Inv s := by
  induction h with
  | base s h => exact inv_init h
  | step s t hs st ih => exact inv_step ih st

theorem projRecs_freshRecs : ∀ (l : List Rec) (n : Nat), projRecs (freshRecs l n) = projRecs l := by
  intro l
  induction l with
  | nil => intro n; rfl
  | cons r rs ih =>
    intro n
    simp only [freshRecs, projRecs, List.map_cons]
    rw [show (freshRecs rs (n + 1)).map (fun r => (r.data, r.createdAt)) =
      projRecs (freshRecs rs (n + 1)) from rfl, ih]
    rfl

theorem sync_self (s : ClusterState) (i : Nat) (fate : SyncFate) :
    syncDataFromMaster s i i fate = (s, false) := by
  unfold syncDataFromMaster
  rw [if_pos (by simp)]

theorem sync_ok_effect (s : ClusterState) (tgt src : Nat) (db master : Node)
    (hne : tgt ≠ src) (hdb : getNode? s tgt = some db) (hmaster : getNode? s src = some master)
    (hm1 : db.hasModels = true) (hm2 : master.hasModels = true) :
    syncDataFromMaster s tgt src SyncFate.ok =
      (setNode s tgt (fun n =>
        { n with
          term := master.term,
          store := { n.store with
            recs := freshRecs master.store.recs n.store.nextId,
            nextId := n.store.nextId + master.store.recs.length,
            term := n.store.term.map (fun _ => master.term) } }), false) := by
  unfold syncDataFromMaster
  rw [if_neg (by simp [hne]), hdb, hmaster]
  dsimp only
  rw [if_pos (by simp [hm1, hm2])]

theorem sync_ok_tgt (s : ClusterState) (tgt src : Nat) (db master : Node)
    (hne : tgt ≠ src) (hdb : getNode? s tgt = some db) (hmaster : getNode? s src = some master)
    (hm1 : db.hasModels = true) (hm2 : master.hasModels = true) :
    getNode? (syncDataFromMaster s tgt src SyncFate.ok).1 tgt =
      some { db with
        term := master.term,
        store := { db.store with
          recs := freshRecs master.store.recs db.store.nextId,
          nextId := db.store.nextId + master.store.recs.length,
          term := db.store.term.map (fun _ => master.term) } } := by
  rw [sync_ok_effect s tgt src db master hne hdb hmaster hm1 hm2]
  dsimp only
  rw [getNode?_setNode_self s tgt
    (fun n => { n with
      term := master.term,
      store := { n.store with
        recs := freshRecs master.store.recs n.store.nextId,
        nextId := n.store.nextId + master.store.recs.length,
        term := n.store.term.map (fun _ => master.term) } }) (fun n => rfl), hdb]
  rfl

theorem sync_ok_src (s : ClusterState) (tgt src : Nat) (db master : Node)
    (hne : tgt ≠ src) (hdb : getNode? s tgt = some db) (hmaster : getNode? s src = some master)
    (hm1 : db.hasModels = true) (hm2 : master.hasModels = true) :
    getNode? (syncDataFromMaster s tgt src SyncFate.ok).1 src = some master := by
  rw [sync_ok_effect s tgt src db master hne hdb hmaster hm1 hm2]
  dsimp only
  rw [getNode?_setNode_ne s tgt src
    (fun n => { n with
      term := master.term,
      store := { n.store with
        recs := freshRecs master.store.recs n.store.nextId,
        nextId := n.store.nextId + master.store.recs.length,
        term := n.store.term.map (fun _ => master.term) } }) (fun n => rfl) (fun hc => hne hc.symm)]
  exact hmaster

theorem elect_all_dead (s : ClusterState) (env : ElectEnv)
    (h : ∀ n, n ∈ s.dbs → n.alive = false) :
    electCoordinator s env =
      ({ s with globalTerm := s.globalTerm + 1, coordinator := none }, false) := by
  unfold electCoordinator
  dsimp only
  have hc : candidateIds { s with globalTerm := s.globalTerm + 1 } = [] := by
    unfold candidateIds
    have hfil : ({ s with globalTerm := s.globalTerm + 1 } : ClusterState).dbs.filter
        (fun n => n.alive) = [] := by
      rw [List.filter_eq_nil_iff]
      intro a ha
      simp [h a ha]
    rw [hfil]
    rfl
  rw [hc]
  rfl

theorem propagateWrite_getNode?_notin (env : WriteEnv) (doc : Rec) :
    ∀ (l : List Nat) (s : ClusterState) (j : Nat), j ∉ l →
      getNode? (propagateWrite env doc s l) j = getNode? s j := by
  intro l
  induction l with
  | nil =>
    intro s j _
    rfl
  | cons i rest ih =>
    intro s j hj
    have hji : j ≠ i := fun h => hj (h ▸ List.mem_cons_self i rest)
    have hjr : j ∉ rest := fun h => hj (List.mem_cons_of_mem _ h)
    simp only [propagateWrite]
    cases getNode? s i with
    | none => exact ih s j hjr
    | some n =>
      dsimp only
      by_cases hm : n.hasModels = true
      · rw [if_pos hm]
        by_cases hok : env.slaveOk i
        · rw [if_pos hok, ih _ j hjr,
            getNode?_setNode_ne s i j
              (fun m => { m with store := { m.store with recs := m.store.recs ++ [doc] } })
              (fun n => rfl) hji]
        · rw [if_neg hok, ih _ j hjr,
            getNode?_setNode_ne s i j (fun m => { m with alive := false }) (fun n => rfl) hji]
      · rw [if_neg hm]
        exact ih s j hjr

theorem propagateWrite_at (env : WriteEnv) (doc : Rec) :
    ∀ (l : List Nat) (s : ClusterState) (j : Nat), l.Nodup → j ∈ l →
      getNode? (propagateWrite env doc s l) j =
        (getNode? s j).map (fun n =>
          if n.hasModels then
            if env.slaveOk j then
              { n with store := { n.store with recs := n.store.recs ++ [doc] } }
            else { n with alive := false }
          else n) := by
  intro l
  induction l with
  | nil =>
    intro s j _ hj
    exact absurd hj (List.not_mem_nil j)
  | cons i rest ih =>
    intro s j hnd hj
    rcases List.mem_cons.mp hj with rfl | hjr
    · have hnotin : j ∉ rest := (List.nodup_cons.mp hnd).1
      simp only [propagateWrite]
      cases hdb : getNode? s j with
      | none =>
        rw [propagateWrite_getNode?_notin env doc rest s j hnotin, hdb]
        rfl
      | some n =>
        dsimp only
        by_cases hm : n.hasModels = true
        · rw [if_pos hm]
          by_cases hok : env.slaveOk j
          · rw [if_pos hok, propagateWrite_getNode?_notin env doc rest _ j hnotin,
              getNode?_setNode_self s j
                (fun m => { m with store := { m.store with recs := m.store.recs ++ [doc] } })
                (fun n => rfl), hdb]
            simp [hm, hok]
          · rw [if_neg hok, propagateWrite_getNode?_notin env doc rest _ j hnotin,
              getNode?_setNode_self s j (fun m => { m with alive := false }) (fun n => rfl), hdb]
            simp [hm, hok]
        · rw [if_neg hm, propagateWrite_getNode?_notin env doc rest s j hnotin, hdb]
          simp [hm]
    · have hnd' := (List.nodup_cons.mp hnd).2
      have hij : j ≠ i := by
        intro h
        subst h
        exact (List.nodup_cons.mp hnd).1 hjr
      simp only [propagateWrite]
      cases hdb : getNode? s i with
      | none => exact ih s j hnd' hjr
      | some n =>
        dsimp only
        by_cases hm : n.hasModels = true
        · rw [if_pos hm]
          by_cases hok : env.slaveOk i
          · rw [if_pos hok, ih _ j hnd' hjr,
              getNode?_setNode_ne s i j
                (fun m => { m with store := { m.store with recs := m.store.recs ++ [doc] } })
                (fun n => rfl) hij]
          · rw [if_neg hok, ih _ j hnd' hjr,
              getNode?_setNode_ne s i j (fun m => { m with alive := false }) (fun n => rfl) hij]
        · rw [if_neg hm]
          exact ih s j hnd' hjr

theorem propagateUpdate_getNode?_notin (env : WriteEnv) (rid : Nat) (d : String) :
    ∀ (l : List Nat) (s : ClusterState) (j : Nat), j ∉ l →
      getNode? (propagateUpdate env rid d s l) j = getNode? s j := by
  intro l
  induction l with
  | nil =>
    intro s j _
    rfl
  | cons i rest ih =>
    intro s j hj
    have hji : j ≠ i := fun h => hj (h ▸ List.mem_cons_self i rest)
    have hjr : j ∉ rest := fun h => hj (List.mem_cons_of_mem _ h)
    simp only [propagateUpdate]
    cases getNode? s i with
    | none => exact ih s j hjr
    | some n =>
      dsimp only
      by_cases hm : n.hasModels = true
      · rw [if_pos hm]
        by_cases hok : env.slaveOk i
        · rw [if_pos hok, ih _ j hjr,
            getNode?_setNode_ne s i j
              (fun m => { m with store := { m.store with recs := updateRecs m.store.recs rid d } })
              (fun n => rfl) hji]
        · rw [if_neg hok, ih _ j hjr,
            getNode?_setNode_ne s i j (fun m => { m with alive := false }) (fun n => rfl) hji]
      · rw [if_neg hm]
        exact ih s j hjr

theorem propagateUpdate_at (env : WriteEnv) (rid : Nat) (d : String) :
    ∀ (l : List Nat) (s : ClusterState) (j : Nat), l.Nodup → j ∈ l →
      getNode? (propagateUpdate env rid d s l) j =
        (getNode? s j).map (fun n =>
          if n.hasModels then
            if env.slaveOk j then
              { n with store := { n.store with recs := updateRecs n.store.recs rid d } }
            else { n with alive := false }
          else n) := by
  intro l
  induction l with
  | nil =>
    intro s j _ hj
    exact absurd hj (List.not_mem_nil j)
  | cons i rest ih =>
    intro s j hnd hj
    rcases List.mem_cons.mp hj with rfl | hjr
    · have hnotin : j ∉ rest := (List.nodup_cons.mp hnd).1
      simp only [propagateUpdate]
      cases hdb : getNode? s j with
      | none =>
        rw [propagateUpdate_getNode?_notin env rid d rest s j hnotin, hdb]
        rfl
      | some n =>
        dsimp only
        by_cases hm : n.hasModels = true
        · rw [if_pos hm]
          by_cases hok : env.slaveOk j
          · rw [if_pos hok, propagateUpdate_getNode?_notin env rid d rest _ j hnotin,
              getNode?_setNode_self s j
                (fun m => { m with store := { m.store with recs := updateRecs m.store.recs rid d } })
                (fun n => rfl), hdb]
            simp [hm, hok]
          · rw [if_neg hok, propagateUpdate_getNode?_notin env rid d rest _ j hnotin,
              getNode?_setNode_self s j (fun m => { m with alive := false }) (fun n => rfl), hdb]
            simp [hm, hok]
        · rw [if_neg hm, propagateUpdate_getNode?_notin env rid d rest s j hnotin, hdb]
          simp [hm]
    · have hnd' := (List.nodup_cons.mp hnd).2
      have hij : j ≠ i := by
        intro h
        subst h
        exact (List.nodup_cons.mp hnd).1 hjr
      simp only [propagateUpdate]
      cases hdb : getNode? s i with
      | none => exact ih s j hnd' hjr
      | some n =>
        dsimp only
        by_cases hm : n.hasModels = true
        · rw [if_pos hm]
          by_cases hok : env.slaveOk i
          · rw [if_pos hok, ih _ j hnd' hjr,
              getNode?_setNode_ne s i j
                (fun m => { m with store := { m.store with recs := updateRecs m.store.recs rid d } })
                (fun n => rfl) hij]
          · rw [if_neg hok, ih _ j hnd' hjr,
              getNode?_setNode_ne s i j (fun m => { m with alive := false }) (fun n => rfl) hij]
        · rw [if_neg hm]
          exact ih s j hnd' hjr

theorem slaveIds_nodup {s : ClusterState} {c : Nat} (h : (s.dbs.map (fun n => n.id)).Nodup) :
    ((s.dbs.filter (fun n => n.alive && n.id != c)).map (fun n => n.id)).Nodup := by
  have hsub : ((s.dbs.filter (fun n => n.alive && n.id != c)).map (fun n => n.id)).Sublist
      (s.dbs.map (fun n => n.id)) :=
    (List.filter_sublist _).map _
  exact h.sublist hsub

theorem apiWrite_committed (s : ClusterState) (c : Nat) (cn : Node) (d : String) (now : Nat)
    (env : WriteEnv) (hd : d ≠ "") (hco : s.coordinator = some c) (hcn : getNode? s c = some cn)
    (hal : cn.alive = true) (hm : cn.hasModels = true) (hok : env.masterOk = true) :
    apiWrite s d now env =
      (propagateWrite env { rid := cn.store.nextId, data := d, createdAt := now }
        (setNode s c (fun n => { n with store := { n.store with
          recs := n.store.recs ++ [{ rid := cn.store.nextId, data := d, createdAt := now }],
          nextId := n.store.nextId + 1 } }))
        (((setNode s c (fun n => { n with store := { n.store with
          recs := n.store.recs ++ [{ rid := cn.store.nextId, data := d, createdAt := now }],
          nextId := n.store.nextId + 1 } })).dbs.filter
            (fun n => n.alive && n.id != c)).map (fun n => n.id)),
       WriteResult.created) := by
  unfold apiWrite
  rw [if_neg hd, hco]
  dsimp only
  rw [hcn]
  dsimp only
  rw [if_neg (by simp [hal]), if_neg (by simp [hm]), if_neg (by simp [hok])]

theorem apiUpdate_committed (s : ClusterState) (c : Nat) (cn : Node) (rid : Nat) (d : String)
    (env : WriteEnv) (hd : d ≠ "") (hco : s.coordinator = some c) (hcn : getNode? s c = some cn)
    (hal : cn.alive = true) (hm : cn.hasModels = true) (hok : env.masterOk = true)
    (hfound : (cn.store.recs.any (fun r => r.rid == rid)) = true) :
    apiUpdate s rid d env =
      (propagateUpdate env rid d
        (setNode s c (fun n => { n with store := { n.store with
          recs := updateRecs n.store.recs rid d } }))
        (((setNode s c (fun n => { n with store := { n.store with
          recs := updateRecs n.store.recs rid d } })).dbs.filter
            (fun n => n.alive && n.id != c)).map (fun n => n.id)),
       UpdateResult.updated) := by
  unfold apiUpdate
  rw [if_neg hd, hco]
  dsimp only
  rw [hcn]
  dsimp only
  rw [if_neg (by simp [hal]), if_neg (by simp [hm]), if_neg (by simp [hok]),
    if_neg (by simp [hfound])]

theorem getNode?_map_setNode {α : Type} (s : ClusterState) (i j : Nat) (f : Node → Node)
    (g : Node → α) (hf : ∀ n, (f n).id = n.id) (hg : ∀ n, g (f n) = g n) :
    (getNode? (setNode s i f) j).map g = (getNode? s j).map g := by
  rw [getNode?_setNode s i j f hf]
  cases getNode? s j with
  | none => rfl
  | some n => by_cases h : n.id = i <;> simp [h, hg]

theorem sync_failRead_state (s : ClusterState) (i m : Nat) :
    (syncDataFromMaster s i m SyncFate.failRead).1 = s := by
  unfold syncDataFromMaster
  by_cases he : (i == m) = true
  · rw [if_pos he]
  · rw [if_neg he]
    cases getNode? s i with
    | none => rfl
    | some db =>
      cases getNode? s m with
      | none => rfl
      | some master =>
        dsimp only
        by_cases hmm : (db.hasModels && master.hasModels) = true
        · rw [if_pos hmm]
        · rw [if_neg hmm]

theorem sync_failDelete_state (s : ClusterState) (i m : Nat) :
    (syncDataFromMaster s i m SyncFate.failDelete).1 = s := by
  unfold syncDataFromMaster
  by_cases he : (i == m) = true
  · rw [if_pos he]
  · rw [if_neg he]
    cases getNode? s i with
    | none => rfl
    | some db =>
      cases getNode? s m with
      | none => rfl
      | some master =>
        dsimp only
        by_cases hmm : (db.hasModels && master.hasModels) = true
        · rw [if_pos hmm]
        · rw [if_neg hmm]

theorem sync_failInsert_state (s : ClusterState) (i m : Nat) :
    (syncDataFromMaster s i m SyncFate.failInsert).1 = s ∨
    (syncDataFromMaster s i m SyncFate.failInsert).1 =
      setNode s i (fun n => { n with store := { n.store with recs := [] } }) := by
  unfold syncDataFromMaster
  by_cases he : (i == m) = true
  · rw [if_pos he]
    exact Or.inl rfl
  · rw [if_neg he]
    cases getNode? s i with
    | none => exact Or.inl rfl
    | some db =>
      cases getNode? s m with
      | none => exact Or.inl rfl
      | some master =>
        dsimp only
        by_cases hmm : (db.hasModels && master.hasModels) = true
        · rw [if_pos hmm]
          exact Or.inr rfl
        · rw [if_neg hmm]
          exact Or.inl rfl

theorem sync_failPersist_state (s : ClusterState) (i m : Nat) :
    (syncDataFromMaster s i m SyncFate.failPersist).1 = s ∨
    ∃ master, getNode? s m = some master ∧
      (syncDataFromMaster s i m SyncFate.failPersist).1 =
        setNode s i (fun n => { n with
          term := master.term,
          store := { n.store with
            recs := freshRecs master.store.recs n.store.nextId,
            nextId := n.store.nextId + master.store.recs.length } }) := by
  unfold syncDataFromMaster
  by_cases he : (i == m) = true
  · rw [if_pos he]
    exact Or.inl rfl
  · rw [if_neg he]
    cases getNode? s i with
    | none => exact Or.inl rfl
    | some db =>
      cases hmaster : getNode? s m with
      | none => exact Or.inl rfl
      | some master =>
        dsimp only
        by_cases hmm : (db.hasModels && master.hasModels) = true
        · rw [if_pos hmm]
          exact Or.inr ⟨master, rfl, rfl⟩
        · rw [if_neg hmm]
          exact Or.inl rfl

theorem find?_key_of_map_eq : ∀ {l1 l2 : List Node}, l1.map nodeKey = l2.map nodeKey →
    ∀ j, (l1.find? (fun n => n.id == j)).map nodeKey =
      (l2.find? (fun n => n.id == j)).map nodeKey := by
  intro l1
  induction l1 with
  | nil =>
    intro l2 h j
    cases l2 with
    | nil => rfl
    | cons b t => simp at h
  | cons a t ih =>
    intro l2 h j
    cases l2 with
    | nil => simp at h
    | cons b t2 =>
      simp only [List.map_cons, List.cons.injEq] at h
      have hid : a.id = b.id := congrArg Prod.fst h.1
      by_cases hj : a.id = j
      · rw [List.find?_cons_of_pos _ (by simp [hj]),
          List.find?_cons_of_pos _ (by simp [← hid, hj])]
        simpa using h.1
      · rw [List.find?_cons_of_neg _ (by simp [hj]),
          List.find?_cons_of_neg _ (by simp [← hid, hj]), ih h.2 j]

theorem key_of_skeleton_eq {s1 s : ClusterState} (h : skeleton s1 = skeleton s) (j : Nat) :
    (getNode? s1 j).map nodeKey = (getNode? s j).map nodeKey :=
  find?_key_of_map_eq (skeleton_dbs_map h) j

theorem isMaster_back_setNode (s : ClusterState) (i : Nat) (f : Node → Node)
    (hfid : ∀ n, (f n).id = n.id)
    (hfr : ∀ n, (f n).role = Role.master → n.role = Role.master) :
    ∀ j n', getNode? (setNode s i f) j = some n' → n'.role = Role.master →
      ∃ n, getNode? s j = some n ∧ n.role = Role.master := by
  intro j n' h hr
  rw [getNode?_setNode s i j f hfid] at h
  cases hg : getNode? s j with
  | none =>
    rw [hg] at h
    cases h
  | some n =>
    rw [hg] at h
    injection h with h
    dsimp only at h
    by_cases hni : n.id = i
    · rw [if_pos (by simp [hni])] at h
      exact ⟨n, rfl, hfr n (h ▸ hr)⟩
    · rw [if_neg (by simp [hni])] at h
      exact ⟨n, rfl, h ▸ hr⟩

theorem isMaster_back_sync (s : ClusterState) (i m : Nat) (fate : SyncFate) :
    ∀ j n', getNode? (syncDataFromMaster s i m fate).1 j = some n' → n'.role = Role.master →
      ∃ n, getNode? s j = some n ∧ n.role = Role.master := by
  intro j n' h hr
  have hkey := sync_key s i m fate j
  rw [h] at hkey
  cases hg : getNode? s j with
  | none =>
    rw [hg] at hkey
    cases hkey
  | some n =>
    rw [hg] at hkey
    injection hkey with hkey
    refine ⟨n, rfl, ?_⟩
    have hrr := congrArg (fun k : Nat × Bool × Role × Bool => k.2.2.1) hkey
    simp only [nodeKey] at hrr
    rw [← hrr]
    exact hr

theorem isMaster_back_key {s1 s : ClusterState} (h : skeleton s1 = skeleton s) :
    ∀ j n', getNode? s1 j = some n' → n'.role = Role.master →
      ∃ n, getNode? s j = some n ∧ n.role = Role.master := by
  intro j n' hj hr
  have hkey := key_of_skeleton_eq h j
  rw [hj] at hkey
  cases hg : getNode? s j with
  | none =>
    rw [hg] at hkey
    cases hkey
  | some n =>
    rw [hg] at hkey
    injection hkey with hkey
    refine ⟨n, rfl, ?_⟩
    have hrr := congrArg (fun k : Nat × Bool × Role × Bool => k.2.2.1) hkey
    simp only [nodeKey] at hrr
    rw [← hrr]
    exact hr

theorem demote_not_master (env : ElectEnv) (w gt : Nat) :
    ∀ (l : List Nat) (s : ClusterState) (j : Nat) (n' : Node),
      getNode? (demoteOthers env w gt s l).1 j = some n' → n'.role = Role.master →
      ∃ n, getNode? s j = some n ∧ n.role = Role.master := by
  intro l
  induction l with
  | nil =>
    intro s j n' h hr
    exact ⟨n', h, hr⟩
  | cons i rest ih =>
    intro s j n' h hr
    simp only [demoteOthers] at h
    by_cases hw : (i == w) = true
    · rw [if_pos hw] at h
      exact ih s j n' h hr
    · rw [if_neg hw] at h
      by_cases hp : env.persistOk i = false
      · rw [if_pos hp] at h
        dsimp only at h
        exact isMaster_back_setNode s i
          (fun n => { n with role := Role.slave, term := gt })
          (fun n => rfl) (fun n hn => by simp at hn) j n' h hr
      · rw [if_neg hp] at h
        cases hsync : syncDataFromMaster
            (setNode (setNode s i (fun n => { n with role := Role.slave, term := gt })) i
              (fun n => { n with store := { n.store with term := some gt } }))
            i w (env.syncFate i) with
        | mk s3 threw =>
          rw [hsync] at h
          have hback3 : ∃ n3, getNode? s3 j = some n3 ∧ n3.role = Role.master := by
            cases threw with
            | true =>
              dsimp only at h
              exact ⟨n', h, hr⟩
            | false =>
              dsimp only at h
              exact ih s3 j n' h hr
          rcases hback3 with ⟨n3, hn3, hr3⟩
          have hback2 := isMaster_back_sync _ i w (env.syncFate i) j n3 (by rw [hsync]; exact hn3) hr3
          rcases hback2 with ⟨n2, hn2, hr2⟩
          have hback1 := isMaster_back_setNode _ i
            (fun n => { n with store := { n.store with term := some gt } })
            (fun n => rfl) (fun n hn => hn) j n2 hn2 hr2
          rcases hback1 with ⟨n1, hn1, hr1⟩
          exact isMaster_back_setNode s i
            (fun n => { n with role := Role.slave, term := gt })
            (fun n => rfl) (fun n hn => by simp at hn) j n1 hn1 hr1

theorem canBecomeMaster_elig (s : ClusterState) (i : Nat) (fate : SyncFate)
    (h : (canBecomeMaster s i fate).2.1 = true) :
    canBecomeMaster s i fate = (s, true, false) ∧
      ∀ db, getNode? s i = some db → ¬ (db.term < getHighestTerm s) := by
  unfold canBecomeMaster at h ⊢
  cases hdb : getNode? s i with
  | none =>
    refine ⟨rfl, ?_⟩
    intro db hdb2
    simp at hdb2
  | some db =>
    rw [hdb] at h
    dsimp only at h ⊢
    by_cases hlt : db.term < getHighestTerm s
    · exfalso
      rw [if_pos hlt] at h
      cases hco : s.coordinator with
      | none =>
        rw [hco] at h
        simp at h
      | some c =>
        rw [hco] at h
        dsimp only at h
        cases hcn : getNode? s c with
        | none =>
          rw [hcn] at h
          simp at h
        | some mn =>
          rw [hcn] at h
          dsimp only at h
          simp at h
    · rw [if_neg hlt]
      refine ⟨rfl, ?_⟩
      intro db2 hdb2
      injection hdb2 with hdb2
      rw [← hdb2]
      exact hlt

theorem electScan_master_gate (env : ElectEnv) (gt : Nat) (allIds : List Nat) :
    ∀ (cands : List Nat) (s : ClusterState) (j : Nat) (n n' : Node),
      getNode? s j = some n → n.role ≠ Role.master →
      getNode? (electScan env gt allIds s cands).1 j = some n' → n'.role = Role.master →
      ∃ s0 m, ScanReach env s s0 ∧ getNode? s0 j = some m ∧
        ¬ (m.term < getHighestTerm s0) := by
  intro cands
  induction cands with
  | nil =>
    intro s j n n' hn hnm h hr
    exfalso
    have h' : getNode? s j = some n' := h
    rw [hn] at h'
    injection h' with h'
    exact hnm (by rw [h']; exact hr)
  | cons i rest ih =>
    intro s j n n' hn hnm h hr
    simp only [electScan] at h
    cases hc : canBecomeMaster s i (env.syncFate i) with
    | mk s1 p =>
      cases p with
      | mk elig threw =>
        rw [hc] at h
        have hskel : skeleton s1 = skeleton s := by
          have := canBecomeMaster_skeleton s i (env.syncFate i)
          rw [hc] at this
          exact this
        cases threw with
        | true =>
          dsimp only at h
          exfalso
          rcases isMaster_back_key hskel j n' h hr with ⟨n0, hn0, hr0⟩
          rw [hn] at hn0
          injection hn0 with hn0
          exact hnm (by rw [hn0]; exact hr0)
        | false =>
          cases elig with
          | false =>
            dsimp only at h
            have hkey := key_of_skeleton_eq hskel j
            rw [hn] at hkey
            rcases Option.map_eq_some'.mp hkey with ⟨n1, hn1, hn1key⟩
            have hn1role : n1.role = n.role :=
              congrArg (fun k : Nat × Bool × Role × Bool => k.2.2.1) hn1key
            rcases ih s1 j n1 n' hn1 (by rw [hn1role]; exact hnm) h hr with
              ⟨s0, m, hreach, hm, hgate⟩
            exact ⟨s0, m, ScanReach.rej s s1 s0 i hc hreach, hm, hgate⟩
          | true =>
            obtain ⟨heq, hgate⟩ := canBecomeMaster_elig s i (env.syncFate i) (by rw [hc])
            rw [hc] at heq
            injection heq with hs1 hrest
            rw [hs1] at h
            dsimp only at h
            by_cases hji : j = i
            · subst hji
              exact ⟨s, n, ScanReach.refl s, hn, hgate n hn⟩
            · exfalso
              have hmj : ∃ nx, getNode? (setNode s i
                  (fun n => { n with role := Role.master, term := gt })) j = some nx ∧
                  nx.role = Role.master := by
                by_cases hp : env.persistOk i = false
                · rw [if_pos hp] at h
                  exact ⟨n', h, hr⟩
                · rw [if_neg hp] at h
                  rcases demote_not_master env i gt allIds _ j n' h hr with ⟨n3, hn3, hr3⟩
                  exact isMaster_back_setNode _ i
                    (fun n => { n with store := { n.store with term := some gt } })
                    (fun n => rfl) (fun n hx => hx) j n3 hn3 hr3
              rcases hmj with ⟨nx, hnx, hrx⟩
              rw [getNode?_setNode_ne s i j
                (fun n => { n with role := Role.master, term := gt }) (fun n => rfl) hji] at hnx
              rw [hn] at hnx
              injection hnx with hnx
              exact hnm (by rw [hnx]; exact hrx)

theorem find?_self_of_nodup : ∀ (l : List Node), (l.map (fun n => n.id)).Nodup →
    ∀ n, n ∈ l → l.find? (fun x => x.id == n.id) = some n := by
  intro l
  induction l with
  | nil =>
    intro _ n hn
    exact absurd hn (List.not_mem_nil n)
  | cons a t ih =>
    intro hnd n hn
    rcases List.mem_cons.mp hn with rfl | hnt
    · exact List.find?_cons_of_pos _ (by simp)
    · have hane : a.id ≠ n.id := by
        intro he
        have : a.id ∈ t.map (fun n => n.id) := he ▸ List.mem_map_of_mem _ hnt
        exact (List.nodup_cons.mp hnd).1 this
      rw [List.find?_cons_of_neg _ (by simp [hane])]
      exact ih (List.nodup_cons.mp hnd).2 n hnt

theorem getNode?_self_nodup {s : ClusterState} (h : (s.dbs.map (fun n => n.id)).Nodup)
    {n : Node} (hn : n ∈ s.dbs) : getNode? s n.id = some n :=
  find?_self_of_nodup s.dbs h n hn

theorem insertDesc_perm (x : Node) (l : List Node) : (insertDesc x l).Perm (x :: l) := by
  induction l with
  | nil => exact List.Perm.refl _
  | cons y ys ih =>
    unfold insertDesc
    by_cases h : y.id ≤ x.id
    · rw [if_pos h]
    · rw [if_neg h]
      exact (ih.cons y).trans (List.Perm.swap x y ys)

theorem sortDesc_perm : ∀ (l : List Node), (sortDesc l).Perm l := by
  intro l
  induction l with
  | nil => exact List.Perm.refl _
  | cons x xs ih => exact (insertDesc_perm x (sortDesc xs)).trans (ih.cons x)

theorem candidateIds_nodup {s : ClusterState} (h : (s.dbs.map (fun n => n.id)).Nodup) :
    (candidateIds s).Nodup := by
  unfold candidateIds
  have hperm := (sortDesc_perm (s.dbs.filter (fun n => n.alive))).map (fun n => n.id)
  have hsub : (((s.dbs.filter (fun n => n.alive)).map (fun n => n.id))).Sublist
      (s.dbs.map (fun n => n.id)) := (List.filter_sublist _).map _
  exact hperm.nodup_iff.mpr (h.sublist hsub)

theorem mem_candidateIds_of_alive {s : ClusterState} {n : Node}
    (hn : n ∈ s.dbs) (hal : n.alive = true) : n.id ∈ candidateIds s := by
  unfold candidateIds
  exact List.mem_map_of_mem _ ((mem_sortDesc n _).mpr (List.mem_filter.mpr ⟨hn, by simp [hal]⟩))

theorem liveMap_of_skeleton_eq {s1 s : ClusterState} (h : skeleton s1 = skeleton s) :
    liveMap s1 = liveMap s := by
  have h1 := skeleton_dbs_map h
  have h2 : ∀ t : ClusterState, liveMap t = (t.dbs.map nodeKey).map
      (fun k => (k.1, k.2.1)) := by
    intro t
    simp [liveMap, List.map_map, nodeKey]
  rw [h2, h2, h1]

theorem liveMap_setNode (s : ClusterState) (i : Nat) (f : Node → Node)
    (hf : ∀ n, (f n).id = n.id ∧ (f n).alive = n.alive) :
    liveMap (setNode s i f) = liveMap s := by
  unfold liveMap setNode
  simp only [List.map_map]
  apply List.map_congr_left
  intro n _
  by_cases h : n.id = i <;> simp [h, hf]

theorem liveMap_demote (env : ElectEnv) (w gt : Nat) :
    ∀ (l : List Nat) (s : ClusterState), liveMap (demoteOthers env w gt s l).1 = liveMap s := by
  intro l
  induction l with
  | nil =>
    intro s
    rfl
  | cons i rest ih =>
    intro s
    simp only [demoteOthers]
    by_cases hw : (i == w) = true
    · rw [if_pos hw]
      exact ih s
    · rw [if_neg hw]
      by_cases hp : env.persistOk i = false
      · rw [if_pos hp]
        exact liveMap_setNode s i _ (fun n => ⟨rfl, rfl⟩)
      · rw [if_neg hp]
        cases hsync : syncDataFromMaster
            (setNode (setNode s i (fun n => { n with role := Role.slave, term := gt })) i
              (fun n => { n with store := { n.store with term := some gt } }))
            i w (env.syncFate i) with
        | mk s3 threw =>
          have hs3 : liveMap s3 = liveMap s := by
            have hsk := sync_skeleton
              (setNode (setNode s i (fun n => { n with role := Role.slave, term := gt })) i
                (fun n => { n with store := { n.store with term := some gt } }))
              i w (env.syncFate i)
            rw [hsync] at hsk
            calc liveMap s3 = liveMap (setNode (setNode s i
                  (fun n => { n with role := Role.slave, term := gt })) i
                  (fun n => { n with store := { n.store with term := some gt } })) :=
                liveMap_of_skeleton_eq hsk
              _ = liveMap (setNode s i (fun n => { n with role := Role.slave, term := gt })) :=
                liveMap_setNode _ i _ (fun n => ⟨rfl, rfl⟩)
              _ = liveMap s := liveMap_setNode s i _ (fun n => ⟨rfl, rfl⟩)
          cases threw with
          | true => exact hs3
          | false => exact (ih s3).trans hs3

theorem liveMap_electScan (env : ElectEnv) (gt : Nat) (allIds : List Nat) :
    ∀ (cands : List Nat) (s : ClusterState),
      liveMap (electScan env gt allIds s cands).1 = liveMap s := by
  intro cands
  induction cands with
  | nil =>
    intro s
    rfl
  | cons i rest ih =>
    intro s
    simp only [electScan]
    cases hc : canBecomeMaster s i (env.syncFate i) with
    | mk s1 p =>
      cases p with
      | mk elig threw =>
        have hs1 : liveMap s1 = liveMap s := by
          have hsk := canBecomeMaster_skeleton s i (env.syncFate i)
          rw [hc] at hsk
          exact liveMap_of_skeleton_eq hsk
        cases threw with
        | true => exact hs1
        | false =>
          cases elig with
          | false => exact (ih s1).trans hs1
          | true =>
            dsimp only
            by_cases hp : env.persistOk i = false
            · rw [if_pos hp]
              exact (liveMap_setNode s1 i
                (fun n => { n with role := Role.master, term := gt })
                (fun n => ⟨rfl, rfl⟩)).trans hs1
            · rw [if_neg hp]
              refine ((liveMap_demote env i gt allIds _).trans ?_).trans hs1
              exact (liveMap_setNode _ i
                (fun n => { n with store := { n.store with term := some gt } })
                (fun n => ⟨rfl, rfl⟩)).trans
                (liveMap_setNode s1 i
                  (fun n => { n with role := Role.master, term := gt })
                  (fun n => ⟨rfl, rfl⟩))

theorem demote_coordinator (env : ElectEnv) (w gt : Nat) :
    ∀ (l : List Nat) (s : ClusterState),
      (demoteOthers env w gt s l).1.coordinator = s.coordinator := by
  intro l
  induction l with
  | nil =>
    intro s
    rfl
  | cons i rest ih =>
    intro s
    simp only [demoteOthers]
    by_cases hw : (i == w) = true
    · rw [if_pos hw]
      exact ih s
    · rw [if_neg hw]
      by_cases hp : env.persistOk i = false
      · rw [if_pos hp]
        rfl
      · rw [if_neg hp]
        cases hsync : syncDataFromMaster
            (setNode (setNode s i (fun n => { n with role := Role.slave, term := gt })) i
              (fun n => { n with store := { n.store with term := some gt } }))
            i w (env.syncFate i) with
        | mk s3 threw =>
          have hs3 : s3.coordinator = s.coordinator := by
            have hsk := sync_skeleton
              (setNode (setNode s i (fun n => { n with role := Role.slave, term := gt })) i
                (fun n => { n with store := { n.store with term := some gt } }))
              i w (env.syncFate i)
            rw [hsync] at hsk
            have h1 := skeleton_coordinator hsk
            exact h1
          cases threw with
          | true => exact hs3
          | false => exact (ih s3).trans hs3

theorem sync_fail_throws (s : ClusterState) (tgt src : Nat) (db master : Node) (fate : SyncFate)
    (hne : tgt ≠ src) (hdb : getNode? s tgt = some db) (hmaster : getNode? s src = some master)
    (hm1 : db.hasModels = true) (hm2 : master.hasModels = true)
    (hfate : fate ≠ SyncFate.ok) :
    (syncDataFromMaster s tgt src fate).2 = true := by
  unfold syncDataFromMaster
  rw [if_neg (by simp [hne]), hdb, hmaster]
  dsimp only
  rw [if_pos (by simp [hm1, hm2])]
  cases fate with
  | ok => exact absurd rfl hfate
  | failRead => rfl
  | failDelete => rfl
  | failInsert => rfl
  | failPersist => rfl

theorem sync_nothrow_ok (s : ClusterState) (tgt src : Nat) (db master : Node) (fate : SyncFate)
    (hne : tgt ≠ src) (hdb : getNode? s tgt = some db) (hmaster : getNode? s src = some master)
    (hm1 : db.hasModels = true) (hm2 : master.hasModels = true)
    (h : (syncDataFromMaster s tgt src fate).2 = false) : fate = SyncFate.ok := by
  by_contra hne2
  rw [sync_fail_throws s tgt src db master fate hne hdb hmaster hm1 hm2 hne2] at h
  cases h

theorem models_of_key_eq : ∀ {o1 o2 : Option Node},
    o1.map nodeKey = o2.map nodeKey →
    (∃ n, o2 = some n ∧ n.hasModels = true) →
    ∃ n, o1 = some n ∧ n.hasModels = true := by
  intro o1 o2 hk h
  obtain ⟨n, hn, hm⟩ := h
  subst hn
  cases o1 with
  | none => simp at hk
  | some n1 =>
    simp only [Option.map_some'] at hk
    injection hk with hk
    refine ⟨n1, rfl, ?_⟩
    have h2 := congrArg (fun k : Nat × Bool × Role × Bool => k.2.2.2) hk
    simp only [nodeKey] at h2
    rw [h2]
    exact hm

theorem demote_getNode?_pres (env : ElectEnv) (w gt j : Nat) :
    ∀ (l : List Nat) (s : ClusterState), (j ∉ l ∨ j = w) →
      getNode? (demoteOthers env w gt s l).1 j = getNode? s j := by
  intro l
  induction l with
  | nil =>
    intro s _
    rfl
  | cons i rest ih =>
    intro s hj
    have hij : i ≠ j ∨ (i == w) = true := by
      rcases hj with hj | hj
      · exact Or.inl (fun he => hj (he ▸ List.mem_cons_self i rest))
      · by_cases hiw : (i == w) = true
        · exact Or.inr hiw
        · exact Or.inl (fun he => by simp [he, hj] at hiw)
    have hj' : j ∉ rest ∨ j = w := by
      rcases hj with hj | hj
      · exact Or.inl (fun hr => hj (List.mem_cons_of_mem i hr))
      · exact Or.inr hj
    simp only [demoteOthers]
    by_cases hw : (i == w) = true
    · rw [if_pos hw]
      exact ih s hj'
    · rw [if_neg hw]
      have hine : i ≠ j := by
        rcases hij with h | h
        · exact h
        · exact absurd h hw
      have hjne : j ≠ i := fun he => hine he.symm
      by_cases hp : env.persistOk i = false
      · rw [if_pos hp]
        exact getNode?_setNode_ne s i j _ (fun n => rfl) hjne
      · rw [if_neg hp]
        cases hsync : syncDataFromMaster
            (setNode (setNode s i (fun n => { n with role := Role.slave, term := gt })) i
              (fun n => { n with store := { n.store with term := some gt } }))
            i w (env.syncFate i) with
        | mk s3 threw =>
          have hs3 : getNode? s3 j = getNode? s j := by
            have hg := sync_getNode?_ne
              (setNode (setNode s i (fun n => { n with role := Role.slave, term := gt })) i
                (fun n => { n with store := { n.store with term := some gt } }))
              i w (env.syncFate i) j hjne
            rw [hsync] at hg
            dsimp only at hg
            rw [hg,
              getNode?_setNode_ne (setNode s i (fun n => { n with role := Role.slave, term := gt }))
                i j (fun n => { n with store := { n.store with term := some gt } })
                (fun n => rfl) hjne,
              getNode?_setNode_ne s i j (fun n => { n with role := Role.slave, term := gt })
                (fun n => rfl) hjne]
          cases threw with
          | true => exact hs3
          | false => exact (ih s3 hj').trans hs3

theorem demote_post (env : ElectEnv) (w gt : Nat) (wn : Node)
    (hwm : wn.hasModels = true) :
    ∀ (l : List Nat) (s t : ClusterState), l.Nodup →
      getNode? s w = some wn →
      demoteOthers env w gt s l = (t, false) →
      ∀ i, i ∈ l → i ≠ w →
      ∀ ni, getNode? s i = some ni → ni.hasModels = true →
      ∃ m, getNode? t i = some m ∧ m.role = Role.slave ∧ m.term = wn.term ∧
        m.store.term = some wn.term ∧ projRecs m.store.recs = projRecs wn.store.recs := by
  intro l
  induction l with
  | nil =>
    intro s t _ _ _ i hi
    exact absurd hi (List.not_mem_nil i)
  | cons i0 rest ih =>
    intro s t hnd hw hrun i hi hiw ni hni hm
    simp only [demoteOthers] at hrun
    by_cases hw0 : (i0 == w) = true
    · rw [if_pos hw0] at hrun
      have hi0w : i0 = w := by simpa using hw0
      have hirest : i ∈ rest := by
        rcases List.mem_cons.mp hi with rfl | h
        · exact absurd hi0w hiw
        · exact h
      exact ih s t (List.nodup_cons.mp hnd).2 hw hrun i hirest hiw ni hni hm
    · rw [if_neg hw0] at hrun
      have hi0w : i0 ≠ w := fun he => by simp [he] at hw0
      have hwne : w ≠ i0 := fun he => hi0w he.symm
      by_cases hp : env.persistOk i0 = false
      · rw [if_pos hp] at hrun
        have hb := congrArg Prod.snd hrun
        simp at hb
      · rw [if_neg hp] at hrun
        cases hsync : syncDataFromMaster
            (setNode (setNode s i0 (fun n => { n with role := Role.slave, term := gt })) i0
              (fun n => { n with store := { n.store with term := some gt } }))
            i0 w (env.syncFate i0) with
        | mk s3 threw =>
          rw [hsync] at hrun
          dsimp only at hrun
          cases threw with
          | true =>
            have hb := congrArg Prod.snd hrun
            simp at hb
          | false =>
            rw [if_neg (by decide)] at hrun
            have hw2 : getNode? (setNode (setNode s i0
                (fun n => { n with role := Role.slave, term := gt })) i0
                (fun n => { n with store := { n.store with term := some gt } })) w = some wn := by
              rw [getNode?_setNode_ne _ i0 w
                  (fun n => { n with store := { n.store with term := some gt } })
                  (fun n => rfl) hwne,
                getNode?_setNode_ne s i0 w (fun n => { n with role := Role.slave, term := gt })
                  (fun n => rfl) hwne]
              exact hw
            have hw3 : getNode? s3 w = some wn := by
              have hg := sync_getNode?_ne
                (setNode (setNode s i0 (fun n => { n with role := Role.slave, term := gt })) i0
                  (fun n => { n with store := { n.store with term := some gt } }))
                i0 w (env.syncFate i0) w hwne
              rw [hsync] at hg
              dsimp only at hg
              rw [hg]
              exact hw2
            by_cases hii0 : i = i0
            · subst hii0
              have hs1i : getNode? (setNode s i
                  (fun n => { n with role := Role.slave, term := gt })) i
                  = some { ni with role := Role.slave, term := gt } := by
                rw [getNode?_setNode_self s i (fun n => { n with role := Role.slave, term := gt })
                  (fun n => rfl), hni]
                rfl
              have hs2i : getNode? (setNode (setNode s i
                  (fun n => { n with role := Role.slave, term := gt })) i
                  (fun n => { n with store := { n.store with term := some gt } })) i
                  = some { ni with
                      role := Role.slave,
                      term := gt,
                      store := { ni.store with term := some gt } } := by
                rw [getNode?_setNode_self _ i
                  (fun n => { n with store := { n.store with term := some gt } })
                  (fun n => rfl), hs1i]
                rfl
              have hthrew : (syncDataFromMaster
                  (setNode (setNode s i (fun n => { n with role := Role.slave, term := gt })) i
                    (fun n => { n with store := { n.store with term := some gt } }))
                  i w (env.syncFate i)).2 = false := by
                rw [hsync]
              have hfate : env.syncFate i = SyncFate.ok :=
                sync_nothrow_ok _ i w _ wn (env.syncFate i)
                  hi0w hs2i hw2 hm hwm hthrew
              rw [hfate] at hsync
              have htgt := sync_ok_tgt
                (setNode (setNode s i (fun n => { n with role := Role.slave, term := gt })) i
                  (fun n => { n with store := { n.store with term := some gt } }))
                i w _ wn
                hi0w hs2i hw2 hm hwm
              rw [hsync] at htgt
              dsimp only at htgt
              have hpres := demote_getNode?_pres env w gt i rest s3
                (Or.inl (List.nodup_cons.mp hnd).1)
              rw [hrun] at hpres
              dsimp only at hpres
              refine ⟨_, hpres.trans htgt, rfl, rfl, rfl, ?_⟩
              exact projRecs_freshRecs wn.store.recs ni.store.nextId
            · have hine : i ≠ i0 := hii0
              have hirest : i ∈ rest := by
                rcases List.mem_cons.mp hi with rfl | h
                · exact absurd rfl hine
                · exact h
              have hni3 : getNode? s3 i = some ni := by
                have hg := sync_getNode?_ne
                  (setNode (setNode s i0 (fun n => { n with role := Role.slave, term := gt })) i0
                    (fun n => { n with store := { n.store with term := some gt } }))
                  i0 w (env.syncFate i0) i hine
                rw [hsync] at hg
                dsimp only at hg
                rw [hg,
                  getNode?_setNode_ne _ i0 i
                    (fun n => { n with store := { n.store with term := some gt } })
                    (fun n => rfl) hine,
                  getNode?_setNode_ne s i0 i (fun n => { n with role := Role.slave, term := gt })
                    (fun n => rfl) hine]
                exact hni
              exact ih s3 t (List.nodup_cons.mp hnd).2 hw3 hrun i hirest hiw ni hni3 hm

theorem electScan_post (env : ElectEnv) (gt : Nat) (allIds : List Nat) :
    ∀ (cands : List Nat) (s t : ClusterState), allIds.Nodup →
      (∀ i, i ∈ cands → i ∈ allIds) →
      (∀ i, i ∈ allIds → ∃ n, getNode? s i = some n ∧ n.hasModels = true) →
      electScan env gt allIds s cands = (t, false) →
      ∀ w, t.coordinator = some w →
      ∃ wn, getNode? t w = some wn ∧ wn.role = Role.master ∧ wn.term = gt ∧
        wn.store.term = some gt ∧
        ∀ i, i ∈ allIds → i ≠ w →
          ∃ m, getNode? t i = some m ∧ m.role = Role.slave ∧ m.term = gt ∧
            m.store.term = some gt ∧ projRecs m.store.recs = projRecs wn.store.recs := by
  intro cands
  induction cands with
  | nil =>
    intro s t _ _ _ hrun w hw
    simp only [electScan] at hrun
    have ht := congrArg (fun p : ClusterState × Bool => p.1.coordinator) hrun
    dsimp only at ht
    rw [← ht] at hw
    simp at hw
  | cons i rest ih =>
    intro s t hnd hsub hmods hrun w hw
    simp only [electScan] at hrun
    cases hc : canBecomeMaster s i (env.syncFate i) with
    | mk s1 p =>
      cases p with
      | mk elig threw =>
        rw [hc] at hrun
        dsimp only at hrun
        cases threw with
        | true => simp at hrun
        | false =>
          have hsk := canBecomeMaster_skeleton s i (env.syncFate i)
          rw [hc] at hsk
          dsimp only at hsk
          cases elig with
          | false =>
            rw [if_neg (by decide), if_neg (by decide)] at hrun
            exact ih s1 t hnd (fun j hj => hsub j (List.mem_cons_of_mem i hj))
              (fun j hj => models_of_key_eq (key_of_skeleton_eq hsk j) (hmods j hj)) hrun w hw
          | true =>
            rw [if_neg (by decide), if_pos rfl] at hrun
            by_cases hp : env.persistOk i = false
            · rw [if_pos hp] at hrun
              have hb := congrArg Prod.snd hrun
              simp at hb
            · rw [if_neg hp] at hrun
              obtain ⟨n1, hn1, hn1m⟩ :=
                models_of_key_eq (key_of_skeleton_eq hsk i) (hmods i (hsub i (List.mem_cons_self i rest)))
              have hco : t.coordinator = some i := by
                have hdc := demote_coordinator env i gt allIds
                  (setNode ({ setNode s1 i (fun n => { n with role := Role.master, term := gt })
                    with coordinator := some i }) i
                    (fun n => { n with store := { n.store with term := some gt } }))
                rw [hrun] at hdc
                dsimp only at hdc
                exact hdc
              have hwi : w = i := by
                rw [hco] at hw
                injection hw with h
                exact h.symm
              subst hwi
              have hs2i : getNode? ({ setNode s1 w (fun n =>
                  { n with role := Role.master, term := gt }) with coordinator := some w }) w
                  = some { n1 with role := Role.master, term := gt } := by
                have h := getNode?_setNode_self s1 w
                  (fun n => { n with role := Role.master, term := gt }) (fun n => rfl)
                rw [hn1] at h
                exact h
              have hs3i : getNode? (setNode ({ setNode s1 w (fun n =>
                  { n with role := Role.master, term := gt }) with coordinator := some w }) w
                  (fun n => { n with store := { n.store with term := some gt } })) w
                  = some { n1 with
                      role := Role.master,
                      term := gt,
                      store := { n1.store with term := some gt } } := by
                rw [getNode?_setNode_self _ w
                  (fun n => { n with store := { n.store with term := some gt } })
                  (fun n => rfl), hs2i]
                rfl
              have htw : getNode? t w = some { n1 with
                  role := Role.master,
                  term := gt,
                  store := { n1.store with term := some gt } } := by
                have hpres := demote_getNode?_pres env w gt w allIds
                  (setNode ({ setNode s1 w (fun n => { n with role := Role.master, term := gt })
                    with coordinator := some w }) w
                    (fun n => { n with store := { n.store with term := some gt } }))
                  (Or.inr rfl)
                rw [hrun] at hpres
                dsimp only at hpres
                exact hpres.trans hs3i
              refine ⟨_, htw, rfl, rfl, rfl, ?_⟩
              intro j hj hjw
              have hjne : j ≠ w := hjw
              obtain ⟨nj, hnj, hnjm⟩ :=
                models_of_key_eq (key_of_skeleton_eq hsk j) (hmods j hj)
              have hnj3 : getNode? (setNode ({ setNode s1 w (fun n =>
                  { n with role := Role.master, term := gt }) with coordinator := some w }) w
                  (fun n => { n with store := { n.store with term := some gt } })) j = some nj := by
                rw [getNode?_setNode_ne _ w j
                  (fun n => { n with store := { n.store with term := some gt } })
                  (fun n => rfl) hjne]
                have h := getNode?_setNode_ne s1 w j
                  (fun n => { n with role := Role.master, term := gt }) (fun n => rfl) hjne
                rw [← h] at hnj
                exact hnj
              exact demote_post env w gt
                { n1 with
                  role := Role.master,
                  term := gt,
                  store := { n1.store with term := some gt } }
                hn1m allIds _ t hnd hs3i hrun j hj hjne nj hnj3 hnjm

theorem ids_of_liveMap_eq {s1 s : ClusterState} (h : liveMap s1 = liveMap s) :
    s1.dbs.map (fun n => n.id) = s.dbs.map (fun n => n.id) := by
  have h2 : ∀ u : ClusterState, u.dbs.map (fun n => n.id) = (liveMap u).map Prod.fst := by
    intro u
    simp only [liveMap, List.map_map]
    rfl
  rw [h2, h2, h]

theorem alive_mem_of_liveMap {s1 s : ClusterState} (h : liveMap s1 = liveMap s)
    {m : Node} (hm : m ∈ s1.dbs) (ha : m.alive = true) :
    ∃ n, n ∈ s.dbs ∧ n.id = m.id ∧ n.alive = true := by
  have hmem : ((m.id, m.alive) : Nat × Bool) ∈ liveMap s1 := List.mem_map_of_mem _ hm
  rw [h] at hmem
  obtain ⟨n, hn, he⟩ := List.mem_map.mp hmem
  have h1 : n.id = m.id := congrArg Prod.fst he
  have h2 : n.alive = m.alive := congrArg Prod.snd he
  exact ⟨n, hn, h1, by rw [h2, ha]⟩

theorem optTermLe_refl : ∀ o : Option Nat, optTermLe o o
  | none => trivial
  | some a => Nat.le_refl a

theorem optTermLe_trans : ∀ {a b c : Option Nat}, optTermLe a b → optTermLe b c → optTermLe a c
  | none, _, _, _, _ => trivial
  | some _, none, _, h, _ => absurd h (by simp [optTermLe])
  | some _, some _, none, _, h => absurd h (by simp [optTermLe])
  | some _, some _, some _, h1, h2 => Nat.le_trans h1 h2

theorem optTermLe_some {v g : Nat} : ∀ {o : Option Nat},
    (∀ u, o = some u → u ≤ v) → g = v → optTermLe o (some v)
  | none, _, _ => trivial
  | some u, h, _ => h u rfl

theorem persistedTerm_eq_of_getNode? {s1 s2 : ClusterState} {j : Nat}
    (h : getNode? s1 j = getNode? s2 j) : persistedTerm s1 j = persistedTerm s2 j := by
  unfold persistedTerm
  rw [h]

theorem persistedTerm_setNode_pres (s : ClusterState) (i : Nat) (f : Node → Node)
    (hfid : ∀ n, (f n).id = n.id) (hft : ∀ n, (f n).store.term = n.store.term) (j : Nat) :
    persistedTerm (setNode s i f) j = persistedTerm s j := by
  unfold persistedTerm
  rw [getNode?_setNode s i j f hfid]
  cases hg : getNode? s j with
  | none => rfl
  | some n =>
    simp only [Option.map_some']
    by_cases h : n.id = i
    · rw [if_pos (by simp [h])]
      exact hft n
    · rw [if_neg (by simp [h])]

theorem termsLe_setNode (s : ClusterState) (i : Nat) (f : Node → Node) (g : Nat)
    (hb : TermsLeG s g)
    (hf : ∀ n, n ∈ s.dbs → (n.term ≤ g ∧ ∀ v, n.store.term = some v → v ≤ g) →
      (f n).term ≤ g ∧ ∀ v, (f n).store.term = some v → v ≤ g) :
    TermsLeG (setNode s i f) g := by
  intro n' hn'
  rcases List.mem_map.mp hn' with ⟨n, hn, hite⟩
  by_cases h : n.id = i
  · rw [if_pos (by simp [h])] at hite
    subst hite
    exact hf n hn (hb n hn)
  · rw [if_neg (by simp [h])] at hite
    subst hite
    exact hb n hn

theorem masterG_setNode (s : ClusterState) (i : Nat) (f : Node → Node) (g : Nat)
    (hm : MasterTermG s g)
    (hf : ∀ n, n ∈ s.dbs → n.id = i → (n.role = Role.master → n.term = g) →
      (f n).role = Role.master → (f n).term = g) :
    MasterTermG (setNode s i f) g := by
  intro n' hn' hr
  rcases List.mem_map.mp hn' with ⟨n, hn, hite⟩
  by_cases h : n.id = i
  · rw [if_pos (by simp [h])] at hite
    subst hite
    exact hf n hn h (hm n hn) hr
  · rw [if_neg (by simp [h])] at hite
    subst hite
    exact hm n hn hr

theorem ids_setNode (s : ClusterState) (i : Nat) (f : Node → Node)
    (hfid : ∀ n, (f n).id = n.id) :
    (setNode s i f).dbs.map (fun n => n.id) = s.dbs.map (fun n => n.id) := by
  unfold setNode
  dsimp only
  rw [List.map_map]
  apply List.map_congr_left
  intro n _
  by_cases h : n.id = i <;> simp [h, hfid]

theorem sync_termsLe (s : ClusterState) (i m : Nat) (fate : SyncFate) (g : Nat)
    (hb : TermsLeG s g) : TermsLeG (syncDataFromMaster s i m fate).1 g := by
  unfold syncDataFromMaster
  by_cases he : (i == m) = true
  · rw [if_pos he]
    exact hb
  · rw [if_neg he]
    cases hdb : getNode? s i with
    | none => exact hb
    | some db =>
      cases hmn : getNode? s m with
      | none => exact hb
      | some master =>
        dsimp only
        by_cases hmod : (db.hasModels && master.hasModels) = true
        · rw [if_pos hmod]
          have hmb := hb master (getNode?_id hmn).2
          cases fate with
          | failRead => exact hb
          | failDelete => exact hb
          | failInsert =>
            exact termsLe_setNode s i _ g hb (fun n hn hp => hp)
          | failPersist =>
            exact termsLe_setNode s i _ g hb (fun n hn hp => ⟨hmb.1, hp.2⟩)
          | ok =>
            refine termsLe_setNode s i _ g hb (fun n hn hp => ⟨hmb.1, ?_⟩)
            intro v hv
            cases hnt : n.store.term with
            | none =>
              rw [hnt] at hv
              exact absurd hv (by simp)
            | some u =>
              rw [hnt] at hv
              simp only [Option.map_some'] at hv
              injection hv with hv
              rw [← hv]
              exact hmb.1
        · rw [if_neg hmod]
          exact hb

theorem sync_masterG (s : ClusterState) (i m : Nat) (fate : SyncFate) (g : Nat)
    (hnd : (s.dbs.map (fun n => n.id)).Nodup)
    (hm : MasterTermG s g)
    (htgt : ∀ db, getNode? s i = some db → db.role ≠ Role.master) :
    MasterTermG (syncDataFromMaster s i m fate).1 g := by
  unfold syncDataFromMaster
  by_cases he : (i == m) = true
  · rw [if_pos he]
    exact hm
  · rw [if_neg he]
    cases hdb : getNode? s i with
    | none => exact hm
    | some db =>
      cases hmn : getNode? s m with
      | none => exact hm
      | some master =>
        dsimp only
        by_cases hmod : (db.hasModels && master.hasModels) = true
        · rw [if_pos hmod]
          have hnotm : ∀ n, n ∈ s.dbs → n.id = i → n.role ≠ Role.master := by
            intro n hn hni
            have hg : getNode? s n.id = some n := getNode?_self_nodup hnd hn
            rw [hni, hdb] at hg
            injection hg with hg
            rw [← hg]
            exact htgt db hdb
          cases fate with
          | failRead => exact hm
          | failDelete => exact hm
          | failInsert =>
            exact masterG_setNode s i _ g hm (fun n hn hni hold hr => hold hr)
          | failPersist =>
            exact masterG_setNode s i _ g hm
              (fun n hn hni hold hr => absurd hr (hnotm n hn hni))
          | ok =>
            exact masterG_setNode s i _ g hm
              (fun n hn hni hold hr => absurd hr (hnotm n hn hni))
        · rw [if_neg hmod]
          exact hm

theorem sync_persMono (s : ClusterState) (i m : Nat) (fate : SyncFate) (g : Nat)
    (hb : TermsLeG s g)
    (hsrc : ∀ mn, getNode? s m = some mn → g ≤ mn.term) :
    ∀ j, optTermLe (persistedTerm s j) (persistedTerm (syncDataFromMaster s i m fate).1 j) := by
  intro j
  unfold syncDataFromMaster
  by_cases he : (i == m) = true
  · rw [if_pos he]
    exact optTermLe_refl _
  · rw [if_neg he]
    cases hdb : getNode? s i with
    | none => exact optTermLe_refl _
    | some db =>
      cases hmn : getNode? s m with
      | none => exact optTermLe_refl _
      | some master =>
        dsimp only
        by_cases hmod : (db.hasModels && master.hasModels) = true
        · rw [if_pos hmod]
          cases fate with
          | failRead => exact optTermLe_refl _
          | failDelete => exact optTermLe_refl _
          | failInsert =>
            dsimp only
            rw [persistedTerm_setNode_pres s i
              (fun n => { n with store := { n.store with recs := [] } })
              (fun n => rfl) (fun n => rfl) j]
            exact optTermLe_refl _
          | failPersist =>
            dsimp only
            rw [persistedTerm_setNode_pres s i
              (fun n => { n with
                term := master.term,
                store := { n.store with
                  recs := freshRecs master.store.recs n.store.nextId,
                  nextId := n.store.nextId + master.store.recs.length } })
              (fun n => rfl) (fun n => rfl) j]
            exact optTermLe_refl _
          | ok =>
            dsimp only
            by_cases hij : j = i
            · subst hij
              unfold persistedTerm
              rw [getNode?_setNode_self s j
                (fun n => { n with
                  term := master.term,
                  store := { n.store with
                    recs := freshRecs master.store.recs n.store.nextId,
                    nextId := n.store.nextId + master.store.recs.length,
                    term := n.store.term.map (fun _ => master.term) } }) (fun n => rfl), hdb]
              simp only [Option.map_some']
              cases hdt : db.store.term with
              | none => exact trivial
              | some v =>
                simp only [Option.map_some']
                have h1 : v ≤ g := (hb db (getNode?_id hdb).2).2 v hdt
                exact Nat.le_trans h1 (hsrc master hmn)
            · rw [persistedTerm_eq_of_getNode?
                (getNode?_setNode_ne s i j
                  (fun n => { n with
                    term := master.term,
                    store := { n.store with
                      recs := freshRecs master.store.recs n.store.nextId,
                      nextId := n.store.nextId + master.store.recs.length,
                      term := n.store.term.map (fun _ => master.term) } })
                  (fun n => rfl) hij)]
              exact optTermLe_refl _
        · rw [if_neg hmod]
          exact optTermLe_refl _

theorem persistedTerm_persist (s : ClusterState) (i gt : Nat)
    (hb : ∀ n, n ∈ s.dbs → ∀ v, n.store.term = some v → v ≤ gt) :
    ∀ j, optTermLe (persistedTerm s j) (persistedTerm (setNode s i (fun n =>
      { n with store := { n.store with term := some gt } })) j) := by
  intro j
  by_cases hij : j = i
  · subst hij
    unfold persistedTerm
    rw [getNode?_setNode_self s j
      (fun n => { n with store := { n.store with term := some gt } }) (fun n => rfl)]
    cases hg : getNode? s j with
    | none => exact trivial
    | some db =>
      simp only [Option.map_some']
      cases hdt : db.store.term with
      | none => exact trivial
      | some v =>
        exact hb db (getNode?_id hg).2 v hdt
  · rw [persistedTerm_eq_of_getNode?
      (getNode?_setNode_ne s i j
        (fun n => { n with store := { n.store with term := some gt } })
        (fun n => rfl) hij)]
    exact optTermLe_refl _

theorem demote_globalTerm (env : ElectEnv) (w gt : Nat) :
    ∀ (l : List Nat) (s : ClusterState),
      (demoteOthers env w gt s l).1.globalTerm = s.globalTerm := by
  intro l
  induction l with
  | nil =>
    intro s
    rfl
  | cons i rest ih =>
    intro s
    simp only [demoteOthers]
    by_cases hw : (i == w) = true
    · rw [if_pos hw]
      exact ih s
    · rw [if_neg hw]
      by_cases hp : env.persistOk i = false
      · rw [if_pos hp]
        rfl
      · rw [if_neg hp]
        cases hsync : syncDataFromMaster
            (setNode (setNode s i (fun n => { n with role := Role.slave, term := gt })) i
              (fun n => { n with store := { n.store with term := some gt } }))
            i w (env.syncFate i) with
        | mk s3 threw =>
          have hs3 : s3.globalTerm = s.globalTerm := by
            have hsk := sync_skeleton
              (setNode (setNode s i (fun n => { n with role := Role.slave, term := gt })) i
                (fun n => { n with store := { n.store with term := some gt } }))
              i w (env.syncFate i)
            rw [hsync] at hsk
            have h1 := skeleton_globalTerm hsk
            exact h1
          cases threw with
          | true => exact hs3
          | false => exact (ih s3).trans hs3

theorem demote_invZ (env : ElectEnv) (w gt : Nat) :
    ∀ (l : List Nat) (s : ClusterState),
      (s.dbs.map (fun n => n.id)).Nodup →
      TermsLeG s gt →
      MasterTermG s gt →
      (∀ wn, getNode? s w = some wn → gt ≤ wn.term) →
      (demoteOthers env w gt s l).1.dbs.map (fun n => n.id) = s.dbs.map (fun n => n.id) ∧
      TermsLeG (demoteOthers env w gt s l).1 gt ∧
      MasterTermG (demoteOthers env w gt s l).1 gt ∧
      ∀ j, optTermLe (persistedTerm s j) (persistedTerm (demoteOthers env w gt s l).1 j) := by
  intro l
  induction l with
  | nil =>
    intro s _ hb hm _
    exact ⟨rfl, hb, hm, fun j => optTermLe_refl _⟩
  | cons i rest ih =>
    intro s hnd hb hm hsrc
    simp only [demoteOthers]
    by_cases hw : (i == w) = true
    · rw [if_pos hw]
      exact ih s hnd hb hm hsrc
    · rw [if_neg hw]
      have hiw : i ≠ w := fun he => by simp [he] at hw
      have hwi : w ≠ i := fun he => hiw he.symm
      have hids1 : (setNode s i
          (fun n => { n with role := Role.slave, term := gt })).dbs.map (fun n => n.id)
          = s.dbs.map (fun n => n.id) :=
        ids_setNode s i (fun n => { n with role := Role.slave, term := gt }) (fun n => rfl)
      have hb1 : TermsLeG (setNode s i
          (fun n => { n with role := Role.slave, term := gt })) gt :=
        termsLe_setNode s i (fun n => { n with role := Role.slave, term := gt }) gt hb
          (fun n hn hp => ⟨Nat.le_refl gt, hp.2⟩)
      have hm1 : MasterTermG (setNode s i
          (fun n => { n with role := Role.slave, term := gt })) gt :=
        masterG_setNode s i (fun n => { n with role := Role.slave, term := gt }) gt hm
          (fun n hn hni hold hr => by cases hr)
      by_cases hp : env.persistOk i = false
      · rw [if_pos hp]
        refine ⟨hids1, hb1, hm1, ?_⟩
        intro j
        rw [persistedTerm_setNode_pres s i (fun n => { n with role := Role.slave, term := gt })
          (fun n => rfl) (fun n => rfl) j]
        exact optTermLe_refl _
      · rw [if_neg hp]
        have hids2 : (setNode (setNode s i (fun n => { n with role := Role.slave, term := gt }))
            i (fun n => { n with store := { n.store with term := some gt } })).dbs.map
            (fun n => n.id) = s.dbs.map (fun n => n.id) :=
          (ids_setNode _ i (fun n => { n with store := { n.store with term := some gt } })
            (fun n => rfl)).trans hids1
        have hb2 : TermsLeG (setNode (setNode s i
            (fun n => { n with role := Role.slave, term := gt }))
            i (fun n => { n with store := { n.store with term := some gt } })) gt :=
          termsLe_setNode _ i (fun n => { n with store := { n.store with term := some gt } })
            gt hb1 (fun n hn hp2 => ⟨hp2.1, fun v hv => by
              injection hv with hv
              rw [← hv]⟩)
        have hm2 : MasterTermG (setNode (setNode s i
            (fun n => { n with role := Role.slave, term := gt }))
            i (fun n => { n with store := { n.store with term := some gt } })) gt :=
          masterG_setNode _ i (fun n => { n with store := { n.store with term := some gt } })
            gt hm1 (fun n hn hni hold hr => hold hr)
        have hw2 : getNode? (setNode (setNode s i
            (fun n => { n with role := Role.slave, term := gt }))
            i (fun n => { n with store := { n.store with term := some gt } })) w
            = getNode? s w := by
          rw [getNode?_setNode_ne _ i w
              (fun n => { n with store := { n.store with term := some gt } })
              (fun n => rfl) hwi,
            getNode?_setNode_ne s i w (fun n => { n with role := Role.slave, term := gt })
              (fun n => rfl) hwi]
        have hnd2 : ((setNode (setNode s i
            (fun n => { n with role := Role.slave, term := gt }))
            i (fun n => { n with store := { n.store with term := some gt } })).dbs.map
            (fun n => n.id)).Nodup := by
          rw [hids2]
          exact hnd
        have htgt : ∀ db, getNode? (setNode (setNode s i
            (fun n => { n with role := Role.slave, term := gt }))
            i (fun n => { n with store := { n.store with term := some gt } })) i = some db →
            db.role ≠ Role.master := by
          intro db hdb
          rw [getNode?_setNode_self _ i
              (fun n => { n with store := { n.store with term := some gt } }) (fun n => rfl),
            getNode?_setNode_self s i (fun n => { n with role := Role.slave, term := gt })
              (fun n => rfl)] at hdb
          cases hsi : getNode? s i with
          | none =>
            rw [hsi] at hdb
            cases hdb
          | some ni =>
            rw [hsi] at hdb
            simp only [Option.map_some'] at hdb
            injection hdb with hdb
            rw [← hdb]
            intro hr
            cases hr
        cases hsync : syncDataFromMaster
            (setNode (setNode s i (fun n => { n with role := Role.slave, term := gt })) i
              (fun n => { n with store := { n.store with term := some gt } }))
            i w (env.syncFate i) with
        | mk s3 threw =>
          have hids3 : s3.dbs.map (fun n => n.id) = s.dbs.map (fun n => n.id) := by
            have hsk := sync_skeleton
              (setNode (setNode s i (fun n => { n with role := Role.slave, term := gt })) i
                (fun n => { n with store := { n.store with term := some gt } }))
              i w (env.syncFate i)
            rw [hsync] at hsk
            exact (skeleton_ids hsk).trans hids2
          have hb3 : TermsLeG s3 gt := by
            have h := sync_termsLe
              (setNode (setNode s i (fun n => { n with role := Role.slave, term := gt })) i
                (fun n => { n with store := { n.store with term := some gt } }))
              i w (env.syncFate i) gt hb2
            rw [hsync] at h
            exact h
          have hm3 : MasterTermG s3 gt := by
            have h := sync_masterG
              (setNode (setNode s i (fun n => { n with role := Role.slave, term := gt })) i
                (fun n => { n with store := { n.store with term := some gt } }))
              i w (env.syncFate i) gt hnd2 hm2 htgt
            rw [hsync] at h
            exact h
          have hw3 : getNode? s3 w = getNode? s w := by
            have h := sync_getNode?_ne
              (setNode (setNode s i (fun n => { n with role := Role.slave, term := gt })) i
                (fun n => { n with store := { n.store with term := some gt } }))
              i w (env.syncFate i) w hwi
            rw [hsync] at h
            exact h.trans hw2
          have hmono3 : ∀ j, optTermLe (persistedTerm s j) (persistedTerm s3 j) := by
            intro j
            have h0 : persistedTerm (setNode s i
                (fun n => { n with role := Role.slave, term := gt })) j = persistedTerm s j :=
              persistedTerm_setNode_pres s i (fun n => { n with role := Role.slave, term := gt })
                (fun n => rfl) (fun n => rfl) j
            have h2 := persistedTerm_persist
              (setNode s i (fun n => { n with role := Role.slave, term := gt })) i gt
              (fun n hn v hv => (hb1 n hn).2 v hv) j
            have h3 : optTermLe (persistedTerm (setNode (setNode s i
                (fun n => { n with role := Role.slave, term := gt })) i
                (fun n => { n with store := { n.store with term := some gt } })) j)
                (persistedTerm s3 j) := by
              have h := sync_persMono
                (setNode (setNode s i (fun n => { n with role := Role.slave, term := gt })) i
                  (fun n => { n with store := { n.store with term := some gt } }))
                i w (env.syncFate i) gt hb2
                (fun mn hmn => hsrc mn (hw2.symm.trans hmn)) j
              rw [hsync] at h
              exact h
            rw [← h0]
            exact optTermLe_trans h2 h3
          cases threw with
          | true => exact ⟨hids3, hb3, hm3, hmono3⟩
          | false =>
            obtain ⟨hidsr, hbr, hmr, hmonor⟩ := ih s3 (by rw [hids3]; exact hnd) hb3 hm3
              (fun mn hmn => hsrc mn (hw3.symm.trans hmn))
            exact ⟨hidsr.trans hids3, hbr, hmr,
              fun j => optTermLe_trans (hmono3 j) (hmonor j)⟩

theorem termsLe_mono {s : ClusterState} {g g2 : Nat} (h : TermsLeG s g) (hg : g ≤ g2) :
    TermsLeG s g2 := by
  intro n hn
  obtain ⟨h1, h2⟩ := h n hn
  exact ⟨Nat.le_trans h1 hg, fun v hv => Nat.le_trans (h2 v hv) hg⟩

theorem singleton_of_length_le_one {α : Type} {l : List α} {x : α}
    (h : l.length ≤ 1) (hx : x ∈ l) : l = [x] := by
  cases l with
  | nil => cases hx
  | cons a t =>
    cases t with
    | nil =>
      rcases List.mem_singleton.mp hx with rfl
      rfl
    | cons b u => simp at h

theorem canBecomeMaster_noop (s : ClusterState) (i : Nat) (fate : SyncFate)
    (hH : s.coordinator = none ∨ (∃ c, s.coordinator = some c ∧ getNode? s c = none) ∨
      (s.dbs.filter (fun n => n.alive)).length ≤ 1)
    (hin : ∃ n, getNode? s i = some n ∧ n.alive = true) :
    ∃ elig, canBecomeMaster s i fate = (s, elig, false) := by
  obtain ⟨db, hdb, hal⟩ := hin
  unfold canBecomeMaster
  rw [hdb]
  dsimp only
  by_cases hlt : db.term < getHighestTerm s
  · rw [if_pos hlt]
    rcases hH with hc | ⟨c, hc, hcn⟩ | hcount
    · rw [hc]
      exact ⟨false, rfl⟩
    · rw [hc]
      dsimp only
      rw [hcn]
      exact ⟨false, rfl⟩
    · exfalso
      have hmem : db ∈ s.dbs.filter (fun n => n.alive) :=
        List.mem_filter.mpr ⟨(getNode?_id hdb).2, by simp [hal]⟩
      have hsing : s.dbs.filter (fun n => n.alive) = [db] :=
        singleton_of_length_le_one hcount hmem
      have hht : getHighestTerm s = db.term := by
        unfold getHighestTerm
        rw [hsing]
        simp
      rw [hht] at hlt
      exact Nat.lt_irrefl _ hlt
  · rw [if_neg hlt]
    exact ⟨true, rfl⟩

theorem electScan_invZ (env : ElectEnv) (gt : Nat) (allIds : List Nat) :
    ∀ (cands : List Nat) (s : ClusterState),
      (s.coordinator = none ∨ (∃ c, s.coordinator = some c ∧ getNode? s c = none) ∨
        (s.dbs.filter (fun n => n.alive)).length ≤ 1) →
      (∀ i, i ∈ cands → ∃ n, getNode? s i = some n ∧ n.alive = true) →
      (s.dbs.map (fun n => n.id)).Nodup →
      TermsLeG s gt →
      NoMaster s →
      s.globalTerm = gt →
      TermsLeG (electScan env gt allIds s cands).1 gt ∧
      MasterTermG (electScan env gt allIds s cands).1 gt ∧
      (electScan env gt allIds s cands).1.globalTerm = gt ∧
      ∀ j, optTermLe (persistedTerm s j)
        (persistedTerm (electScan env gt allIds s cands).1 j) := by
  intro cands
  induction cands with
  | nil =>
    intro s hH hcand hnd hb hnm hgt
    exact ⟨hb, fun n hn hr => absurd hr (hnm n hn), hgt, fun j => optTermLe_refl _⟩
  | cons i rest ih =>
    intro s hH hcand hnd hb hnm hgt
    obtain ⟨elig, hcb⟩ := canBecomeMaster_noop s i (env.syncFate i) hH
      (hcand i (List.mem_cons_self i rest))
    simp only [electScan]
    rw [hcb]
    dsimp only
    rw [if_neg (by decide)]
    cases elig with
    | false =>
      rw [if_neg (by decide)]
      exact ih s hH (fun j hj => hcand j (List.mem_cons_of_mem i hj)) hnd hb hnm hgt
    | true =>
      rw [if_pos rfl]
      have hbR : TermsLeG ({ setNode s i
          (fun n => { n with role := Role.master, term := gt }) with
          coordinator := some i }) gt :=
        termsLe_setNode s i (fun n => { n with role := Role.master, term := gt }) gt hb
          (fun n hn hp2 => ⟨Nat.le_refl gt, hp2.2⟩)
      have hmR : MasterTermG ({ setNode s i
          (fun n => { n with role := Role.master, term := gt }) with
          coordinator := some i }) gt :=
        masterG_setNode s i (fun n => { n with role := Role.master, term := gt }) gt
          (fun n hn hr => absurd hr (hnm n hn)) (fun n hn hni hold hr => rfl)
      by_cases hp : env.persistOk i = false
      · rw [if_pos hp]
        refine ⟨hbR, hmR, hgt, ?_⟩
        intro j
        exact (show optTermLe (persistedTerm s j)
          (persistedTerm (setNode s i
            (fun n => { n with role := Role.master, term := gt })) j) from by
          rw [persistedTerm_setNode_pres s i
            (fun n => { n with role := Role.master, term := gt })
            (fun n => rfl) (fun n => rfl) j]
          exact optTermLe_refl _)
      · rw [if_neg hp]
        have hids2 : (setNode ({ setNode s i
            (fun n => { n with role := Role.master, term := gt }) with
            coordinator := some i }) i
            (fun n => { n with store := { n.store with term := some gt } })).dbs.map
            (fun n => n.id) = s.dbs.map (fun n => n.id) := by
          rw [ids_setNode _ i (fun n => { n with store := { n.store with term := some gt } })
            (fun n => rfl)]
          exact ids_setNode s i (fun n => { n with role := Role.master, term := gt })
            (fun n => rfl)
        have hb3 : TermsLeG (setNode ({ setNode s i
            (fun n => { n with role := Role.master, term := gt }) with
            coordinator := some i }) i
            (fun n => { n with store := { n.store with term := some gt } })) gt :=
          termsLe_setNode _ i (fun n => { n with store := { n.store with term := some gt } })
            gt hbR (fun n hn hp2 => ⟨hp2.1, fun v hv => by
              injection hv with hv
              rw [← hv]⟩)
        have hm3 : MasterTermG (setNode ({ setNode s i
            (fun n => { n with role := Role.master, term := gt }) with
            coordinator := some i }) i
            (fun n => { n with store := { n.store with term := some gt } })) gt :=
          masterG_setNode _ i (fun n => { n with store := { n.store with term := some gt } })
            gt hmR (fun n hn hni hold hr => hold hr)
        have hnd3 : ((setNode ({ setNode s i
            (fun n => { n with role := Role.master, term := gt }) with
            coordinator := some i }) i
            (fun n => { n with store := { n.store with term := some gt } })).dbs.map
            (fun n => n.id)).Nodup := by
          rw [hids2]
          exact hnd
        have hsrc3 : ∀ wn, getNode? (setNode ({ setNode s i
            (fun n => { n with role := Role.master, term := gt }) with
            coordinator := some i }) i
            (fun n => { n with store := { n.store with term := some gt } })) i = some wn →
            gt ≤ wn.term := by
          intro wn hwn
          rw [getNode?_setNode_self _ i
            (fun n => { n with store := { n.store with term := some gt } })
            (fun n => rfl)] at hwn
          have hx : getNode? ({ setNode s i
              (fun n => { n with role := Role.master, term := gt }) with
              coordinator := some i }) i = (getNode? s i).map
              (fun n => { n with role := Role.master, term := gt }) :=
            getNode?_setNode_self s i (fun n => { n with role := Role.master, term := gt })
              (fun n => rfl)
          rw [hx] at hwn
          cases hsi : getNode? s i with
          | none =>
            rw [hsi] at hwn
            cases hwn
          | some ni =>
            rw [hsi] at hwn
            simp only [Option.map_some'] at hwn
            injection hwn with hwn
            rw [← hwn]
        obtain ⟨hidsD, hbD, hmD, hmonoD⟩ := demote_invZ env i gt allIds
          (setNode ({ setNode s i
            (fun n => { n with role := Role.master, term := gt }) with
            coordinator := some i }) i
            (fun n => { n with store := { n.store with term := some gt } }))
          hnd3 hb3 hm3 hsrc3
        refine ⟨hbD, hmD, ?_, ?_⟩
        · rw [demote_globalTerm env i gt allIds]
          exact hgt
        · intro j
          have h1 : persistedTerm ({ setNode s i
              (fun n => { n with role := Role.master, term := gt }) with
              coordinator := some i }) j = persistedTerm s j :=
            persistedTerm_setNode_pres s i
              (fun n => { n with role := Role.master, term := gt })
              (fun n => rfl) (fun n => rfl) j
          have h2 := persistedTerm_persist ({ setNode s i
              (fun n => { n with role := Role.master, term := gt }) with
              coordinator := some i }) i gt
            (fun n hn v hv => (hbR n hn).2 v hv) j
          rw [← h1]
          exact optTermLe_trans h2 (hmonoD j)

theorem elect_invZ (s : ClusterState) (env : ElectEnv)
    (hi : Inv s) (hb : TermsLeG s s.globalTerm)
    (ht : electTriggerB s = true) :
    InvZ (electCoordinator s env).1 ∧
    (electCoordinator s env).1.globalTerm = s.globalTerm + 1 ∧
    ∀ j, optTermLe (persistedTerm s j) (persistedTerm (electCoordinator s env).1 j) := by
  have hnm : NoMaster s := noMaster_of_trigger hi ht
  have hnd : (s.dbs.map (fun n => n.id)).Nodup := by
    rw [hi.1]
    decide
  have hH : s.coordinator = none ∨ (∃ c, s.coordinator = some c ∧ getNode? s c = none) ∨
      (s.dbs.filter (fun n => n.alive)).length ≤ 1 := by
    unfold electTriggerB at ht
    cases hc : s.coordinator with
    | none => exact Or.inl rfl
    | some c =>
      rw [hc] at ht
      dsimp only at ht
      cases hcn : getNode? s c with
      | none => exact Or.inr (Or.inl ⟨c, rfl, hcn⟩)
      | some n =>
        rw [hcn] at ht
        dsimp only at ht
        have hnal : n.alive = false := by
          cases hna : n.alive
          · rfl
          · rw [hna] at ht
            simp at ht
        refine Or.inr (Or.inr ?_)
        rcases dbs_shape hi.1 with ⟨a, b, hdbs, ha2, hb1⟩
        have hnmem := (getNode?_id hcn).2
        rw [hdbs] at hnmem
        rw [hdbs]
        rcases List.mem_pair.mp hnmem with rfl | rfl
        · rw [List.filter_cons_of_neg (by simp [hnal])]
          exact List.length_filter_le _ _
        · cases haa : a.alive
          · rw [List.filter_cons_of_neg (by simp [haa]),
              List.filter_cons_of_neg (by simp [hnal])]
            simp
          · rw [List.filter_cons_of_pos (by simp [haa]),
              List.filter_cons_of_neg (by simp [hnal])]
            simp
  have hcand : ∀ i, i ∈ candidateIds s → ∃ n, getNode? s i = some n ∧ n.alive = true := by
    intro i hi2
    obtain ⟨x, hx, hal, hid⟩ := mem_candidateIds hi2
    refine ⟨x, ?_, hal⟩
    rw [← hid]
    exact getNode?_self_nodup hnd hx
  have hmain := electScan_invZ env (s.globalTerm + 1) (candidateIds s) (candidateIds s)
    { s with globalTerm := s.globalTerm + 1 }
    hH hcand hnd (termsLe_mono hb (Nat.le_succ _)) hnm rfl
  have hgtr : (electCoordinator s env).1.globalTerm = s.globalTerm + 1 := hmain.2.2.1
  refine ⟨⟨inv_elect s env hi ht, ?_, ?_⟩, hgtr, hmain.2.2.2⟩
  · rw [hgtr]
    exact hmain.1
  · rw [hgtr]
    exact hmain.2.1

theorem mterm_setNode (s : ClusterState) (i mId g : Nat) (f : Node → Node)
    (hfid : ∀ n, (f n).id = n.id) (hft : ∀ n, (f n).term = n.term)
    (h : ∀ mn, getNode? s mId = some mn → mn.term = g) :
    ∀ mn, getNode? (setNode s i f) mId = some mn → mn.term = g := by
  intro mn hmn
  rw [getNode?_setNode s i mId f hfid] at hmn
  cases hg : getNode? s mId with
  | none =>
    rw [hg] at hmn
    cases hmn
  | some m0 =>
    rw [hg] at hmn
    simp only [Option.map_some'] at hmn
    by_cases hm0 : m0.id = i
    · rw [if_pos (by simp [hm0])] at hmn
      injection hmn with hmn
      rw [← hmn, hft]
      exact h m0 hg
    · rw [if_neg (by simp [hm0])] at hmn
      injection hmn with hmn
      rw [← hmn]
      exact h m0 hg

theorem mterm_sync (s : ClusterState) (i mId : Nat) (fate : SyncFate) (g : Nat)
    (h : ∀ mn, getNode? s mId = some mn → mn.term = g) :
    ∀ mn, getNode? (syncDataFromMaster s i mId fate).1 mId = some mn → mn.term = g := by
  by_cases he : i = mId
  · subst he
    rw [sync_self]
    exact h
  · intro mn hmn
    rw [sync_getNode?_ne s i mId fate mId (fun hx => he hx.symm)] at hmn
    exact h mn hmn

theorem foldl_pres_mono {P : ClusterState → Prop} (g : ClusterState → Nat → ClusterState)
    (h : ∀ s i, P s → P (g s i) ∧
      ∀ j, optTermLe (persistedTerm s j) (persistedTerm (g s i) j)) :
    ∀ (l : List Nat) (s : ClusterState), P s →
      P (l.foldl g s) ∧
      ∀ j, optTermLe (persistedTerm s j) (persistedTerm (l.foldl g s) j) := by
  intro l
  induction l with
  | nil =>
    intro s hs
    exact ⟨hs, fun j => optTermLe_refl _⟩
  | cons i rest ih =>
    intro s hs
    obtain ⟨h1, h2⟩ := h s i hs
    obtain ⟨h3, h4⟩ := ih (g s i) h1
    exact ⟨h3, fun j => optTermLe_trans (h2 j) (h4 j)⟩

theorem connectFresh_invZ (env : ConnEnv) (g : Nat) :
    ∀ (s : ClusterState) (i : Nat),
      (TermsLeG s g ∧ NoMaster s ∧ s.globalTerm = g) →
      (TermsLeG (connectFresh env s i) g ∧ NoMaster (connectFresh env s i) ∧
        (connectFresh env s i).globalTerm = g) ∧
      ∀ j, optTermLe (persistedTerm s j) (persistedTerm (connectFresh env s i) j) := by
  rintro s i ⟨hb, hnm, hgt⟩
  unfold connectFresh
  by_cases hc : env.connOk i
  · rw [if_pos hc]
    refine ⟨⟨?_, ?_, hgt⟩, ?_⟩
    · refine termsLe_setNode s i _ g hb (fun n hn hp => ⟨?_, ?_⟩)
      · cases hnt : n.store.term with
        | none => simp [hnt, Option.getD]
        | some v =>
          simp only [hnt, Option.getD_some]
          exact hp.2 v hnt
      · intro v hv
        injection hv with hv
        rw [← hv]
        cases hnt : n.store.term with
        | none => simp [hnt, Option.getD]
        | some u =>
          simp only [hnt, Option.getD_some]
          exact hp.2 u hnt
    · exact noMaster_setNode s i _ (fun n hr => hr) hnm
    · intro j
      by_cases hij : j = i
      · subst hij
        unfold persistedTerm
        rw [getNode?_setNode_self s j
          (fun n => { n with
            hasModels := true,
            alive := true,
            term := n.store.term.getD 0,
            store := { n.store with term := some (n.store.term.getD 0) } }) (fun n => rfl)]
        cases hg2 : getNode? s j with
        | none => exact trivial
        | some db =>
          simp only [Option.map_some']
          cases hdt : db.store.term with
          | none => exact trivial
          | some v =>
            simp only [hdt, Option.getD_some]
            exact Nat.le_refl v
      · rw [persistedTerm_eq_of_getNode?
          (getNode?_setNode_ne s i j
            (fun n => { n with
              hasModels := true,
              alive := true,
              term := n.store.term.getD 0,
              store := { n.store with term := some (n.store.term.getD 0) } })
            (fun n => rfl) hij)]
        exact optTermLe_refl _
  · rw [if_neg hc]
    refine ⟨⟨?_, ?_, hgt⟩, ?_⟩
    · exact termsLe_setNode s i _ g hb (fun n hn hp => hp)
    · exact noMaster_setNode s i _ (fun n hr => by cases hr) hnm
    · intro j
      rw [persistedTerm_setNode_pres s i
        (fun n => { n with alive := false, role := Role.unknown })
        (fun n => rfl) (fun n => rfl) j]
      exact optTermLe_refl _

theorem reconnect_invZ (env : ConnEnv) (mId : Nat) (g : Nat) :
    ∀ (s : ClusterState) (i : Nat),
      (Inv s ∧ TermsLeG s g ∧ MasterTermG s g ∧ s.globalTerm = g ∧
        (∀ mn, getNode? s mId = some mn → mn.term = g)) →
      (Inv (reconnectWithMaster env mId s i) ∧
        TermsLeG (reconnectWithMaster env mId s i) g ∧
        MasterTermG (reconnectWithMaster env mId s i) g ∧
        (reconnectWithMaster env mId s i).globalTerm = g ∧
        (∀ mn, getNode? (reconnectWithMaster env mId s i) mId = some mn → mn.term = g)) ∧
      ∀ j, optTermLe (persistedTerm s j)
        (persistedTerm (reconnectWithMaster env mId s i) j) := by
  rintro s i ⟨hi, hb, hm, hgt, hmt⟩
  have hInv := inv_reconnect_step env mId s i hi
  unfold reconnectWithMaster at hInv ⊢
  cases hdb : getNode? s i with
  | none =>
    exact ⟨⟨hi, hb, hm, hgt, hmt⟩, fun j => optTermLe_refl _⟩
  | some db =>
    rw [hdb] at hInv
    dsimp only at hInv ⊢
    by_cases hal : db.alive = false
    · rw [if_pos hal] at hInv ⊢
      by_cases hc : env.connOk i
      · rw [if_pos hc] at hInv ⊢
        have hb1 : TermsLeG (setNode s i
            (fun n => { n with hasModels := true, alive := true })) g :=
          termsLe_setNode s i (fun n => { n with hasModels := true, alive := true }) g hb
            (fun n hn hp => hp)
        have hm1 : MasterTermG (setNode s i
            (fun n => { n with hasModels := true, alive := true })) g :=
          masterG_setNode s i (fun n => { n with hasModels := true, alive := true }) g hm
            (fun n hn hni hold hr => hold hr)
        have hmt1 : ∀ mn, getNode? (setNode s i
            (fun n => { n with hasModels := true, alive := true })) mId = some mn →
            mn.term = g :=
          mterm_setNode s i mId g (fun n => { n with hasModels := true, alive := true })
            (fun n => rfl) (fun n => rfl) hmt
        have hi1 : Inv (setNode s i (fun n => { n with hasModels := true, alive := true })) :=
          inv_setNode s i (fun n => { n with hasModels := true, alive := true })
            (fun n => rfl) (fun n hn _ hr => ⟨rfl, (hi.2 n hn hr).2⟩) hi
        have hnd1 : ((setNode s i
            (fun n => { n with hasModels := true, alive := true })).dbs.map
            (fun n => n.id)).Nodup := by
          rw [hi1.1]
          decide
        have htgt1 : ∀ db2, getNode? (setNode s i
            (fun n => { n with hasModels := true, alive := true })) i = some db2 →
            db2.role ≠ Role.master := by
          intro db2 hdb2
          rw [getNode?_setNode_self s i
            (fun n => { n with hasModels := true, alive := true }) (fun n => rfl), hdb] at hdb2
          simp only [Option.map_some'] at hdb2
          injection hdb2 with hdb2
          rw [← hdb2]
          intro hr
          have hdba := (hi.2 db (getNode?_id hdb).2 hr).1
          rw [hdba] at hal
          cases hal
        cases hsync : syncDataFromMaster
            (setNode s i (fun n => { n with hasModels := true, alive := true }))
            i mId (env.syncFate i) with
        | mk s2 threw =>
          rw [hsync] at hInv
          dsimp only at hInv ⊢
          have hb2 : TermsLeG s2 g := by
            have h := sync_termsLe
              (setNode s i (fun n => { n with hasModels := true, alive := true }))
              i mId (env.syncFate i) g hb1
            rw [hsync] at h
            exact h
          have hm2 : MasterTermG s2 g := by
            have h := sync_masterG
              (setNode s i (fun n => { n with hasModels := true, alive := true }))
              i mId (env.syncFate i) g hnd1 hm1 htgt1
            rw [hsync] at h
            exact h
          have hmt2 : ∀ mn, getNode? s2 mId = some mn → mn.term = g := by
            have h := mterm_sync
              (setNode s i (fun n => { n with hasModels := true, alive := true }))
              i mId (env.syncFate i) g hmt1
            rw [hsync] at h
            exact h
          have hgt2 : s2.globalTerm = g := by
            have h := sync_skeleton
              (setNode s i (fun n => { n with hasModels := true, alive := true }))
              i mId (env.syncFate i)
            rw [hsync] at h
            exact (skeleton_globalTerm h).trans hgt
          have hmono2 : ∀ j, optTermLe (persistedTerm s j) (persistedTerm s2 j) := by
            intro j
            have h0 : persistedTerm (setNode s i
                (fun n => { n with hasModels := true, alive := true })) j
                = persistedTerm s j :=
              persistedTerm_setNode_pres s i
                (fun n => { n with hasModels := true, alive := true })
                (fun n => rfl) (fun n => rfl) j
            have h := sync_persMono
              (setNode s i (fun n => { n with hasModels := true, alive := true }))
              i mId (env.syncFate i) g hb1
              (fun mn hmn => Nat.le_of_eq (hmt1 mn hmn).symm) j
            rw [hsync] at h
            rw [← h0]
            exact h
          cases threw with
          | false => exact ⟨⟨hInv, hb2, hm2, hgt2, hmt2⟩, hmono2⟩
          | true =>
            rw [if_pos rfl]
            refine ⟨⟨hInv, ?_, ?_, hgt2, ?_⟩, ?_⟩
            · exact termsLe_setNode s2 i (fun n => { n with alive := false }) g hb2
                (fun n hn hp => hp)
            · exact masterG_setNode s2 i (fun n => { n with alive := false }) g hm2
                (fun n hn hni hold hr => hold hr)
            · exact mterm_setNode s2 i mId g (fun n => { n with alive := false })
                (fun n => rfl) (fun n => rfl) hmt2
            · intro j
              rw [persistedTerm_setNode_pres s2 i (fun n => { n with alive := false })
                (fun n => rfl) (fun n => rfl) j]
              exact hmono2 j
      · rw [if_neg hc] at hInv ⊢
        exact ⟨⟨hi, hb, hm, hgt, hmt⟩, fun j => optTermLe_refl _⟩
    · rw [if_neg hal] at hInv ⊢
      by_cases hc : env.connOk i
      · rw [if_pos hc] at hInv ⊢
        exact ⟨⟨hi, hb, hm, hgt, hmt⟩, fun j => optTermLe_refl _⟩
      · rw [if_neg hc] at hInv ⊢
        refine ⟨⟨hInv, ?_, ?_, hgt, ?_⟩, ?_⟩
        · exact termsLe_setNode s i
            (fun n => { n with alive := false, role := Role.unknown }) g hb
            (fun n hn hp => hp)
        · exact masterG_setNode s i
            (fun n => { n with alive := false, role := Role.unknown }) g hm
            (fun n hn hni hold hr => by cases hr)
        · exact mterm_setNode s i mId g
            (fun n => { n with alive := false, role := Role.unknown })
            (fun n => rfl) (fun n => rfl) hmt
        · intro j
          rw [persistedTerm_setNode_pres s i
            (fun n => { n with alive := false, role := Role.unknown })
            (fun n => rfl) (fun n => rfl) j]
          exact optTermLe_refl _

theorem connectDBs_invZ (s : ClusterState) (env : ConnEnv) (hz : InvZ s) :
    InvZ (connectDBs s env) ∧ (connectDBs s env).globalTerm = s.globalTerm ∧
    ∀ j, optTermLe (persistedTerm s j) (persistedTerm (connectDBs s env) j) := by
  obtain ⟨hi, hb, hmz⟩ := hz
  have hInv := inv_connectDBs s env hi
  have hmain : TermsLeG (connectDBs s env) s.globalTerm ∧
      MasterTermG (connectDBs s env) s.globalTerm ∧
      (connectDBs s env).globalTerm = s.globalTerm ∧
      ∀ j, optTermLe (persistedTerm s j) (persistedTerm (connectDBs s env) j) := by
    unfold connectDBs
    cases hf : s.dbs.find? (fun n => n.role == Role.master) with
    | some m =>
      have hmmem : m ∈ s.dbs := List.mem_of_find?_eq_some hf
      have hmrole : m.role = Role.master := by simpa using List.find?_some hf
      have hnd : (s.dbs.map (fun n => n.id)).Nodup := by
        rw [hi.1]
        decide
      have hmt : ∀ mn, getNode? s m.id = some mn → mn.term = s.globalTerm := by
        intro mn hmn
        have h2 := getNode?_self_nodup hnd hmmem
        rw [h2] at hmn
        injection hmn with hmn
        rw [← hmn]
        exact hmz m hmmem hmrole
      obtain ⟨⟨_, hbF, hmF, hgF, _⟩, hmonoF⟩ :=
        foldl_pres_mono (reconnectWithMaster env m.id)
          (fun t j ht => reconnect_invZ env m.id s.globalTerm t j ht)
          (s.dbs.map (fun n => n.id)) s ⟨hi, hb, hmz, rfl, hmt⟩
      exact ⟨hbF, hmF, hgF, hmonoF⟩
    | none =>
      have hnm : NoMaster s := noMaster_of_find?_none hf
      obtain ⟨⟨hbF, hnmF, hgF⟩, hmonoF⟩ :=
        foldl_pres_mono (connectFresh env)
          (fun t j ht => connectFresh_invZ env s.globalTerm t j ht)
          (s.dbs.map (fun n => n.id)) s ⟨hb, hnm, rfl⟩
      exact ⟨hbF, fun n hn hr => absurd hr (hnmF n hn), hgF, hmonoF⟩
  refine ⟨⟨hInv, ?_, ?_⟩, hmain.2.2.1, hmain.2.2.2⟩
  · rw [hmain.2.2.1]
    exact hmain.1
  · rw [hmain.2.2.1]
    exact hmain.2.1

theorem persMap_setNode (s : ClusterState) (i : Nat) (f : Node → Node)
    (hf : ∀ n, persKey (f n) = persKey n) : persMap (setNode s i f) = persMap s := by
  unfold persMap setNode
  dsimp only
  rw [List.map_map]
  apply List.map_congr_left
  intro n _
  by_cases h : n.id = i <;> simp [h, hf]

theorem persMap_propagateWrite (env : WriteEnv) (doc : Rec) :
    ∀ (l : List Nat) (s : ClusterState),
      persMap (propagateWrite env doc s l) = persMap s ∧
      (propagateWrite env doc s l).globalTerm = s.globalTerm := by
  intro l
  induction l with
  | nil =>
    intro s
    exact ⟨rfl, rfl⟩
  | cons i rest ih =>
    intro s
    simp only [propagateWrite]
    cases hg : getNode? s i with
    | none => exact ih s
    | some n =>
      dsimp only
      by_cases hm : n.hasModels = true
      · rw [if_pos hm]
        by_cases hok : env.slaveOk i = true
        · rw [if_pos hok]
          obtain ⟨h1, h2⟩ := ih (setNode s i (fun m =>
            { m with store := { m.store with recs := m.store.recs ++ [doc] } }))
          exact ⟨h1.trans (persMap_setNode s i
              (fun m => { m with store := { m.store with recs := m.store.recs ++ [doc] } })
              (fun m => rfl)), h2⟩
        · rw [if_neg hok]
          obtain ⟨h1, h2⟩ := ih (setNode s i (fun m => { m with alive := false }))
          exact ⟨h1.trans (persMap_setNode s i (fun m => { m with alive := false })
              (fun m => rfl)), h2⟩
      · rw [if_neg hm]
        exact ih s

theorem persMap_propagateUpdate (env : WriteEnv) (rid : Nat) (d : String) :
    ∀ (l : List Nat) (s : ClusterState),
      persMap (propagateUpdate env rid d s l) = persMap s ∧
      (propagateUpdate env rid d s l).globalTerm = s.globalTerm := by
  intro l
  induction l with
  | nil =>
    intro s
    exact ⟨rfl, rfl⟩
  | cons i rest ih =>
    intro s
    simp only [propagateUpdate]
    cases hg : getNode? s i with
    | none => exact ih s
    | some n =>
      dsimp only
      by_cases hm : n.hasModels = true
      · rw [if_pos hm]
        by_cases hok : env.slaveOk i = true
        · rw [if_pos hok]
          obtain ⟨h1, h2⟩ := ih (setNode s i (fun m =>
            { m with store := { m.store with recs := updateRecs m.store.recs rid d } }))
          exact ⟨h1.trans (persMap_setNode s i
              (fun m => { m with store :=
                { m.store with recs := updateRecs m.store.recs rid d } })
              (fun m => rfl)), h2⟩
        · rw [if_neg hok]
          obtain ⟨h1, h2⟩ := ih (setNode s i (fun m => { m with alive := false }))
          exact ⟨h1.trans (persMap_setNode s i (fun m => { m with alive := false })
              (fun m => rfl)), h2⟩
      · rw [if_neg hm]
        exact ih s

theorem persMap_apiWrite (s : ClusterState) (d : String) (now : Nat) (env : WriteEnv) :
    persMap (apiWrite s d now env).1 = persMap s ∧
    (apiWrite s d now env).1.globalTerm = s.globalTerm := by
  unfold apiWrite
  by_cases he : d = ""
  · rw [if_pos he]
    exact ⟨rfl, rfl⟩
  · rw [if_neg he]
    cases hc : s.coordinator with
    | none => exact ⟨rfl, rfl⟩
    | some c =>
      dsimp only
      cases hg : getNode? s c with
      | none => exact ⟨rfl, rfl⟩
      | some cn =>
        dsimp only
        by_cases hal : cn.alive = false
        · rw [if_pos hal]
          exact ⟨rfl, rfl⟩
        · rw [if_neg hal]
          by_cases hmod : cn.hasModels = false
          · rw [if_pos hmod]
            exact ⟨rfl, rfl⟩
          · rw [if_neg hmod]
            by_cases hmk : env.masterOk = false
            · rw [if_pos hmk]
              exact ⟨rfl, rfl⟩
            · rw [if_neg hmk]
              dsimp only
              obtain ⟨h1, h2⟩ := persMap_propagateWrite env
                { rid := cn.store.nextId, data := d, createdAt := now } _ _
              refine ⟨h1.trans ?_, h2⟩
              exact persMap_setNode s c
                (fun n => { n with store := { n.store with
                  recs := n.store.recs ++
                    [{ rid := cn.store.nextId, data := d, createdAt := now }],
                  nextId := n.store.nextId + 1 } })
                (fun n => rfl)

theorem persMap_apiUpdate (s : ClusterState) (rid : Nat) (d : String) (env : WriteEnv) :
    persMap (apiUpdate s rid d env).1 = persMap s ∧
    (apiUpdate s rid d env).1.globalTerm = s.globalTerm := by
  unfold apiUpdate
  by_cases he : d = ""
  · rw [if_pos he]
    exact ⟨rfl, rfl⟩
  · rw [if_neg he]
    cases hc : s.coordinator with
    | none => exact ⟨rfl, rfl⟩
    | some c =>
      dsimp only
      cases hg : getNode? s c with
      | none => exact ⟨rfl, rfl⟩
      | some cn =>
        dsimp only
        by_cases hal : cn.alive = false
        · rw [if_pos hal]
          exact ⟨rfl, rfl⟩
        · rw [if_neg hal]
          by_cases hmod : cn.hasModels = false
          · rw [if_pos hmod]
            exact ⟨rfl, rfl⟩
          · rw [if_neg hmod]
            by_cases hmk : env.masterOk = false
            · rw [if_pos hmk]
              exact ⟨rfl, rfl⟩
            · rw [if_neg hmk]
              by_cases hfound : (cn.store.recs.any (fun r => r.rid == rid)) = false
              · rw [if_pos hfound]
                exact ⟨rfl, rfl⟩
              · rw [if_neg hfound]
                dsimp only
                obtain ⟨h1, h2⟩ := persMap_propagateUpdate env rid d _ _
                refine ⟨h1.trans ?_, h2⟩
                exact persMap_setNode s c
                  (fun n => { n with store := { n.store with
                    recs := updateRecs n.store.recs rid d } })
                  (fun n => rfl)

theorem find?_persKey_of_map_eq : ∀ {l1 l2 : List Node},
    l1.map persKey = l2.map persKey →
    ∀ j, (l1.find? (fun n => n.id == j)).map persKey =
      (l2.find? (fun n => n.id == j)).map persKey := by
  intro l1
  induction l1 with
  | nil =>
    intro l2 h j
    cases l2 with
    | nil => rfl
    | cons b t => simp at h
  | cons a t ih =>
    intro l2 h j
    cases l2 with
    | nil => simp at h
    | cons b t2 =>
      simp only [List.map_cons, List.cons.injEq] at h
      have hid : a.id = b.id := congrArg Prod.fst h.1
      by_cases hj : a.id = j
      · rw [List.find?_cons_of_pos _ (by simp [hj]),
          List.find?_cons_of_pos _ (by simp [← hid, hj])]
        simpa using h.1
      · rw [List.find?_cons_of_neg _ (by simp [hj]),
          List.find?_cons_of_neg _ (by simp [← hid, hj]), ih h.2 j]

theorem persistedTerm_of_persMap_eq {s1 s : ClusterState} (h : persMap s1 = persMap s)
    (j : Nat) : persistedTerm s1 j = persistedTerm s j := by
  have hk := find?_persKey_of_map_eq h j
  unfold persistedTerm getNode?
  cases h1 : s1.dbs.find? (fun n => n.id == j) with
  | none =>
    rw [h1] at hk
    cases h2 : s.dbs.find? (fun n => n.id == j) with
    | none => rfl
    | some n2 =>
      rw [h2] at hk
      cases hk
  | some n1 =>
    rw [h1] at hk
    cases h2 : s.dbs.find? (fun n => n.id == j) with
    | none =>
      rw [h2] at hk
      cases hk
    | some n2 =>
      rw [h2] at hk
      simp only [Option.map_some'] at hk
      injection hk with hk
      exact congrArg (fun k : Nat × Role × Nat × Option Nat => k.2.2.2) hk

theorem termsLe_of_persMap_eq {s1 s : ClusterState} (h : persMap s1 = persMap s)
    {g : Nat} (hb : TermsLeG s g) : TermsLeG s1 g := by
  intro n hn
  have hmem : persKey n ∈ persMap s1 := List.mem_map_of_mem _ hn
  rw [h] at hmem
  obtain ⟨m, hmm, he⟩ := List.mem_map.mp hmem
  have ht : m.term = n.term := congrArg (fun k : Nat × Role × Nat × Option Nat => k.2.2.1) he
  have hst : m.store.term = n.store.term :=
    congrArg (fun k : Nat × Role × Nat × Option Nat => k.2.2.2) he
  obtain ⟨h1, h2⟩ := hb m hmm
  refine ⟨?_, ?_⟩
  · rw [← ht]
    exact h1
  · intro v hv
    refine h2 v ?_
    rw [hst]
    exact hv

theorem masterG_of_persMap_eq {s1 s : ClusterState} (h : persMap s1 = persMap s)
    {g : Nat} (hm : MasterTermG s g) : MasterTermG s1 g := by
  intro n hn hr
  have hmem : persKey n ∈ persMap s1 := List.mem_map_of_mem _ hn
  rw [h] at hmem
  obtain ⟨m, hmm, he⟩ := List.mem_map.mp hmem
  have hrr : m.role = n.role := congrArg (fun k : Nat × Role × Nat × Option Nat => k.2.1) he
  have ht : m.term = n.term := congrArg (fun k : Nat × Role × Nat × Option Nat => k.2.2.1) he
  rw [← ht]
  refine hm m hmm ?_
  rw [hrr]
  exact hr

theorem invZ_init {s : ClusterState} (h : InitZero s) : InvZ s := by
  obtain ⟨st2, st1, rfl, hz2, hz1⟩ := h
  refine ⟨inv_init ⟨st2, st1, rfl⟩, ?_, ?_⟩
  · intro n hn
    rcases List.mem_pair.mp hn with rfl | rfl
    · refine ⟨Nat.le_refl 0, ?_⟩
      intro v hv
      have hv2 : st2.term = some v := hv
      rcases hz2 with hz | hz
      · rw [hz] at hv2
        cases hv2
      · rw [hz] at hv2
        injection hv2 with hv2
        rw [← hv2]
        exact Nat.le_refl 0
    · refine ⟨Nat.le_refl 0, ?_⟩
      intro v hv
      have hv1 : st1.term = some v := hv
      rcases hz1 with hz | hz
      · rw [hz] at hv1
        cases hv1
      · rw [hz] at hv1
        injection hv1 with hv1
        rw [← hv1]
        exact Nat.le_refl 0
  · intro n hn hr
    rcases List.mem_pair.mp hn with rfl | rfl <;> cases hr

theorem invZ_step {s t : ClusterState} (hz : InvZ s) (hst : Step s t) :
    InvZ t ∧ s.globalTerm ≤ t.globalTerm ∧
    ∀ j, optTermLe (persistedTerm s j) (persistedTerm t j) := by
  cases hst with
  | health env =>
    obtain ⟨hzt, hgt, hmono⟩ := connectDBs_invZ s env hz
    exact ⟨hzt, Nat.le_of_eq hgt.symm, hmono⟩
  | elect env h =>
    obtain ⟨hzt, hgt, hmono⟩ := elect_invZ s env hz.1 hz.2.1 h
    refine ⟨hzt, ?_, hmono⟩
    rw [hgt]
    exact Nat.le_succ _
  | write d now env =>
    obtain ⟨hpm, hgt⟩ := persMap_apiWrite s d now env
    refine ⟨⟨inv_apiWrite s d now env hz.1, ?_, ?_⟩, Nat.le_of_eq hgt.symm, ?_⟩
    · rw [hgt]
      exact termsLe_of_persMap_eq hpm hz.2.1
    · rw [hgt]
      exact masterG_of_persMap_eq hpm hz.2.2
    · intro j
      rw [persistedTerm_of_persMap_eq hpm j]
      exact optTermLe_refl _
  | update rid d env =>
    obtain ⟨hpm, hgt⟩ := persMap_apiUpdate s rid d env
    refine ⟨⟨inv_apiUpdate s rid d env hz.1, ?_, ?_⟩, Nat.le_of_eq hgt.symm, ?_⟩
    · rw [hgt]
      exact termsLe_of_persMap_eq hpm hz.2.1
    · rw [hgt]
      exact masterG_of_persMap_eq hpm hz.2.2
    · intro j
      rw [persistedTerm_of_persMap_eq hpm j]
      exact optTermLe_refl _

theorem invZ_reach {s : ClusterState} (h : ReachFrom InitZero s) : InvZ s := by
  induction h with
  | base s hs => exact invZ_init hs
  | step s t hs st ih => exact (invZ_step ih st).1

theorem isSome_of_key_eq : ∀ {o1 o2 : Option Node}, o1.map nodeKey = o2.map nodeKey →
    (∃ n, o2 = some n) → ∃ n, o1 = some n := by
  intro o1 o2 hk h
  obtain ⟨n, rfl⟩ := h
  cases o1 with
  | none => simp at hk
  | some n1 => exact ⟨n1, rfl⟩

theorem electScan_winner (env : ElectEnv) (gt : Nat) (allIds : List Nat) :
    ∀ (cands : List Nat) (s t : ClusterState),
      (∀ i, i ∈ cands → ∃ n, getNode? s i = some n) →
      electScan env gt allIds s cands = (t, false) →
      ∀ w, t.coordinator = some w →
      ∃ wn, getNode? t w = some wn ∧ wn.role = Role.master ∧ wn.term = gt ∧
        wn.store.term = some gt := by
  intro cands
  induction cands with
  | nil =>
    intro s t _ hrun w hw
    simp only [electScan] at hrun
    have ht := congrArg (fun p : ClusterState × Bool => p.1.coordinator) hrun
    dsimp only at ht
    rw [← ht] at hw
    simp at hw
  | cons i rest ih =>
    intro s t hex hrun w hw
    simp only [electScan] at hrun
    cases hc : canBecomeMaster s i (env.syncFate i) with
    | mk s1 p =>
      cases p with
      | mk elig threw =>
        rw [hc] at hrun
        dsimp only at hrun
        cases threw with
        | true => simp at hrun
        | false =>
          have hsk := canBecomeMaster_skeleton s i (env.syncFate i)
          rw [hc] at hsk
          dsimp only at hsk
          cases elig with
          | false =>
            rw [if_neg (by decide), if_neg (by decide)] at hrun
            exact ih s1 t
              (fun j hj => isSome_of_key_eq (key_of_skeleton_eq hsk j)
                (hex j (List.mem_cons_of_mem i hj))) hrun w hw
          | true =>
            rw [if_neg (by decide), if_pos rfl] at hrun
            by_cases hp : env.persistOk i = false
            · rw [if_pos hp] at hrun
              have hb := congrArg Prod.snd hrun
              simp at hb
            · rw [if_neg hp] at hrun
              obtain ⟨n1, hn1⟩ := isSome_of_key_eq (key_of_skeleton_eq hsk i)
                (hex i (List.mem_cons_self i rest))
              have hco : t.coordinator = some i := by
                have hdc := demote_coordinator env i gt allIds
                  (setNode ({ setNode s1 i
                    (fun n => { n with role := Role.master, term := gt }) with
                    coordinator := some i }) i
                    (fun n => { n with store := { n.store with term := some gt } }))
                rw [hrun] at hdc
                dsimp only at hdc
                exact hdc
              have hwi : w = i := by
                rw [hco] at hw
                injection hw with h
                exact h.symm
              subst hwi
              have hs3i : getNode? (setNode ({ setNode s1 w (fun n =>
                  { n with role := Role.master, term := gt }) with coordinator := some w }) w
                  (fun n => { n with store := { n.store with term := some gt } })) w
                  = some { n1 with
                      role := Role.master,
                      term := gt,
                      store := { n1.store with term := some gt } } := by
                have h2 : getNode? ({ setNode s1 w (fun n =>
                    { n with role := Role.master, term := gt }) with
                    coordinator := some w }) w
                    = some { n1 with role := Role.master, term := gt } := by
                  have h := getNode?_setNode_self s1 w
                    (fun n => { n with role := Role.master, term := gt }) (fun n => rfl)
                  rw [hn1] at h
                  exact h
                rw [getNode?_setNode_self _ w
                  (fun n => { n with store := { n.store with term := some gt } })
                  (fun n => rfl), h2]
                rfl
              have hpres := demote_getNode?_pres env w gt w allIds
                (setNode ({ setNode s1 w
                  (fun n => { n with role := Role.master, term := gt }) with
                  coordinator := some w }) w
                  (fun n => { n with store := { n.store with term := some gt } }))
                (Or.inr rfl)
              rw [hrun] at hpres
              dsimp only at hpres
              exact ⟨_, hpres.trans hs3i, rfl, rfl, rfl⟩

/-- Claim C1: for every reachable state (in particular at every settled
instant after a completed `connectDBs`/`electCoordinator` run and between
coordination-loop ticks), at most one node descriptor with `alive=true`
has `role=master`.  Proved for all states reachable from a process start
over arbitrary pre-existing stores, which also covers every intermediate
state left by aborted election runs and crash/restart traces. -/
theorem claim1_at_most_one_alive_master (s : ClusterState) (h : ReachFrom InitAny s) :
    AtMostOneAliveMaster s := by
  intro n m hn hm _ hnr _ hmr
  have hi := inv_reach h
  have h1 := (hi.2 n hn hnr).2
  have h2 := (hi.2 m hm hmr).2
  rw [h1] at h2
  injection h2

/-- Witness for C1 at a concrete reachable state. -/
theorem claim1_witness :
    ReachFrom InitAny (startState ⟨none, [], 0⟩ ⟨none, [], 0⟩) ∧
      AtMostOneAliveMaster (startState ⟨none, [], 0⟩ ⟨none, [], 0⟩) :=
  ⟨ReachFrom.base _ ⟨_, _, rfl⟩,
    claim1_at_most_one_alive_master _ (ReachFrom.base _ ⟨_, _, rfl⟩)⟩

/-- Claim C10: the `read(nodeId)` entry point returns at most 10
application records, each projected to payload and creation timestamp
only, regardless of how many records the node stores
(`Model.find({}).limit(10)` with a `{data, createdAt}` projection). -/
theorem claim10_read_bounded (s : ClusterState) (i : Nat) (r : ReadResp)
    (h : apiRead s i = some r) :
    r.data.length ≤ 10 ∧
      ∃ n, getNode? s i = some n ∧ n.alive = true ∧
        r.data = (n.store.recs.take 10).map (fun x => (x.data, x.createdAt)) := by
  unfold apiRead at h
  cases hn : getNode? s i with
  | none => rw [hn] at h; cases h
  | some n =>
    rw [hn] at h
    dsimp only at h
    by_cases hal : n.alive = true
    · rw [if_pos hal] at h
      injection h with h
      subst h
      refine ⟨?_, n, rfl, hal, rfl⟩
      rw [List.length_map, List.length_take]
      exact min_le_left _ _
    · rw [if_neg hal] at h
      cases h

/-- Witness for C10: a node storing 12 records returns exactly the first 10. -/
theorem claim10_witness :
    apiRead c10state 2 =
      some { role := Role.master, term := 1,
             data := (c10node.store.recs.take 10).map (fun x => (x.data, x.createdAt)) } ∧
    ((apiRead c10state 2).getD { role := Role.master, term := 1, data := [] }).data.length ≤ 10 := by
  constructor
  · rfl
  · have h := claim10_read_bounded c10state 2
      { role := Role.master, term := 1,
        data := (c10node.store.recs.take 10).map (fun x => (x.data, x.createdAt)) } rfl
    exact le_trans (le_of_eq (by rfl)) h.1

/-- Counterexample to claim C5 as stated: `syncDataFromMaster` does not
preserve record identities.  The source holds exactly one record, with
identity 5; after a fully successful sync the target holds one record
whose identity is 100 (a freshly generated one), and no record with the
source identity 5 — the bulk insert copies only payload and timestamp
(server.js line 174 maps each document to `{data, createdAt}`). -/
theorem claim5_cex :
    (getNode? c5state 2).map (fun n => n.store.recs.map (fun r => r.rid)) = some [5] ∧
    (syncDataFromMaster c5state 1 2 SyncFate.ok).2 = false ∧
    (getNode? (syncDataFromMaster c5state 1 2 SyncFate.ok).1 1).map
      (fun n => n.store.recs.map (fun r => r.rid)) = some [100] ∧
    (getNode? (syncDataFromMaster c5state 1 2 SyncFate.ok).1 1).map
      (fun n => n.store.recs.any (fun r => r.rid == 5)) = some false := by
  refine ⟨rfl, rfl, rfl, rfl⟩

/-- Claim C5 (amended): for every successful `synchronize(target, source)`
with `target != source` and both models present, the entire record set is
read from `source`, the target's entire record set is replaced by the
source's records with payload and timestamp preserved but identities
regenerated, the target's in-memory term is set to the source's term, and
the persisted term document is updated to the source's term only when it
already exists (the `updateOne` has no `upsert`); no other node changes. -/
theorem claim5_sync_effect (s : ClusterState) (tgt src : Nat) (db master : Node)
    (hne : tgt ≠ src)
    (hdb : getNode? s tgt = some db) (hmaster : getNode? s src = some master)
    (hm1 : db.hasModels = true) (hm2 : master.hasModels = true) :
    (syncDataFromMaster s tgt src SyncFate.ok).2 = false ∧
    (∃ n', getNode? (syncDataFromMaster s tgt src SyncFate.ok).1 tgt = some n' ∧
      n'.store.recs = freshRecs master.store.recs db.store.nextId ∧
      projRecs n'.store.recs = projRecs master.store.recs ∧
      n'.term = master.term ∧
      n'.store.term = db.store.term.map (fun _ => master.term)) ∧
    (∀ j, j ≠ tgt → getNode? (syncDataFromMaster s tgt src SyncFate.ok).1 j = getNode? s j) := by
  have heff := sync_ok_effect s tgt src db master hne hdb hmaster hm1 hm2
  have htgt := sync_ok_tgt s tgt src db master hne hdb hmaster hm1 hm2
  refine ⟨by rw [heff], ?_, ?_⟩
  · refine ⟨_, htgt, rfl, ?_, rfl, rfl⟩
    exact projRecs_freshRecs master.store.recs db.store.nextId
  · intro j hj
    rw [heff]
    dsimp only
    exact getNode?_setNode_ne s tgt j _ (fun n => rfl) hj

/-- Witness for the amended C5 at a concrete state. -/
theorem claim5_witness :
    ((1 : Nat) ≠ 2 ∧ getNode? c5state 1 = some
        { id := 1, alive := true, role := Role.slave, term := 3, hasModels := true, store := c5tgtStore } ∧
      getNode? c5state 2 = some
        { id := 2, alive := true, role := Role.master, term := 3, hasModels := true, store := c5srcStore }) ∧
    ((syncDataFromMaster c5state 1 2 SyncFate.ok).2 = false ∧
      (∃ n', getNode? (syncDataFromMaster c5state 1 2 SyncFate.ok).1 1 = some n' ∧
        n'.store.recs = freshRecs c5srcStore.recs c5tgtStore.nextId ∧
        projRecs n'.store.recs = projRecs c5srcStore.recs ∧
        n'.term = 3 ∧
        n'.store.term = (c5tgtStore.term).map (fun _ => 3)) ∧
      (∀ j, j ≠ 1 → getNode? (syncDataFromMaster c5state 1 2 SyncFate.ok).1 j = getNode? c5state j)) :=
  ⟨⟨by decide, rfl, rfl⟩,
    claim5_sync_effect c5state 1 2 _ _ (by decide) rfl rfl rfl rfl⟩

/-- Counterexample to claim C9 as stated: two consecutive successful
syncs with no intervening writes do NOT leave the target's record set
unchanged after the second call — each resync deletes everything and
re-inserts with freshly generated identities, so the stored records
differ in their identity fields (rid 50 after the first call, rid 51
after the second). -/
theorem claim9_cex :
    (getNode? (syncDataFromMaster c9state 1 2 SyncFate.ok).1 1).map (fun n => n.store.recs) =
      some [{ rid := 50, data := "x", createdAt := 2 }] ∧
    (getNode? (syncDataFromMaster (syncDataFromMaster c9state 1 2 SyncFate.ok).1 1 2
        SyncFate.ok).1 1).map (fun n => n.store.recs) =
      some [{ rid := 51, data := "x", createdAt := 2 }] ∧
    ¬ ([{ rid := 51, data := "x", createdAt := 2 }] : List Rec) =
      [{ rid := 50, data := "x", createdAt := 2 }] := by
  refine ⟨rfl, rfl, by decide⟩

/-- Claim C9 (amended): resync is idempotent up to the regenerated
identity fields — for every target and source, running
`synchronize(target, source)` twice in succession with no intervening
writes leaves the target's record set after the second call equal, as a
sequence of (payload, timestamp) pairs, to its record set after the
first call. -/
theorem claim9_sync_idempotent (s : ClusterState) (tgt src : Nat) (n1 n2 : Node)
    (h1 : getNode? (syncDataFromMaster s tgt src SyncFate.ok).1 tgt = some n1)
    (h2 : getNode? (syncDataFromMaster (syncDataFromMaster s tgt src SyncFate.ok).1 tgt src
      SyncFate.ok).1 tgt = some n2) :
    projRecs n2.store.recs = projRecs n1.store.recs := by
  by_cases he : tgt = src
  · subst he
    have hid := sync_self s tgt SyncFate.ok
    rw [hid] at h1
    dsimp only at h1
    rw [hid] at h2
    dsimp only at h2
    rw [hid] at h2
    dsimp only at h2
    rw [h1] at h2
    injection h2 with h2
    rw [h2]
  · cases hdb : getNode? s tgt with
    | none =>
      have hid : syncDataFromMaster s tgt src SyncFate.ok = (s, false) := by
        unfold syncDataFromMaster
        rw [if_neg (by simp [he]), hdb]
      rw [hid] at h1
      dsimp only at h1
      rw [hid] at h2
      dsimp only at h2
      rw [hid] at h2
      dsimp only at h2
      rw [h1] at h2
      injection h2 with h2
      rw [h2]
    | some db =>
      cases hmaster : getNode? s src with
      | none =>
        have hid : syncDataFromMaster s tgt src SyncFate.ok = (s, false) := by
          unfold syncDataFromMaster
          rw [if_neg (by simp [he]), hdb, hmaster]
        rw [hid] at h1
        dsimp only at h1
        rw [hid] at h2
        dsimp only at h2
        rw [hid] at h2
        dsimp only at h2
        rw [h1] at h2
        injection h2 with h2
        rw [h2]
      | some master =>
        by_cases hmm : db.hasModels && master.hasModels
        · have hm1 : db.hasModels = true := by
            rcases Bool.and_eq_true_iff.mp hmm with ⟨a, _⟩
            exact a
          have hm2 : master.hasModels = true := by
            rcases Bool.and_eq_true_iff.mp hmm with ⟨_, b⟩
            exact b
          have hs1tgt := sync_ok_tgt s tgt src db master he hdb hmaster hm1 hm2
          have hs1src := sync_ok_src s tgt src db master he hdb hmaster hm1 hm2
          have hn1 : n1 = { db with
              term := master.term,
              store := { db.store with
                recs := freshRecs master.store.recs db.store.nextId,
                nextId := db.store.nextId + master.store.recs.length,
                term := db.store.term.map (fun _ => master.term) } } := by
            rw [hs1tgt] at h1
            injection h1 with h1
            exact h1.symm
          have hm1n : n1.hasModels = true := by
            rw [hn1]
            exact hm1
          have hs2tgt := sync_ok_tgt (syncDataFromMaster s tgt src SyncFate.ok).1 tgt src
            n1 master he h1 hs1src hm1n hm2
          rw [hs2tgt] at h2
          injection h2 with h2
          rw [← h2]
          have hL : projRecs (freshRecs master.store.recs n1.store.nextId) =
              projRecs master.store.recs := projRecs_freshRecs _ _
          have hR : projRecs n1.store.recs = projRecs master.store.recs := by
            rw [hn1]
            exact projRecs_freshRecs _ _
          exact hL.trans hR.symm
        · have hid : syncDataFromMaster s tgt src SyncFate.ok = (s, false) := by
            unfold syncDataFromMaster
            rw [if_neg (by simp [he]), hdb, hmaster]
            dsimp only
            rw [if_neg hmm]
          rw [hid] at h1
          dsimp only at h1
          rw [hid] at h2
          dsimp only at h2
          rw [hid] at h2
          dsimp only at h2
          rw [h1] at h2
          injection h2 with h2
          rw [h2]

/-- Witness for the amended C9 at a concrete state. -/
theorem claim9_witness :
    ((getNode? (syncDataFromMaster c9state 1 2 SyncFate.ok).1 1).isSome = true ∧
      (getNode? (syncDataFromMaster (syncDataFromMaster c9state 1 2 SyncFate.ok).1 1 2
        SyncFate.ok).1 1).isSome = true) ∧
    projRecs ({ rid := 51, data := "x", createdAt := 2 } :: ([] : List Rec)) =
      projRecs ({ rid := 50, data := "x", createdAt := 2 } :: ([] : List Rec)) :=
  ⟨⟨rfl, rfl⟩, claim9_sync_idempotent c9state 1 2 _ _ rfl rfl⟩

/-- Claim C8: `write(payload)` and `update(id, payload)` fail with the
NoCoordinator error and perform no commit whenever no coordinator exists
or the tracked coordinator is not alive; otherwise (coordinator alive,
models present, storage cooperating) the write commits and is
acknowledged; and when all nodes are down, `elect()` yields no
coordinator and a subsequent `write()` fails with NoCoordinator. -/
theorem claim8_no_coordinator_gating :
    (∀ (s : ClusterState) (d : String) (now : Nat) (env : WriteEnv), d ≠ "" →
      (s.coordinator = none → apiWrite s d now env = (s, WriteResult.noCoordinator)) ∧
      (∀ c cn, s.coordinator = some c → getNode? s c = some cn → cn.alive = false →
        apiWrite s d now env = (s, WriteResult.noCoordinator))) ∧
    (∀ (s : ClusterState) (rid : Nat) (d : String) (env : WriteEnv), d ≠ "" →
      (s.coordinator = none → apiUpdate s rid d env = (s, UpdateResult.noCoordinator)) ∧
      (∀ c cn, s.coordinator = some c → getNode? s c = some cn → cn.alive = false →
        apiUpdate s rid d env = (s, UpdateResult.noCoordinator))) ∧
    (∀ (s : ClusterState) (c : Nat) (cn : Node) (d : String) (now : Nat) (env : WriteEnv),
      d ≠ "" → s.coordinator = some c → getNode? s c = some cn → cn.alive = true →
      cn.hasModels = true → env.masterOk = true →
      (apiWrite s d now env).2 = WriteResult.created) ∧
    (∀ (s : ClusterState) (env : ElectEnv), (∀ n, n ∈ s.dbs → n.alive = false) →
      (electCoordinator s env).1.coordinator = none ∧ (electCoordinator s env).2 = false ∧
      (∀ (d : String) (now : Nat) (wenv : WriteEnv), d ≠ "" →
        apiWrite (electCoordinator s env).1 d now wenv =
          ((electCoordinator s env).1, WriteResult.noCoordinator))) := by
  refine ⟨?_, ?_, ?_, ?_⟩
  · intro s d now env hd
    constructor
    · intro hco
      unfold apiWrite
      rw [if_neg hd, hco]
    · intro c cn hco hcn hdead
      unfold apiWrite
      rw [if_neg hd, hco]
      dsimp only
      rw [hcn]
      dsimp only
      rw [if_pos hdead]
  · intro s rid d env hd
    constructor
    · intro hco
      unfold apiUpdate
      rw [if_neg hd, hco]
    · intro c cn hco hcn hdead
      unfold apiUpdate
      rw [if_neg hd, hco]
      dsimp only
      rw [hcn]
      dsimp only
      rw [if_pos hdead]
  · intro s c cn d now env hd hco hcn hal hm hok
    rw [apiWrite_committed s c cn d now env hd hco hcn hal hm hok]
  · intro s env hdead
    rw [elect_all_dead s env hdead]
    refine ⟨rfl, rfl, ?_⟩
    intro d now wenv hd
    unfold apiWrite
    rw [if_neg hd]

/-- Witness for C8: with the tracked coordinator dead, a write fails with
NoCoordinator and changes nothing; with every node dead, an election
clears the coordinator. -/
theorem claim8_witness :
    (("x" : String) ≠ "" ∧ c8state.coordinator = some 2 ∧
      getNode? c8state 2 = some c8deadMaster ∧ c8deadMaster.alive = false ∧
      (∀ n, n ∈ c8state.dbs → n.alive = false)) ∧
    apiWrite c8state "x" 7 c8wenv = (c8state, WriteResult.noCoordinator) ∧
    (electCoordinator c8state { persistOk := fun _ => true, syncFate := fun _ => SyncFate.ok }).1.coordinator
      = none := by
  refine ⟨⟨by decide, rfl, rfl, rfl, ?_⟩, ?_, ?_⟩
  · intro n hn
    rcases List.mem_pair.mp hn with rfl | rfl <;> rfl
  · exact ((claim8_no_coordinator_gating.1 c8state "x" 7 c8wenv (by decide)).2) 2 c8deadMaster
      rfl rfl rfl
  · exact ((claim8_no_coordinator_gating.2.2.2 c8state
      { persistOk := fun _ => true, syncFate := fun _ => SyncFate.ok })
      (fun n hn => by rcases List.mem_pair.mp hn with rfl | rfl <;> rfl)).1

/-- Claim C7: every write (and update) committed on the coordinator is
propagated to every other alive node independently: a propagation
failure on one replica marks exactly that replica not alive, leaves the
other replicas' outcomes unchanged (each replica's final state depends
only on its own propagation fate), and does not roll back the
coordinator's commit or the success acknowledgement. -/
theorem claim7_propagation_independent :
    (∀ (s : ClusterState) (c : Nat) (cn : Node) (d : String) (now : Nat) (env : WriteEnv),
      s.coordinator = some c → getNode? s c = some cn →
      cn.alive = true → cn.hasModels = true → env.masterOk = true → d ≠ "" →
      (s.dbs.map (fun n => n.id)).Nodup →
      (apiWrite s d now env).2 = WriteResult.created ∧
      getNode? (apiWrite s d now env).1 c = some { cn with store := { cn.store with
        recs := cn.store.recs ++ [{ rid := cn.store.nextId, data := d, createdAt := now }],
        nextId := cn.store.nextId + 1 } } ∧
      (∀ j nj, getNode? s j = some nj → nj.alive = true → j ≠ c → nj.hasModels = true →
        (env.slaveOk j = false →
          getNode? (apiWrite s d now env).1 j = some { nj with alive := false }) ∧
        (env.slaveOk j = true →
          getNode? (apiWrite s d now env).1 j = some { nj with store := { nj.store with
            recs := nj.store.recs ++ [{ rid := cn.store.nextId, data := d, createdAt := now }] } }))) ∧
    (∀ (s : ClusterState) (c : Nat) (cn : Node) (rid : Nat) (d : String) (env : WriteEnv),
      s.coordinator = some c → getNode? s c = some cn →
      cn.alive = true → cn.hasModels = true → env.masterOk = true → d ≠ "" →
      (cn.store.recs.any (fun r => r.rid == rid)) = true →
      (s.dbs.map (fun n => n.id)).Nodup →
      (apiUpdate s rid d env).2 = UpdateResult.updated ∧
      getNode? (apiUpdate s rid d env).1 c = some { cn with store := { cn.store with
        recs := updateRecs cn.store.recs rid d } } ∧
      (∀ j nj, getNode? s j = some nj → nj.alive = true → j ≠ c → nj.hasModels = true →
        (env.slaveOk j = false →
          getNode? (apiUpdate s rid d env).1 j = some { nj with alive := false }) ∧
        (env.slaveOk j = true →
          getNode? (apiUpdate s rid d env).1 j = some { nj with store := { nj.store with
            recs := updateRecs nj.store.recs rid d } }))) := by
  constructor
  · intro s c cn d now env hco hcn hal hm hok hd hnd
    rw [apiWrite_committed s c cn d now env hd hco hcn hal hm hok]
    set doc : Rec := { rid := cn.store.nextId, data := d, createdAt := now } with hdoc
    set f1 : Node → Node := (fun n => { n with store := { n.store with
      recs := n.store.recs ++ [doc], nextId := n.store.nextId + 1 } }) with hf1
    set s1 := setNode s c f1 with hs1
    have hids1 : s1.dbs.map (fun n => n.id) = s.dbs.map (fun n => n.id) :=
      skeleton_ids (setNode_skeleton s c f1 (fun n => rfl))
    set slaveIds := ((s1.dbs.filter (fun n => n.alive && n.id != c)).map (fun n => n.id))
      with hsl
    have hslnd : slaveIds.Nodup := slaveIds_nodup (by rw [hids1]; exact hnd)
    have hcnot : c ∉ slaveIds := fun hmem => slaveIds_ne hmem rfl
    refine ⟨rfl, ?_, ?_⟩
    · rw [propagateWrite_getNode?_notin env doc slaveIds s1 c hcnot, hs1,
        getNode?_setNode_self s c f1 (fun n => rfl), hcn]
      rfl
    · intro j nj hnj hnjal hjc hnjm
      have hs1j : getNode? s1 j = some nj := by
        rw [hs1, getNode?_setNode_ne s c j f1 (fun n => rfl) hjc]
        exact hnj
      have hmem : j ∈ slaveIds := by
        rw [hsl]
        refine List.mem_map.mpr ⟨nj, ?_, (getNode?_id hnj).1⟩
        refine List.mem_filter.mpr ⟨(getNode?_id hs1j).2, ?_⟩
        have hjid : nj.id = j := (getNode?_id hnj).1
        simp [hnjal, hjid, hjc]
      have hat := propagateWrite_at env doc slaveIds s1 j hslnd hmem
      rw [hs1j] at hat
      constructor
      · intro hfail
        rw [hat]
        simp [hnjm, hfail]
      · intro hokj
        rw [hat]
        simp [hnjm, hokj]
  · intro s c cn rid d env hco hcn hal hm hok hd hfound hnd
    rw [apiUpdate_committed s c cn rid d env hd hco hcn hal hm hok hfound]
    set f1 : Node → Node := (fun n => { n with store := { n.store with
      recs := updateRecs n.store.recs rid d } }) with hf1
    set s1 := setNode s c f1 with hs1
    have hids1 : s1.dbs.map (fun n => n.id) = s.dbs.map (fun n => n.id) :=
      skeleton_ids (setNode_skeleton s c f1 (fun n => rfl))
    set slaveIds := ((s1.dbs.filter (fun n => n.alive && n.id != c)).map (fun n => n.id))
      with hsl
    have hslnd : slaveIds.Nodup := slaveIds_nodup (by rw [hids1]; exact hnd)
    have hcnot : c ∉ slaveIds := fun hmem => slaveIds_ne hmem rfl
    refine ⟨rfl, ?_, ?_⟩
    · rw [propagateUpdate_getNode?_notin env rid d slaveIds s1 c hcnot, hs1,
        getNode?_setNode_self s c f1 (fun n => rfl), hcn]
      rfl
    · intro j nj hnj hnjal hjc hnjm
      have hs1j : getNode? s1 j = some nj := by
        rw [hs1, getNode?_setNode_ne s c j f1 (fun n => rfl) hjc]
        exact hnj
      have hmem : j ∈ slaveIds := by
        rw [hsl]
        refine List.mem_map.mpr ⟨nj, ?_, (getNode?_id hnj).1⟩
        refine List.mem_filter.mpr ⟨(getNode?_id hs1j).2, ?_⟩
        have hjid : nj.id = j := (getNode?_id hnj).1
        simp [hnjal, hjid, hjc]
      have hat := propagateUpdate_at env rid d slaveIds s1 j hslnd hmem
      rw [hs1j] at hat
      constructor
      · intro hfail
        rw [hat]
        simp [hnjm, hfail]
      · intro hokj
        rw [hat]
        simp [hnjm, hokj]

/-- Witness for C7: the replica's propagation fails, the replica is
marked not alive, and the write still succeeds with the coordinator's
commit in place. -/
theorem claim7_witness :
    (c7state.coordinator = some 2 ∧ getNode? c7state 2 = some c7master ∧
      c7master.alive = true ∧ c7master.hasModels = true ∧ c7env.masterOk = true ∧
      ("r" : String) ≠ "" ∧ (c7state.dbs.map (fun n => n.id)).Nodup ∧
      getNode? c7state 1 = some c7slave ∧ c7slave.alive = true ∧ (1 : Nat) ≠ 2 ∧
      c7slave.hasModels = true ∧ c7env.slaveOk 1 = false) ∧
    ((apiWrite c7state "r" 9 c7env).2 = WriteResult.created ∧
      getNode? (apiWrite c7state "r" 9 c7env).1 2 = some { c7master with store := { c7master.store with
        recs := c7master.store.recs ++ [{ rid := 0, data := "r", createdAt := 9 }],
        nextId := 1 } } ∧
      getNode? (apiWrite c7state "r" 9 c7env).1 1 = some { c7slave with alive := false }) := by
  have hmain := (claim7_propagation_independent.1 c7state 2 c7master "r" 9 c7env
    rfl rfl rfl rfl rfl (by decide) (by decide))
  refine ⟨⟨rfl, rfl, rfl, rfl, rfl, by decide, by decide, rfl, rfl, by decide, rfl, rfl⟩,
    hmain.1, hmain.2.1, ?_⟩
  exact ((hmain.2.2 1 c7slave rfl rfl (by decide) rfl).1) rfl

/-- Counterexample to claim C6 as stated: when `syncDataFromMaster` fails
mid-sync in the election path (server.js lines 211-219 have no
`try`/`catch`), the target is NOT left marked not alive — the error
propagates out of `electCoordinator` uncaught, aborting the run with the
target still `alive=true`. -/
theorem claim6_cex :
    (electCoordinator c6state c6env).2 = true ∧
    (getNode? (electCoordinator c6state c6env).1 1).map (fun n => n.alive) = some true := by
  refine ⟨rfl, rfl⟩

/-- Claim C6 (amended): a mid-sync storage failure leaves the target
marked not alive only in the health-monitor rejoin path: in the
`connectDBs` branch that reconnects a dead node and syncs it from the
master, a thrown sync marks the target dead again (with its role
untouched).  In every path, the persisted term update is the last step of
`syncDataFromMaster`: a failure at the read, delete or insert step leaves
both the target's in-memory and persisted term unchanged, and any
non-successful run leaves every node's persisted term unchanged (the
in-memory term is assigned just before the persist, so only a persist
failure can leave it updated without the persisted copy). -/
theorem claim6_sync_failure_handling :
    (∀ (s : ClusterState) (env : ConnEnv) (mId i : Nat) (db : Node),
      getNode? s i = some db → db.alive = false → env.connOk i = true →
      (syncDataFromMaster (setNode s i (fun n => { n with hasModels := true, alive := true }))
        i mId (env.syncFate i)).2 = true →
      ∃ n', getNode? (reconnectWithMaster env mId s i) i = some n' ∧ n'.alive = false ∧
        n'.role = db.role) ∧
    (∀ (s : ClusterState) (i m : Nat) (fate : SyncFate),
      fate = SyncFate.failRead ∨ fate = SyncFate.failDelete ∨ fate = SyncFate.failInsert →
      (getNode? (syncDataFromMaster s i m fate).1 i).map (fun n => (n.term, n.store.term)) =
        (getNode? s i).map (fun n => (n.term, n.store.term))) ∧
    (∀ (s : ClusterState) (i m : Nat) (fate : SyncFate), fate ≠ SyncFate.ok →
      ∀ j, (getNode? (syncDataFromMaster s i m fate).1 j).map (fun n => n.store.term) =
        (getNode? s j).map (fun n => n.store.term)) := by
  refine ⟨?_, ?_, ?_⟩
  · intro s env mId i db hdb hal hconn hthrow
    unfold reconnectWithMaster
    rw [hdb]
    dsimp only
    rw [if_pos hal, if_pos hconn]
    cases hs : syncDataFromMaster (setNode s i (fun n => { n with hasModels := true, alive := true }))
        i mId (env.syncFate i) with
    | mk s2 threw =>
      rw [hs] at hthrow
      dsimp only at hthrow
      subst hthrow
      rw [if_pos rfl]
      have hkey := sync_key (setNode s i (fun n => { n with hasModels := true, alive := true }))
        i mId (env.syncFate i) i
      rw [hs] at hkey
      dsimp only at hkey
      rw [getNode?_setNode_self s i (fun n => { n with hasModels := true, alive := true })
        (fun n => rfl), hdb] at hkey
      rcases Option.map_eq_some'.mp hkey with ⟨n2, hn2, hn2key⟩
      have hrole : n2.role = db.role := congrArg (fun k : Nat × Bool × Role × Bool => k.2.2.1) hn2key
      refine ⟨{ n2 with alive := false }, ?_, rfl, hrole⟩
      rw [getNode?_setNode_self s2 i (fun n => { n with alive := false }) (fun n => rfl), hn2]
      rfl
  · intro s i m fate hfate
    rcases hfate with rfl | rfl | rfl
    · rw [sync_failRead_state]
    · rw [sync_failDelete_state]
    · rcases sync_failInsert_state s i m with h | h
      · rw [h]
      · rw [h]
        apply getNode?_map_setNode
        · intro n
          rfl
        · intro n
          rfl
  · intro s i m fate hfate j
    cases fate with
    | ok => exact absurd rfl hfate
    | failRead => rw [sync_failRead_state]
    | failDelete => rw [sync_failDelete_state]
    | failInsert =>
      rcases sync_failInsert_state s i m with h | h
      · rw [h]
      · rw [h]
        apply getNode?_map_setNode
        · intro n
          rfl
        · intro n
          rfl
    | failPersist =>
      rcases sync_failPersist_state s i m with h | h
      · rw [h]
      · rcases h with ⟨master, _, h⟩
        rw [h]
        apply getNode?_map_setNode
        · intro n
          rfl
        · intro n
          rfl

/-- Witness for the amended C6 at a concrete rejoin scenario. -/
theorem claim6_witness :
    (getNode? c6rejoinState 1 = some c6rejoinDead ∧ c6rejoinDead.alive = false ∧
      c6rejoinEnv.connOk 1 = true ∧
      (syncDataFromMaster (setNode c6rejoinState 1
        (fun n => { n with hasModels := true, alive := true })) 1 2
        (c6rejoinEnv.syncFate 1)).2 = true) ∧
    (∃ n', getNode? (reconnectWithMaster c6rejoinEnv 2 c6rejoinState 1) 1 = some n' ∧
      n'.alive = false ∧ n'.role = c6rejoinDead.role) := by
  refine ⟨⟨rfl, rfl, rfl, rfl⟩, ?_⟩
  exact claim6_sync_failure_handling.1 c6rejoinState c6rejoinEnv 2 1 c6rejoinDead rfl rfl rfl rfl

/-- Claim C2: the stale-reject gate.  (1) A candidate whose in-memory
term is strictly below the highest alive term is rejected by
`canBecomeMaster` for this pass, with no synchronization when no
coordinator is tracked and a synchronization from the tracked
coordinator when one exists.  (2) During every `electCoordinator` run,
any node that newly acquires role=master passed the gate at the moment
it was checked: there is a state reached from the start of the pass by
completed candidate rejections at which its term was not below the
highest alive term. -/
theorem claim2_stale_reject_gate :
    (∀ (s : ClusterState) (i : Nat) (fate : SyncFate) (db : Node),
      getNode? s i = some db → db.term < getHighestTerm s →
      (canBecomeMaster s i fate).2.1 = false ∧
      (s.coordinator = none → canBecomeMaster s i fate = (s, false, false)) ∧
      (∀ c mn, s.coordinator = some c → getNode? s c = some mn →
        canBecomeMaster s i fate =
          ((syncDataFromMaster s i c fate).1, false, (syncDataFromMaster s i c fate).2))) ∧
    (∀ (s : ClusterState) (env : ElectEnv) (j : Nat) (n n' : Node),
      getNode? s j = some n → n.role ≠ Role.master →
      getNode? (electCoordinator s env).1 j = some n' → n'.role = Role.master →
      ∃ s0 m, ScanReach env { s with globalTerm := s.globalTerm + 1 } s0 ∧
        getNode? s0 j = some m ∧ ¬ (m.term < getHighestTerm s0)) := by
  constructor
  · intro s i fate db hdb hlt
    unfold canBecomeMaster
    rw [hdb]
    dsimp only
    rw [if_pos hlt]
    refine ⟨?_, ?_, ?_⟩
    · cases hco : s.coordinator with
      | none => rfl
      | some c =>
        dsimp only
        cases hcn : getNode? s c with
        | none => rfl
        | some mn =>
          dsimp only
    · intro hco
      rw [hco]
    · intro c mn hco hcn
      rw [hco]
      dsimp only
      rw [hcn]
  · intro s env j n n' hn hnm h hr
    unfold electCoordinator at h
    dsimp only at h
    exact electScan_master_gate env (s.globalTerm + 1)
      (candidateIds { s with globalTerm := s.globalTerm + 1 })
      (candidateIds { s with globalTerm := s.globalTerm + 1 })
      { s with globalTerm := s.globalTerm + 1 } j n n' hn hnm h hr

/-- Witness for C2: a candidate with term 1 against a highest alive term
of 5 is rejected, and with no tracked coordinator the rejection leaves
the state unchanged. -/
theorem claim2_witness :
    (getNode? c2state 2 = some c2low ∧ c2low.term < getHighestTerm c2state ∧
      c2state.coordinator = none) ∧
    (canBecomeMaster c2state 2 SyncFate.ok).2.1 = false ∧
    canBecomeMaster c2state 2 SyncFate.ok = (c2state, false, false) := by
  have hmain := claim2_stale_reject_gate.1 c2state 2 SyncFate.ok c2low rfl (by decide)
  exact ⟨⟨rfl, by decide, rfl⟩, hmain.1, hmain.2.1 rfl⟩

/-- Claim C4: postcondition of every completed `electCoordinator()` run
that produces a winner (on a registry with unique node ids whose alive
nodes have their models): the winner has role=master, in-memory term
`globalTerm + 1` and that term persisted; every other node alive at entry
is a slave with the same in-memory and persisted term, fully resynced
from the winner (its payload/timestamp sequence equals the winner's);
and every alive node's in-memory term equals the new coordinator's term
`globalTerm + 1`. -/
theorem claim4_elect_postcondition (s : ClusterState) (env : ElectEnv)
    (hnd : (s.dbs.map (fun n => n.id)).Nodup)
    (hm : ∀ n, n ∈ s.dbs → n.alive = true → n.hasModels = true)
    (t : ClusterState) (w : Nat)
    (hrun : electCoordinator s env = (t, false))
    (hw : t.coordinator = some w) :
    (∃ wn, getNode? t w = some wn ∧ wn.role = Role.master ∧
      wn.term = s.globalTerm + 1 ∧ wn.store.term = some (s.globalTerm + 1) ∧
      (∀ n, n ∈ s.dbs → n.alive = true → n.id ≠ w →
        ∃ m, getNode? t n.id = some m ∧ m.role = Role.slave ∧
          m.term = s.globalTerm + 1 ∧ m.store.term = some (s.globalTerm + 1) ∧
          projRecs m.store.recs = projRecs wn.store.recs)) ∧
    (∀ m, m ∈ t.dbs → m.alive = true → m.term = s.globalTerm + 1) := by
  have hrun' : electScan env (s.globalTerm + 1) (candidateIds s)
      { s with globalTerm := s.globalTerm + 1 } (candidateIds s) = (t, false) := hrun
  have hmods : ∀ i, i ∈ candidateIds s →
      ∃ n, getNode? { s with globalTerm := s.globalTerm + 1 } i = some n ∧
        n.hasModels = true := by
    intro i hi
    obtain ⟨x, hx, hal, hid⟩ := mem_candidateIds hi
    have hg : getNode? s x.id = some x := getNode?_self_nodup hnd hx
    refine ⟨x, ?_, hm x hx hal⟩
    rw [← hid]
    exact hg
  obtain ⟨wn, htw, hwr, hwt, hwst, hrest⟩ :=
    electScan_post env (s.globalTerm + 1) (candidateIds s) (candidateIds s)
      { s with globalTerm := s.globalTerm + 1 } t (candidateIds_nodup hnd) (fun j hj => hj)
      hmods hrun' w hw
  have hl : liveMap t = liveMap s := by
    have h := liveMap_electScan env (s.globalTerm + 1) (candidateIds s) (candidateIds s)
      { s with globalTerm := s.globalTerm + 1 }
    rw [hrun'] at h
    exact h
  constructor
  · refine ⟨wn, htw, hwr, hwt, hwst, ?_⟩
    intro n hn hal hnw
    exact hrest n.id (mem_candidateIds_of_alive hn hal) hnw
  · intro m hmt hmal
    have htnd : (t.dbs.map (fun n => n.id)).Nodup := by
      rw [ids_of_liveMap_eq hl]
      exact hnd
    have hgm : getNode? t m.id = some m := getNode?_self_nodup htnd hmt
    obtain ⟨n, hns, hnid, hnal⟩ := alive_mem_of_liveMap hl hmt hmal
    by_cases hmw : m.id = w
    · rw [hmw, htw] at hgm
      injection hgm with hgm
      rw [← hgm]
      exact hwt
    · obtain ⟨m2, hm2, _, hm2t, _, _⟩ :=
        hrest m.id (hnid ▸ mem_candidateIds_of_alive hns hnal) hmw
      rw [hgm] at hm2
      injection hm2 with hm2
      rw [hm2]
      exact hm2t

/-- Witness for C4: a completed election over two fresh alive nodes makes
node 2 master with term 1 persisted, and node 1 a resynced slave at
term 1. -/
theorem claim4_witness :
    (c4state.dbs.map (fun n => n.id)).Nodup ∧
    (∀ n, n ∈ c4state.dbs → n.alive = true → n.hasModels = true) ∧
    electCoordinator c4state c4env = (c4post, false) ∧
    c4post.coordinator = some 2 ∧
    ((∃ wn, getNode? c4post 2 = some wn ∧ wn.role = Role.master ∧
      wn.term = c4state.globalTerm + 1 ∧ wn.store.term = some (c4state.globalTerm + 1) ∧
      (∀ n, n ∈ c4state.dbs → n.alive = true → n.id ≠ 2 →
        ∃ m, getNode? c4post n.id = some m ∧ m.role = Role.slave ∧
          m.term = c4state.globalTerm + 1 ∧ m.store.term = some (c4state.globalTerm + 1) ∧
          projRecs m.store.recs = projRecs wn.store.recs)) ∧
    (∀ m, m ∈ c4post.dbs → m.alive = true → m.term = c4state.globalTerm + 1)) :=
  ⟨by decide, by decide, rfl, rfl,
    claim4_elect_postcondition c4state c4env (by decide) (by decide) c4post 2 rfl rfl⟩

/-- Counterexample to claim C3 as stated: a process started against
storage already holding persisted terms 5 (node 2) and 7 (node 1) runs
one health pass and the startup election; node 1 wins with adopted term
1, which does not exceed the previously recorded term 7, and node 1's
persisted term decreases from 7 to 1. -/
theorem claim3_cex :
    ReachFrom InitAny c3mid ∧ Step c3mid c3post ∧
    persistedTerm c3mid 1 = some 7 ∧ persistedTerm c3post 1 = some 1 ∧
    c3post.coordinator = some 1 ∧
    (getNode? c3mid 1).map (fun n => n.term) = some 7 ∧
    (getNode? c3post 1).map (fun n => n.term) = some 1 := by
  refine ⟨?_, ?_, ?_, ?_, ?_, ?_, ?_⟩
  · exact ReachFrom.step _ _ (ReachFrom.base _ ⟨c3store2, c3store1, rfl⟩)
      (Step.health _ c3connEnv)
  · exact Step.elect c3mid c3env (by decide)
  · rfl
  · rfl
  · rfl
  · rfl
  · rfl

/-- Claim C3 (amended): in runs started on fresh storage (no pre-existing
nonzero persisted term), every in-memory and persisted term is bounded by
`globalTerm`; across every operation (health pass, election — completed
or aborted — write, update) `globalTerm` never decreases and every node's
persisted term is non-decreasing (an absent term document is below every
present one); and every completed election that yields a winner gives it
term `globalTerm + 1`, persisted, which strictly exceeds every in-memory
and persisted term recorded in the pre-election state.  (As stated the
claim is false for starts against storage holding nonzero terms: see the
counterexample.) -/
theorem claim3_fresh_term_monotonicity (s : ClusterState)
    (hreach : ReachFrom InitZero s) :
    (∀ n, n ∈ s.dbs → n.term ≤ s.globalTerm ∧
      ∀ v, n.store.term = some v → v ≤ s.globalTerm) ∧
    (∀ t, Step s t → s.globalTerm ≤ t.globalTerm ∧
      ∀ j, optTermLe (persistedTerm s j) (persistedTerm t j)) ∧
    (∀ env u w, electTriggerB s = true → electCoordinator s env = (u, false) →
      u.coordinator = some w →
      ∃ wn, getNode? u w = some wn ∧ wn.term = s.globalTerm + 1 ∧
        wn.store.term = some (s.globalTerm + 1) ∧
        ∀ n, n ∈ s.dbs → n.term < wn.term ∧
          ∀ v, n.store.term = some v → v < wn.term) := by
  have hz := invZ_reach hreach
  refine ⟨hz.2.1, ?_, ?_⟩
  · intro t hst
    exact (invZ_step hz hst).2
  · intro env u w htr hrun hw
    have hrun' : electScan env (s.globalTerm + 1) (candidateIds s)
        { s with globalTerm := s.globalTerm + 1 } (candidateIds s) = (u, false) := hrun
    have hnd : (s.dbs.map (fun n => n.id)).Nodup := by
      rw [hz.1.1]
      decide
    have hex : ∀ i, i ∈ candidateIds s →
        ∃ n, getNode? { s with globalTerm := s.globalTerm + 1 } i = some n := by
      intro i hi2
      obtain ⟨x, hx, hal, hid⟩ := mem_candidateIds hi2
      refine ⟨x, ?_⟩
      rw [← hid]
      exact getNode?_self_nodup hnd hx
    obtain ⟨wn, htw, hwr, hwt, hwst⟩ :=
      electScan_winner env (s.globalTerm + 1) (candidateIds s) (candidateIds s)
        { s with globalTerm := s.globalTerm + 1 } u hex hrun' w hw
    refine ⟨wn, htw, hwt, hwst, ?_⟩
    intro n hn
    rw [hwt]
    obtain ⟨h1, h2⟩ := hz.2.1 n hn
    exact ⟨Nat.lt_succ_of_le h1, fun v hv => Nat.lt_succ_of_le (h2 v hv)⟩

/-- Witness for the amended C3 at a fresh-storage start state. -/
theorem claim3_witness :
    ReachFrom InitZero c3zState ∧
    ((∀ n, n ∈ c3zState.dbs → n.term ≤ c3zState.globalTerm ∧
      ∀ v, n.store.term = some v → v ≤ c3zState.globalTerm) ∧
    (∀ t, Step c3zState t → c3zState.globalTerm ≤ t.globalTerm ∧
      ∀ j, optTermLe (persistedTerm c3zState j) (persistedTerm t j)) ∧
    (∀ env u w, electTriggerB c3zState = true →
      electCoordinator c3zState env = (u, false) →
      u.coordinator = some w →
      ∃ wn, getNode? u w = some wn ∧ wn.term = c3zState.globalTerm + 1 ∧
        wn.store.term = some (c3zState.globalTerm + 1) ∧
        ∀ n, n ∈ c3zState.dbs → n.term < wn.term ∧
          ∀ v, n.store.term = some v → v < wn.term)) :=
  ⟨ReachFrom.base _ ⟨c3zStore2, c3zStore1, rfl, Or.inl rfl, Or.inr rfl⟩,
    claim3_fresh_term_monotonicity c3zState
      (ReachFrom.base _ ⟨c3zStore2, c3zStore1, rfl, Or.inl rfl, Or.inr rfl⟩)⟩

end MongoReplica
